import Mathlib

/-!
# Verification of the dsx-erp inventory core

A shallow embedding of the inventory state-transition and availability
engine of the dsx-erp backend (`app/api/api_v1/endpoints/inventory.py`,
`purchase_orders.py`, `combo_products.py` and the pydantic schemas in
`app/schemas`).  Python integers are modelled as `Int`; Python floor
division `//` is `Int.fdiv`; SQLAlchemy tables are association lists keyed
by the same columns; a request handler that raises before `commit` leaves
the store unchanged, so fallible handlers return `Except ApiError State`
and an `error` result stands for "rolled back, no mutation".
-/

namespace DsxErp

/-- The four inventory states of `InventoryStatus` (models/inventory.py). -/
inductive InvStatus where
  | inTransit
  | semiFinished
  | finished
  | shipped
deriving Repr, DecidableEq

/-- Purchase order statuses (`OrderStatus` in models/purchase_order.py). -/
inductive OrderStatus where
  | pending
  | partialStatus
  | completed
  | cancelled
deriving Repr, DecidableEq

/-- Error outcomes of the endpoints (HTTP 4xx/5xx detail families).
`attributeError` models an unhandled Python `AttributeError` escaping a
handler (HTTP 500; the session is rolled back, nothing is committed). -/
inductive ApiError where
  | notFound
  | insufficientStock
  | overReceipt
  | stateConflict
  | badRequest
  | attributeError
deriving Repr, DecidableEq

/-- `InventoryRecord` (models/inventory.py): one row per
(product, warehouse), four integer counters. -/
structure InventoryRecord where
  product_id : Nat
  warehouse_id : Nat
  in_transit : Int
  semi_finished : Int
  finished : Int
  shipped : Int
deriving Repr, DecidableEq

/-- `InventoryTransaction` (models/inventory.py): append-only log row.
`transaction_type` strings of the source (采购/到货/打包/出库/包材消耗/取消采购)
are modelled as an enum. -/
inductive TxType where
  | purchase
  | arrival
  | packTx
  | shipTx
  | packagingConsumption
  | cancelPurchase
deriving Repr, DecidableEq

structure InventoryTransaction where
  product_id : Nat
  warehouse_id : Nat
  transaction_type : TxType
  from_status : Option InvStatus
  to_status : Option InvStatus
  quantity : Int
  reference_id : Option Nat
deriving Repr, DecidableEq

/-- `PurchaseOrderItem` (models/purchase_order.py). -/
structure PurchaseOrderItem where
  id : Nat
  product_id : Nat
  quantity : Int
  received_quantity : Int
deriving Repr, DecidableEq

/-- `PurchaseOrder` (models/purchase_order.py); fields not used by the
claims (order number, supplier, amounts) are omitted. -/
structure PurchaseOrder where
  id : Nat
  warehouse_id : Nat
  status : OrderStatus
  items : List PurchaseOrderItem
deriving Repr, DecidableEq

/-- `ComboInventoryRecord` (models/combo_product.py). -/
structure ComboInventoryRecord where
  combo_product_id : Nat
  warehouse_id : Nat
  finished : Int
  shipped : Int
deriving Repr, DecidableEq

/-- `ComboInventoryTransaction` (models/combo_product.py): types 组装/出库. -/
inductive ComboTxType where
  | assembleTx
  | shipComboTx
deriving Repr, DecidableEq

structure ComboInventoryTransaction where
  combo_product_id : Nat
  warehouse_id : Nat
  transaction_type : ComboTxType
  quantity : Int
deriving Repr, DecidableEq

/-- A packaging relation row: `packaging_id` plus packaging units consumed
per one unit of the owner (`ProductPackagingRelation`,
`ComboProductPackagingRelation`, `ComboItemPackagingRelation`). -/
structure PackagingRelation where
  packaging_id : Nat
  quantity : Int
deriving Repr, DecidableEq

/-- `ComboProductItem` with its `ComboItemPackagingRelation` rows. -/
structure ComboProductItem where
  base_product_id : Nat
  quantity : Int
  packaging_relations : List PackagingRelation
deriving Repr, DecidableEq

/-- `ComboProduct` with its items and combo-level packaging relations. -/
structure ComboProduct where
  id : Nat
  combo_items : List ComboProductItem
  packaging_relations : List PackagingRelation
deriving Repr, DecidableEq

/-- `SaleType` (models/product.py): 商品 (product) or 包材 (packaging). -/
inductive SaleType where
  | product
  | packaging
deriving Repr, DecidableEq

/-- `Product` (models/product.py) with its `ProductPackagingRelation` rows
and the legacy self-referential `packaging_id`. -/
structure Product where
  id : Nat
  sale_type : SaleType
  packaging_id : Option Nat
  packaging_relations : List PackagingRelation
deriving Repr, DecidableEq

/-- The catalog tables the inventory engine reads but never writes. -/
structure Catalog where
  products : List Product
  combos : List ComboProduct
deriving Repr, DecidableEq

/-- The mutable store: inventory counters, purchase orders, both
transaction logs, and the autoincrement id counters of the DB. -/
structure SysState where
  inventory : List InventoryRecord
  orders : List PurchaseOrder
  invLog : List InventoryTransaction
  comboInventory : List ComboInventoryRecord
  comboLog : List ComboInventoryTransaction
  next_order_id : Nat
  next_item_id : Nat
deriving Repr, DecidableEq

def SysState.empty : SysState :=
  { inventory := [], orders := [], invLog := [], comboInventory := [],
    comboLog := [], next_order_id := 1, next_item_id := 1 }

/-! ## Table primitives

`select ... where product_id == p and warehouse_id == w` returns the (unique)
matching row; mutating the fetched ORM object updates that row in place. -/

def lookupInv (db : List InventoryRecord) (p w : Nat) : Option InventoryRecord :=
  db.find? (fun r => r.product_id == p && r.warehouse_id == w)

/-- Replace the counters of the row keyed (p, w); `f` must not touch the
key columns (every use below only rewrites counters). -/
def modifyInv (db : List InventoryRecord) (p w : Nat)
    (f : InventoryRecord → InventoryRecord) : List InventoryRecord :=
  db.map (fun r => if r.product_id == p && r.warehouse_id == w then f r else r)

def lookupCombo (db : List ComboInventoryRecord) (c w : Nat) :
    Option ComboInventoryRecord :=
  db.find? (fun r => r.combo_product_id == c && r.warehouse_id == w)

def modifyCombo (db : List ComboInventoryRecord) (c w : Nat)
    (f : ComboInventoryRecord → ComboInventoryRecord) :
    List ComboInventoryRecord :=
  db.map (fun r => if r.combo_product_id == c && r.warehouse_id == w then f r else r)

def lookupOrder (db : List PurchaseOrder) (oid : Nat) : Option PurchaseOrder :=
  db.find? (fun o => o.id == oid)

def modifyOrder (db : List PurchaseOrder) (oid : Nat)
    (f : PurchaseOrder → PurchaseOrder) : List PurchaseOrder :=
  db.map (fun o => if o.id == oid then f o else o)

/-! ## Endpoint helper functions (purchase_orders.py / inventory.py) -/

/-- `inventory.in_transit = max(0, inventory.in_transit + quantity)`. -/
def addInTransitClamped (quantity : Int) (r : InventoryRecord) : InventoryRecord :=
  { r with in_transit := max 0 (r.in_transit + quantity) }

/-- `inventory.semi_finished -= d` (packaging consumption / assembly). -/
def subSemi (d : Int) (r : InventoryRecord) : InventoryRecord :=
  { r with semi_finished := r.semi_finished - d }

/-- `_update_inventory_in_transit` (purchase_orders.py:540-560): lazily
creates the record, clamps the in-transit counter at 0. -/
def update_inventory_in_transit (db : List InventoryRecord) (p w : Nat)
    (quantity : Int) : List InventoryRecord :=
  match lookupInv db p w with
  | none =>
      db ++ [{ product_id := p, warehouse_id := w,
               in_transit := max 0 quantity, semi_finished := 0,
               finished := 0, shipped := 0 }]
  | some _ =>
      modifyInv db p w (addInTransitClamped quantity)

/-- The source-status decrement if/elif chain of `_transfer_inventory`. -/
def transferFrom (fs : String) (q : Int) (r : InventoryRecord) : InventoryRecord :=
  if fs = "in_transit" then { r with in_transit := r.in_transit - q }
  else if fs = "semi_finished" then { r with semi_finished := r.semi_finished - q }
  else if fs = "finished" then { r with finished := r.finished - q }
  else r

/-- The target-status increment if/elif chain of `_transfer_inventory`. -/
def transferTo (ts : String) (q : Int) (r : InventoryRecord) : InventoryRecord :=
  if ts = "semi_finished" then { r with semi_finished := r.semi_finished + q }
  else if ts = "finished" then { r with finished := r.finished + q }
  else if ts = "shipped" then { r with shipped := r.shipped + q }
  else r

/-- `_transfer_inventory` (inventory.py:379-427, duplicated in
purchase_orders.py:563-611).  Statuses are the raw strings the call sites
pass; an unrecognised `from_status`/`to_status` silently falls through the
if/elif chain exactly as in the source. -/
def transfer_inventory (db : List InventoryRecord) (p w : Nat)
    (from_status to_status : String) (quantity : Int) :
    Except ApiError (List InventoryRecord) :=
  match lookupInv db p w with
  | none => .error .notFound
  | some inv =>
    if from_status = "in_transit" && decide (inv.in_transit < quantity) then
      .error .insufficientStock
    else if from_status = "semi_finished" && decide (inv.semi_finished < quantity) then
      .error .insufficientStock
    else if from_status = "finished" && decide (inv.finished < quantity) then
      .error .insufficientStock
    else
      let db := modifyInv db p w (transferFrom from_status quantity)
      let db := modifyInv db p w (transferTo to_status quantity)
      .ok db

/-- `order_item.received_quantity = new_received` applied to the order's
item list (the ORM object mutation in receive's per-line loop). -/
def setItemReceived (iid : Nat) (v : Int) (items : List PurchaseOrderItem) :
    List PurchaseOrderItem :=
  items.map (fun it => if it.id == iid then { it with received_quantity := v } else it)

/-- Store the processed items and recomputed status back on the order. -/
def setOrderItemsStatus (items : List PurchaseOrderItem) (stat : OrderStatus)
    (o : PurchaseOrder) : PurchaseOrder :=
  { o with items := items, status := stat }

/-- Apply a `PurchaseOrderUpdate` payload to an order (unset fields keep
their values). -/
def applyOrderUpdate (wh : Option Nat) (stat : Option OrderStatus)
    (o : PurchaseOrder) : PurchaseOrder :=
  { o with warehouse_id := wh.getD o.warehouse_id, status := stat.getD o.status }

/-- `_create_inventory_transaction`: append one log row. -/
def create_inventory_transaction (log : List InventoryTransaction)
    (p w : Nat) (t : TxType) (fs ts : Option InvStatus) (q : Int)
    (ref : Option Nat) : List InventoryTransaction :=
  log ++ [{ product_id := p, warehouse_id := w, transaction_type := t,
            from_status := fs, to_status := ts, quantity := q,
            reference_id := ref }]

/-! ## Purchase order endpoints (purchase_orders.py) -/

/-- One line of `PurchaseOrderCreate.items`. -/
structure POItemReq where
  product_id : Nat
  quantity : Int
deriving Repr, DecidableEq

/-- The per-item loop of `create_purchase_order` (purchase_orders.py:133-159):
insert the item row, add its quantity to in-transit, log a purchase
transaction.  Item ids are assigned by the DB sequence. -/
def createPOItems (oid w : Nat) :
    List POItemReq → Nat → List InventoryRecord → List InventoryTransaction →
    (List PurchaseOrderItem × Nat × List InventoryRecord × List InventoryTransaction)
  | [], nid, inv, log => ([], nid, inv, log)
  | it :: rest, nid, inv, log =>
      let inv := update_inventory_in_transit inv it.product_id w it.quantity
      let log := create_inventory_transaction log it.product_id w .purchase
        none (some .inTransit) it.quantity (some oid)
      let out := createPOItems oid w rest (nid + 1) inv log
      ({ id := nid, product_id := it.product_id, quantity := it.quantity,
         received_quantity := 0 } :: out.1, out.2)

/-- `create_purchase_order` (purchase_orders.py:107-164).  The endpoint has
no failure path of its own (referential checks are left to the DB). -/
def create_purchase_order (st : SysState) (warehouse_id : Nat)
    (items : List POItemReq) : SysState :=
  let oid := st.next_order_id
  let out := createPOItems oid warehouse_id items st.next_item_id st.inventory st.invLog
  { st with
    orders := st.orders ++ [{ id := oid, warehouse_id := warehouse_id,
                              status := .pending, items := out.1 }],
    inventory := out.2.2.1, invLog := out.2.2.2,
    next_order_id := oid + 1, next_item_id := out.2.1 }

/-- One line of `ReceiveOrderRequest.items`. -/
structure ReceiveLine where
  item_id : Nat
  received_quantity : Int
deriving Repr, DecidableEq

/-- The per-line loop of `receive_order` (purchase_orders.py:229-273): find
the order item, enforce the receipt cap, move the delta from in-transit to
semi-finished, log an arrival transaction. -/
def receiveLines (w oid : Nat) :
    List ReceiveLine → List PurchaseOrderItem → List InventoryRecord →
    List InventoryTransaction →
    Except ApiError (List PurchaseOrderItem × List InventoryRecord × List InventoryTransaction)
  | [], items, inv, log => .ok (items, inv, log)
  | l :: rest, items, inv, log =>
    match items.find? (fun it => it.id == l.item_id) with
    | none => .error .notFound
    | some order_item =>
      let new_received := order_item.received_quantity + l.received_quantity
      if order_item.quantity < new_received then .error .overReceipt
      else
        let items := setItemReceived l.item_id new_received items
        match transfer_inventory inv order_item.product_id w
            "in_transit" "semi_finished" l.received_quantity with
        | .error e => .error e
        | .ok inv =>
          let log := create_inventory_transaction log order_item.product_id w .arrival
            (some .inTransit) (some .semiFinished) l.received_quantity (some oid)
          receiveLines w oid rest items inv log

/-- `receive_order` (purchase_orders.py:201-290). -/
def receive_order (st : SysState) (oid : Nat) (lines : List ReceiveLine) :
    Except ApiError SysState :=
  match lookupOrder st.orders oid with
  | none => .error .notFound
  | some db_order =>
    if db_order.status = .completed then .error .stateConflict
    else
      match receiveLines db_order.warehouse_id oid lines db_order.items
          st.inventory st.invLog with
      | .error e => .error e
      | .ok (items, inv, log) =>
        let all_items_received := items.all (fun it => it.received_quantity == it.quantity)
        let any_items_received := items.any (fun it => decide (0 < it.received_quantity))
        let newStatus :=
          if all_items_received then OrderStatus.completed
          else if any_items_received then OrderStatus.partialStatus
          else db_order.status
        .ok { st with
          orders := modifyOrder st.orders oid (setOrderItemsStatus items newStatus),
          inventory := inv, invLog := log }

/-- `update_purchase_order` (purchase_orders.py:167-198): basic-field
update of a pending order.  `PurchaseOrderUpdate` carries optional
supplier/purchaser/warehouse_id/status; only the fields the claims
mention (warehouse_id, status) are modelled. -/
def update_purchase_order (st : SysState) (oid : Nat) (wh : Option Nat)
    (stat : Option OrderStatus) : Except ApiError SysState :=
  match lookupOrder st.orders oid with
  | none => .error .notFound
  | some o =>
    if o.status ≠ .pending then .error .stateConflict
    else .ok { st with orders := modifyOrder st.orders oid (applyOrderUpdate wh stat) }

/-- The per-item loop of `delete_purchase_order` (purchase_orders.py:320-337):
reverse the in-transit addition (clamped at 0) and log a negative
cancel-purchase transaction. -/
def deletePOItems (w oid : Nat) :
    List PurchaseOrderItem → List InventoryRecord → List InventoryTransaction →
    (List InventoryRecord × List InventoryTransaction)
  | [], inv, log => (inv, log)
  | it :: rest, inv, log =>
    let inv := update_inventory_in_transit inv it.product_id w (-it.quantity)
    let log := create_inventory_transaction log it.product_id w .cancelPurchase
      (some .inTransit) none (-it.quantity) (some oid)
    deletePOItems w oid rest inv log

/-- `delete_purchase_order` (purchase_orders.py:293-342): pending only. -/
def delete_purchase_order (st : SysState) (oid : Nat) : Except ApiError SysState :=
  match lookupOrder st.orders oid with
  | none => .error .notFound
  | some o =>
    if o.status ≠ .pending then .error .stateConflict
    else
      let out := deletePOItems o.warehouse_id oid o.items st.inventory st.invLog
      .ok { st with
            inventory := out.1, invLog := out.2,
            orders := st.orders.filter (fun q => !(q.id == oid)) }

/-! ## Pack and ship endpoints (inventory.py) -/

/-- The multi-relation packaging consumption loop of `package_products`
(inventory.py:221-253). -/
def packConsume (w : Nat) (q : Int) :
    List PackagingRelation → List InventoryRecord → List InventoryTransaction →
    Except ApiError (List InventoryRecord × List InventoryTransaction)
  | [], inv, log => .ok (inv, log)
  | rel :: rest, inv, log =>
    let needed := rel.quantity * q
    match lookupInv inv rel.packaging_id w with
    | none => .error .insufficientStock
    | some pr =>
      if pr.semi_finished < needed then .error .insufficientStock
      else
        let inv := modifyInv inv rel.packaging_id w (subSemi needed)
        let log := create_inventory_transaction log rel.packaging_id w
          .packagingConsumption (some .semiFinished) none (-needed) none
        packConsume w q rest inv log

/-- `package_products` (inventory.py:191-311): consume packaging per BOM
(multi-relation table, falling back to the legacy single packaging_id),
then transfer the product from semi-finished to finished. -/
def package_products (cat : Catalog) (st : SysState) (pid w : Nat) (q : Int) :
    Except ApiError SysState :=
  match cat.products.find? (fun pr => pr.id == pid) with
  | none => .error .notFound
  | some product =>
    let consumed : Except ApiError (List InventoryRecord × List InventoryTransaction) :=
      if product.sale_type = .product then
        if !product.packaging_relations.isEmpty then
          packConsume w q product.packaging_relations st.inventory st.invLog
        else
          match product.packaging_id with
          | some legacy =>
            (match lookupInv st.inventory legacy w with
             | none => .error .insufficientStock
             | some pr =>
               if pr.semi_finished < q then .error .insufficientStock
               else .ok (modifyInv st.inventory legacy w (subSemi q),
                 create_inventory_transaction st.invLog legacy w
                   .packagingConsumption (some .semiFinished) none (-q) none))
          | none => .ok (st.inventory, st.invLog)
      else .ok (st.inventory, st.invLog)
    match consumed with
    | .error e => .error e
    | .ok (inv, log) =>
      match transfer_inventory inv pid w "semi_finished" "finished" q with
      | .error e => .error e
      | .ok inv =>
        .ok { st with
              inventory := inv,
              invLog := create_inventory_transaction log pid w .packTx
                (some .semiFinished) (some .finished) q none }

/-- `ship_products` (inventory.py:314-345): finished → shipped. -/
def ship_products (st : SysState) (pid w : Nat) (q : Int) :
    Except ApiError SysState :=
  match transfer_inventory st.inventory pid w "finished" "shipped" q with
  | .error e => .error e
  | .ok inv =>
    .ok { st with
          inventory := inv,
          invLog := create_inventory_transaction st.invLog pid w .shipTx
            (some .finished) (some .shipped) q none }

/-! ## Combo availability and combo endpoints (combo_products.py) -/

/-- The running minimum of `calculate_available_to_assemble`; `none`
models the initial `float('inf')`. -/
def minOpt (acc : Option Int) (x : Int) : Option Int :=
  match acc with
  | none => some x
  | some m => some (min m x)

/-- Inner loop over a combo item's `ComboItemPackagingRelation` rows
(combo_products.py:1037-1056); the outer `none` models the `return 0`
taken when a packaging record is missing. -/
def availItemPacks (inv : List InventoryRecord) (w : Nat) (itemQ : Int) :
    List PackagingRelation → Option Int → Option (Option Int)
  | [], acc => some acc
  | rel :: rest, acc =>
    match lookupInv inv rel.packaging_id w with
    | none => none
    | some p =>
      let base_product_quantity_from_packaging := Int.fdiv p.semi_finished rel.quantity
      let available_from_packaging := Int.fdiv base_product_quantity_from_packaging itemQ
      availItemPacks inv w itemQ rest (minOpt acc available_from_packaging)

/-- Loop over `combo_items` (combo_products.py:1017-1056). -/
def availItems (inv : List InventoryRecord) (w : Nat) :
    List ComboProductItem → Option Int → Option (Option Int)
  | [], acc => some acc
  | item :: rest, acc =>
    match lookupInv inv item.base_product_id w with
    | none => none
    | some base =>
      let acc := minOpt acc (Int.fdiv base.semi_finished item.quantity)
      match availItemPacks inv w item.quantity item.packaging_relations acc with
      | none => none
      | some acc => availItems inv w rest acc

/-- Loop over the combo's own packaging relations
(combo_products.py:1060-1077). -/
def availComboPacks (inv : List InventoryRecord) (w : Nat) :
    List PackagingRelation → Option Int → Option (Option Int)
  | [], acc => some acc
  | rel :: rest, acc =>
    match lookupInv inv rel.packaging_id w with
    | none => none
    | some p =>
      availComboPacks inv w rest (minOpt acc (Int.fdiv p.semi_finished rel.quantity))

/-- `calculate_available_to_assemble` (combo_products.py:1009-1079;
identical copy `_calculate_available_to_assemble` in inventory.py:985-1055).
Python floor division `//` is `Int.fdiv`. -/
def calculate_available_to_assemble (combo : ComboProduct) (w : Nat)
    (inv : List InventoryRecord) : Int :=
  if combo.combo_items = [] then 0
  else
    match availItems inv w combo.combo_items none with
    | none => 0
    | some acc =>
      match availComboPacks inv w combo.packaging_relations acc with
      | none => 0
      | some none => 0
      | some (some m) => m

/-- `assemble_combo_product` (combo_products.py:786-943).
`ComboProductAssembleRequest` (schemas/combo_product.py:125-129) carries
only `combo_product_id`, `quantity` and `notes` — no `warehouse_id` —
yet right after the 404 combo lookup, and outside the `try`, the handler
evaluates `request.warehouse_id` (combo_products.py:813).  On the
pydantic v2 models of this codebase that raises `AttributeError`, so
every call on an existing combo fails with an unhandled 500 before the
availability check, the deduction loops, the finished increment or the
transaction append run; nothing is committed. -/
def assemble_combo_product (cat : Catalog) (st : SysState) (cid : Nat)
    (q : Int) : Except ApiError SysState :=
  match cat.combos.find? (fun c => c.id == cid) with
  | none => .error .notFound
  | some _ => .error .attributeError

/-- `ship_combo_product` (combo_products.py:946-1006).
`ComboProductShipRequest` (schemas/combo_product.py:132-136) also lacks
`warehouse_id`, and the handler's very first statement — the combo
inventory query — dereferences `request.warehouse_id`
(combo_products.py:960), so every call fails with an unhandled 500
before any lookup, check or mutation. -/
def ship_combo_product (st : SysState) (cid : Nat) (q : Int) :
    Except ApiError SysState :=
  .error .attributeError

/-! ## Request-boundary validation (app/schemas)

Pydantic `Field` constraints, checked before the endpoint body runs. -/

/-- `PurchaseOrderItemCreate.quantity: Field(gt=0)` (schemas/purchase_order.py:13). -/
def poItemReqValid (it : POItemReq) : Bool := decide (0 < it.quantity)

/-- `PurchaseOrderCreate.items: Field(min_length=1)` plus the per-item checks. -/
def purchaseOrderCreateValid (items : List POItemReq) : Bool :=
  !items.isEmpty && items.all poItemReqValid

/-- `ReceiveItemRequest.received_quantity: Field(ge=0)` (schemas/purchase_order.py:90). -/
def receiveItemRequestValid (l : ReceiveLine) : Bool := decide (0 ≤ l.received_quantity)

/-- `ReceiveOrderRequest.items: Field(min_length=1)`. -/
def receiveOrderRequestValid (ls : List ReceiveLine) : Bool :=
  !ls.isEmpty && ls.all receiveItemRequestValid

/-- `PackagingRequest.quantity: Field(gt=0)` (schemas/inventory.py:83). -/
def packagingRequestValid (q : Int) : Bool := decide (0 < q)

/-- `ShippingRequest.quantity: Field(gt=0)` (schemas/inventory.py:90). -/
def shippingRequestValid (q : Int) : Bool := decide (0 < q)

/-- `ComboProductAssembleRequest.quantity: int` — no constraint
(schemas/combo_product.py:125-129). -/
def comboAssembleRequestValid (_q : Int) : Bool := true

/-- `ComboProductShipRequest.quantity: int` — no constraint
(schemas/combo_product.py:132-136). -/
def comboShipRequestValid (_q : Int) : Bool := true

/-! ## The operation machine -/

/-- The core mutating operations of the claims. -/
inductive Op where
  | createPO (warehouse_id : Nat) (items : List POItemReq)
  | receivePO (order_id : Nat) (lines : List ReceiveLine)
  | updatePO (order_id : Nat) (warehouse_id : Option Nat) (status : Option OrderStatus)
  | deletePO (order_id : Nat)
  | packOp (product_id warehouse_id : Nat) (quantity : Int)
  | shipOp (product_id warehouse_id : Nat) (quantity : Int)
  | assembleOp (combo_id : Nat) (quantity : Int)
  | shipComboOp (combo_id : Nat) (quantity : Int)
deriving Repr, DecidableEq

/-- Request-boundary validation per operation. -/
def boundaryOk : Op → Bool
  | .createPO _ items => purchaseOrderCreateValid items
  | .receivePO _ lines => receiveOrderRequestValid lines
  | .updatePO _ _ _ => true
  | .deletePO _ => true
  | .packOp _ _ q => packagingRequestValid q
  | .shipOp _ _ q => shippingRequestValid q
  | .assembleOp _ q => comboAssembleRequestValid q
  | .shipComboOp _ q => comboShipRequestValid q

/-- Dispatch to the endpoint bodies. -/
def applyOp (cat : Catalog) (st : SysState) : Op → Except ApiError SysState
  | .createPO w items => .ok (create_purchase_order st w items)
  | .receivePO oid lines => receive_order st oid lines
  | .updatePO oid wh stat => update_purchase_order st oid wh stat
  | .deletePO oid => delete_purchase_order st oid
  | .packOp pid w q => package_products cat st pid w q
  | .shipOp pid w q => ship_products st pid w q
  | .assembleOp cid q => assemble_combo_product cat st cid q
  | .shipComboOp cid q => ship_combo_product st cid q

/-- One request: boundary validation, then the endpoint; a validation
failure or endpoint error leaves the committed state unchanged. -/
def runOp (cat : Catalog) (st : SysState) (op : Op) : SysState :=
  if boundaryOk op then
    match applyOp cat st op with
    | .ok st' => st'
    | .error _ => st
  else st

def runOps (cat : Catalog) (st : SysState) (ops : List Op) : SysState :=
  ops.foldl (runOp cat) st

/-! ## Specification-side definitions

These follow the wording of the spec and of the claims, to be compared
against the source-derived functions above. -/

/-- Semi-finished stock of a dependency, 0 when no record exists (only
used under `depsPresent`). -/
def semiOf (inv : List InventoryRecord) (w pid : Nat) : Int :=
  match lookupInv inv pid w with
  | none => 0
  | some r => r.semi_finished

/-- Every dependency (base product, item-level packaging, combo-level
packaging) has an InventoryRecord in the warehouse. -/
def depsPresent (inv : List InventoryRecord) (w : Nat) (combo : ComboProduct) : Bool :=
  combo.combo_items.all (fun item =>
    (lookupInv inv item.base_product_id w).isSome &&
    item.packaging_relations.all (fun rel => (lookupInv inv rel.packaging_id w).isSome)) &&
  combo.packaging_relations.all (fun rel => (lookupInv inv rel.packaging_id w).isSome)

/-- The constraints one ComboProductItem contributes:
`floor(base_stock / q_i)` plus one
`floor(floor(pack_stock / p) / q_i)` per item-level packaging relation. -/
def itemConstraints (inv : List InventoryRecord) (w : Nat) (item : ComboProductItem) :
    List Int :=
  Int.fdiv (semiOf inv w item.base_product_id) item.quantity ::
  item.packaging_relations.map (fun rel =>
    Int.fdiv (Int.fdiv (semiOf inv w rel.packaging_id) rel.quantity) item.quantity)

/-- The combo-level packaging constraints: one `floor(pack_stock / r)`
per combo-level packaging relation. -/
def comboPackConstraints (inv : List InventoryRecord) (w : Nat)
    (combo : ComboProduct) : List Int :=
  combo.packaging_relations.map (fun rel =>
    Int.fdiv (semiOf inv w rel.packaging_id) rel.quantity)

/-- The claim's list of independent constraints. -/
def specConstraints (inv : List InventoryRecord) (w : Nat) (combo : ComboProduct) :
    List Int :=
  (combo.combo_items.map (itemConstraints inv w)).flatten
    ++ comboPackConstraints inv w combo

/-- Availability as the claim states it: 0 for an empty composition, 0
when some dependency record is missing, else the minimum over all
constraints. -/
def specAvailable (combo : ComboProduct) (w : Nat) (inv : List InventoryRecord) : Int :=
  if combo.combo_items = [] then 0
  else if !(depsPresent inv w combo) then 0
  else (specConstraints inv w combo).min?.getD 0

/-- A quadruple of replayed counters for one (product, warehouse) key. -/
structure Quad where
  it : Int
  sf : Int
  fi : Int
  sh : Int
deriving Repr, DecidableEq

def Quad.zero : Quad := ⟨0, 0, 0, 0⟩

def addStatus (q : Quad) (s : InvStatus) (d : Int) : Quad :=
  match s with
  | .inTransit => { q with it := q.it + d }
  | .semiFinished => { q with sf := q.sf + d }
  | .finished => { q with fi := q.fi + d }
  | .shipped => { q with sh := q.sh + d }

/-- Fold one transaction row into the counters: a row with both statuses
moves `quantity` from source to target; a row with a single status applies
`quantity` as a signed delta to it (the source logs pure consumption and
cancellation with negative quantities). -/
def applyTx (q : Quad) (tx : InventoryTransaction) : Quad :=
  match tx.from_status, tx.to_status with
  | some f, some t => addStatus (addStatus q f (-tx.quantity)) t tx.quantity
  | some f, none => addStatus q f tx.quantity
  | none, some t => addStatus q t tx.quantity
  | none, none => q

/-- Replay the base-product log for one (product, warehouse) key from
all-zero counters. -/
def replayInv (log : List InventoryTransaction) (p w : Nat) : Quad :=
  (log.filter (fun tx => tx.product_id == p && tx.warehouse_id == w)).foldl
    applyTx Quad.zero

/-- The current counters of one key (all-zero when no record exists). -/
def countersAt (st : SysState) (p w : Nat) : Quad :=
  match lookupInv st.inventory p w with
  | none => Quad.zero
  | some r => ⟨r.in_transit, r.semi_finished, r.finished, r.shipped⟩

/-- Replayed combo counters (finished, shipped) for one key. -/
structure ComboPair where
  fi : Int
  sh : Int
deriving Repr, DecidableEq

def ComboPair.zero : ComboPair := ⟨0, 0⟩

def applyComboTx (q : ComboPair) (tx : ComboInventoryTransaction) : ComboPair :=
  match tx.transaction_type with
  | .assembleTx => { q with fi := q.fi + tx.quantity }
  | .shipComboTx => { fi := q.fi - tx.quantity, sh := q.sh + tx.quantity }

def replayCombo (log : List ComboInventoryTransaction) (c w : Nat) : ComboPair :=
  (log.filter (fun tx => tx.combo_product_id == c && tx.warehouse_id == w)).foldl
    applyComboTx ComboPair.zero

def comboCountersAt (st : SysState) (c w : Nat) : ComboPair :=
  match lookupCombo st.comboInventory c w with
  | none => ComboPair.zero
  | some r => ⟨r.finished, r.shipped⟩

/-- All four counters of a record are non-negative. -/
def recNonneg (r : InventoryRecord) : Prop :=
  0 ≤ r.in_transit ∧ 0 ≤ r.semi_finished ∧ 0 ≤ r.finished ∧ 0 ≤ r.shipped

instance (r : InventoryRecord) : Decidable (recNonneg r) := by
  unfold recNonneg; infer_instance

def comboRecNonneg (r : ComboInventoryRecord) : Prop :=
  0 ≤ r.finished ∧ 0 ≤ r.shipped

instance (r : ComboInventoryRecord) : Decidable (comboRecNonneg r) := by
  unfold comboRecNonneg; infer_instance

/-- The non-negativity invariant of claim C3. -/
def stateNonneg (st : SysState) : Prop :=
  (∀ r ∈ st.inventory, recNonneg r) ∧ (∀ r ∈ st.comboInventory, comboRecNonneg r)

instance (st : SysState) : Decidable (stateNonneg st) := by
  unfold stateNonneg; infer_instance

/-- An update request that does not change the order status. -/
def opKeepsStatus : Op → Bool
  | .updatePO _ _ stat => stat.isNone
  | _ => true

/-- An update request that does not change the order warehouse. -/
def opKeepsWarehouse : Op → Bool
  | .updatePO _ wh _ => wh.isNone
  | _ => true

/-- The status moves claim C7 allows: along pending → partial →
completed (skipping allowed), or staying put. -/
def claimAllowedMove (s t : OrderStatus) : Prop :=
  s = t ∨ (s = .pending ∧ (t = .partialStatus ∨ t = .completed)) ∨
    (s = .partialStatus ∧ t = .completed)

instance (s t : OrderStatus) : Decidable (claimAllowedMove s t) := by
  unfold claimAllowedMove; infer_instance

/-- Status of an order in a state, if the order exists. -/
def orderStatusIn (st : SysState) (oid : Nat) : Option OrderStatus :=
  (lookupOrder st.orders oid).map (fun o => o.status)

/-- The dependency product ids contributed by a list of combo items. -/
def itemsDeps (items : List ComboProductItem) : List Nat :=
  (items.map (fun item =>
    item.base_product_id :: item.packaging_relations.map (fun rel => rel.packaging_id))).flatten

/-- All dependency product ids of a combo, in deduction order. -/
def comboDeps (combo : ComboProduct) : List Nat :=
  itemsDeps combo.combo_items
  ++ combo.packaging_relations.map (fun rel => rel.packaging_id)

/-- All per-unit requirement quantities of a combo are positive (the
divisors of the availability formula). -/
def comboQuantPos (combo : ComboProduct) : Prop :=
  (∀ item ∈ combo.combo_items, 0 < item.quantity ∧
    ∀ rel ∈ item.packaging_relations, 0 < rel.quantity) ∧
  (∀ rel ∈ combo.packaging_relations, 0 < rel.quantity)

instance (combo : ComboProduct) : Decidable (comboQuantPos combo) := by
  unfold comboQuantPos; infer_instance

/-- No order in the store carries the cancelled status (orders are removed
on deletion; cancelled appears only through an explicit status update). -/
def noCancelled (st : SysState) : Prop :=
  ∀ o ∈ st.orders, o.status ≠ OrderStatus.cancelled

/-- Claim C5's receipt cap: every purchase-order item has
`received_quantity ≤ quantity`. -/
def itemsCap (st : SysState) : Prop :=
  ∀ o ∈ st.orders, ∀ it ∈ o.items, it.received_quantity ≤ it.quantity

instance (st : SysState) : Decidable (itemsCap st) := by
  unfold itemsCap; infer_instance

/-- The DB-sequence uniqueness of order item ids within each order. -/
def itemIdsNodup (st : SysState) : Prop :=
  ∀ o ∈ st.orders, (o.items.map (fun x => x.id)).Nodup

instance (st : SysState) : Decidable (itemIdsNodup st) := by
  unfold itemIdsNodup; infer_instance

/-- The key columns of the inventory table. -/
def invKeys (db : List InventoryRecord) : List (Nat × Nat) :=
  db.map (fun r => (r.product_id, r.warehouse_id))

def comboKeys (db : List ComboInventoryRecord) : List (Nat × Nat) :=
  db.map (fun r => (r.combo_product_id, r.warehouse_id))

/-- The unique-pair constraints of both inventory tables. -/
def keysOk (st : SysState) : Prop :=
  (invKeys st.inventory).Nodup ∧ (comboKeys st.comboInventory).Nodup

instance (st : SysState) : Decidable (keysOk st) := by
  unfold keysOk; infer_instance

/-- The status strings the call sites pass to `_transfer_inventory`. -/
def statusStr : InvStatus → String
  | .inTransit => "in_transit"
  | .semiFinished => "semi_finished"
  | .finished => "finished"
  | .shipped => "shipped"

/-- The four counters stored for a key, `Quad.zero` when no record
exists (list-level form of `countersAt`). -/
def invQuad (db : List InventoryRecord) (p w : Nat) : Quad :=
  match lookupInv db p w with
  | none => Quad.zero
  | some r => ⟨r.in_transit, r.semi_finished, r.finished, r.shipped⟩

/-- The combo counters stored for a key (list-level form of
`comboCountersAt`). -/
def comboQuad (db : List ComboInventoryRecord) (c w : Nat) : ComboPair :=
  match lookupCombo db c w with
  | none => ComboPair.zero
  | some r => ⟨r.finished, r.shipped⟩

/-- Total ordered quantity of one product over a request's item lines. -/
def reqSum : List POItemReq → Nat → Int
  | [], _ => 0
  | it :: rest, p => (if it.product_id = p then it.quantity else 0) + reqSum rest p

/-- Total received quantity of one product over an order's items. -/
def receivedSum : List PurchaseOrderItem → Nat → Int
  | [], _ => 0
  | x :: rest, p =>
    (if x.product_id = p then x.received_quantity else 0) + receivedSum rest p

/-- Total ordered quantity of one product over an order's items. -/
def qtySum : List PurchaseOrderItem → Nat → Int
  | [], _ => 0
  | x :: rest, p => (if x.product_id = p then x.quantity else 0) + qtySum rest p

/-- Total outstanding (ordered minus received) quantity of one product
over an order's items. -/
def itemOutstanding : List PurchaseOrderItem → Nat → Int
  | [], _ => 0
  | x :: rest, p =>
    (if x.product_id = p then x.quantity - x.received_quantity else 0) +
      itemOutstanding rest p

/-- Total outstanding quantity of one (product, warehouse) over all
orders. -/
def ordersOutstanding : List PurchaseOrder → Nat → Nat → Int
  | [], _, _ => 0
  | o :: rest, p, w =>
    (if o.warehouse_id = w then itemOutstanding o.items p else 0) +
      ordersOutstanding rest p w

/-- Replaying the base-inventory ledger reproduces every key's counters. -/
def replayOk (st : SysState) : Prop :=
  ∀ p w, countersAt st p w = replayInv st.invLog p w

/-- Replaying the combo ledger reproduces every key's combo counters. -/
def comboReplayOk (st : SysState) : Prop :=
  ∀ c w, comboCountersAt st c w = replayCombo st.comboLog c w

/-- Outstanding purchases are covered by the in-transit counters. -/
def inTransitCover (st : SysState) : Prop :=
  ∀ p w, ordersOutstanding st.orders p w ≤ (countersAt st p w).it

/-- Pending orders have received nothing yet. -/
def pendingZero (st : SysState) : Prop :=
  ∀ o ∈ st.orders, o.status = .pending → ∀ x ∈ o.items, x.received_quantity = 0

/-- Received quantities are non-negative. -/
def receivedNonneg (st : SysState) : Prop :=
  ∀ o ∈ st.orders, ∀ x ∈ o.items, 0 ≤ x.received_quantity

/-- DB-sequence facts about order ids. -/
def orderIdsOk (st : SysState) : Prop :=
  (∀ o ∈ st.orders, o.id < st.next_order_id) ∧
    (st.orders.map (fun o => o.id)).Nodup

/-- The ledger-replay invariant bundle of claim C4. -/
def c4Inv (st : SysState) : Prop :=
  replayOk st ∧ comboReplayOk st ∧ stateNonneg st ∧ keysOk st ∧
    itemsCap st ∧ itemIdsNodup st ∧ receivedNonneg st ∧ pendingZero st ∧
    inTransitCover st ∧ orderIdsOk st

/-! ## Concrete fixtures used by witnesses and counterexamples -/

def catEmpty : Catalog := ⟨[], []⟩

/-- A catalog holding one combo product (id 1) built from one unit of base
product 11 per combo unit, with no packaging relations. -/
def catOneItemCombo : Catalog := ⟨[], [⟨1, [⟨11, 1, []⟩], []⟩]⟩

/-- A catalog with one plain sale product (id 11), no packaging. -/
def catPack : Catalog := ⟨[⟨11, .product, none, []⟩], []⟩

/-- The spec scenario's combo C (id 1): two units of base product A (11)
per combo, one unit of combo-level packaging P (21) per combo. -/
def comboSpec : ComboProduct := ⟨1, [⟨11, 2, []⟩], [⟨21, 1⟩]⟩

def catSpec : Catalog := ⟨[], [comboSpec]⟩

/-- The spec scenario's stock: A holds 10 semi-finished, P holds 5. -/
def stSpec : SysState :=
  { SysState.empty with
    inventory := [⟨11, 1, 0, 10, 0, 0⟩, ⟨21, 1, 0, 5, 0, 0⟩] }

/-- A combo (id 2) listing the same base product twice. -/
def catDup : Catalog := ⟨[], [⟨2, [⟨11, 1, []⟩, ⟨11, 1, []⟩], []⟩]⟩

def stDup : SysState :=
  { SysState.empty with inventory := [⟨11, 1, 0, 1, 0, 0⟩] }

/-- A combo (id 3) whose item-level and combo-level packaging share
product 21. -/
def catShared : Catalog := ⟨[], [⟨3, [⟨11, 1, [⟨21, 1⟩]⟩], [⟨21, 1⟩]⟩]⟩

def stShared : SysState :=
  { SysState.empty with
    inventory := [⟨11, 1, 0, 5, 0, 0⟩, ⟨21, 1, 0, 2, 0, 0⟩] }

def poFixOrder : PurchaseOrder :=
  { id := 1, warehouse_id := 1, status := .pending, items := [⟨1, 11, 5, 0⟩] }

def stFixPending : SysState :=
  { SysState.empty with
    orders := [poFixOrder],
    inventory := [⟨11, 1, 5, 0, 0, 0⟩], next_order_id := 2, next_item_id := 2 }

def stFixCompleted : SysState :=
  { stFixPending with orders := [{ poFixOrder with status := .completed }] }

/-- The state `receive_order stFixPending 1 [⟨1, 5⟩]` commits. -/
def stFixReceived : SysState :=
  { SysState.empty with
    orders := [{ id := 1, warehouse_id := 1, status := .completed,
                 items := [⟨1, 11, 5, 5⟩] }],
    inventory := [⟨11, 1, 0, 5, 0, 0⟩],
    invLog := [⟨11, 1, .arrival, some .inTransit, some .semiFinished, 5, some 1⟩],
    next_order_id := 2, next_item_id := 2 }

/-- A state reached by creating a purchase order and then setting its
status to cancelled through `update_purchase_order`. -/
def stCancelledOrder : SysState := runOps catEmpty SysState.empty
  [.createPO 1 [⟨11, 5⟩], .updatePO 1 none (some .cancelled)]

/-- The state a zero-delta receive against `stCancelledOrder` commits. -/
def stCancelledReceived : SysState :=
  { SysState.empty with
    inventory := [⟨11, 1, 5, 0, 0, 0⟩],
    orders := [{ id := 1, warehouse_id := 1, status := .cancelled,
                 items := [⟨1, 11, 5, 0⟩] }],
    invLog := [⟨11, 1, .purchase, none, some .inTransit, 5, some 1⟩,
               ⟨11, 1, .arrival, some .inTransit, some .semiFinished, 0, some 1⟩],
    next_order_id := 2, next_item_id := 2 }

/-- The state a full receive against `stCancelledOrder` commits. -/
def stCancelledCompleted : SysState :=
  { SysState.empty with
    inventory := [⟨11, 1, 0, 5, 0, 0⟩],
    orders := [{ id := 1, warehouse_id := 1, status := .completed,
                 items := [⟨1, 11, 5, 5⟩] }],
    invLog := [⟨11, 1, .purchase, none, some .inTransit, 5, some 1⟩,
               ⟨11, 1, .arrival, some .inTransit, some .semiFinished, 5, some 1⟩],
    next_order_id := 2, next_item_id := 2 }

/-- The source and target counters the `_transfer_inventory` claim speaks
about, read off a record by status string. -/
def counterOf (r : InventoryRecord) (s : String) : Int :=
  if s = "in_transit" then r.in_transit
  else if s = "semi_finished" then r.semi_finished
  else if s = "finished" then r.finished
  else if s = "shipped" then r.shipped
  else 0

/-- Total units held for one (product, warehouse) pair. -/
def counterSum (r : InventoryRecord) : Int :=
  r.in_transit + r.semi_finished + r.finished + r.shipped

/-! # Theorems

## Generic association-list lemmas -/

theorem find?_map_pred {α : Type} (pred : α → Bool) (f g : α → α)
    (h1 : ∀ a, pred (g a) = pred a) (h2 : ∀ a, pred a = true → g a = f a)
    (l : List α) :
    (l.map g).find? pred = (l.find? pred).map f := by
  induction l with
  | nil => rfl
  | cons a l ih =>
    by_cases h : pred a = true
    · rw [List.map_cons, List.find?_cons_of_pos _ (by rw [h1]; exact h),
        List.find?_cons_of_pos _ h, Option.map_some', h2 a h]
    · rw [List.map_cons, List.find?_cons_of_neg _ (by rw [h1]; simpa using h),
        List.find?_cons_of_neg _ h, ih]

theorem find?_map_invariant {α : Type} (pred' : α → Bool) (g : α → α)
    (h1 : ∀ a, pred' (g a) = pred' a) (h2 : ∀ a, pred' a = true → g a = a)
    (l : List α) :
    (l.map g).find? pred' = l.find? pred' := by
  induction l with
  | nil => rfl
  | cons a l ih =>
    by_cases h : pred' a = true
    · rw [List.map_cons, List.find?_cons_of_pos _ (by rw [h1]; exact h),
        List.find?_cons_of_pos _ h, h2 a h]
    · rw [List.map_cons, List.find?_cons_of_neg _ (by rw [h1]; simpa using h),
        List.find?_cons_of_neg _ h, ih]

theorem find?_append_of_none {α : Type} (pred : α → Bool) (l1 l2 : List α)
    (h : l1.find? pred = none) :
    (l1 ++ l2).find? pred = l2.find? pred := by
  induction l1 with
  | nil => rfl
  | cons a l ih =>
    by_cases ha : pred a = true
    · rw [List.find?_cons_of_pos _ ha] at h; exact absurd h (by simp)
    · rw [List.find?_cons_of_neg _ ha] at h
      rw [List.cons_append, List.find?_cons_of_neg _ ha, ih h]

theorem find?_append_of_some {α : Type} (pred : α → Bool) (l1 l2 : List α)
    (a : α) (h : l1.find? pred = some a) :
    (l1 ++ l2).find? pred = some a := by
  induction l1 with
  | nil => simp at h
  | cons b l ih =>
    by_cases hb : pred b = true
    · rw [List.find?_cons_of_pos _ hb] at h
      rw [List.cons_append, List.find?_cons_of_pos _ hb]; exact h
    · rw [List.find?_cons_of_neg _ hb] at h
      rw [List.cons_append, List.find?_cons_of_neg _ hb, ih h]

/-! ## Inventory-table lemmas -/

/-- A counter update never touches the key columns. -/
def keysFixed (f : InventoryRecord → InventoryRecord) : Prop :=
  ∀ r, (f r).product_id = r.product_id ∧ (f r).warehouse_id = r.warehouse_id

theorem lookupInv_modifyInv_self (db : List InventoryRecord) (p w : Nat)
    (f : InventoryRecord → InventoryRecord) (hf : keysFixed f) :
    lookupInv (modifyInv db p w f) p w = (lookupInv db p w).map f := by
  unfold lookupInv modifyInv
  apply find?_map_pred
  · intro a
    by_cases h : (a.product_id == p && a.warehouse_id == w) = true
    · rw [if_pos h, (hf a).1, (hf a).2, h]
    · rw [if_neg h]
  · intro a ha
    rw [if_pos ha]

theorem lookupInv_modifyInv_ne (db : List InventoryRecord) (p w p' w' : Nat)
    (f : InventoryRecord → InventoryRecord) (hf : keysFixed f)
    (hne : p' ≠ p ∨ w' ≠ w) :
    lookupInv (modifyInv db p w f) p' w' = lookupInv db p' w' := by
  unfold lookupInv modifyInv
  apply find?_map_invariant
  · intro a
    by_cases h : (a.product_id == p && a.warehouse_id == w) = true
    · rw [if_pos h, (hf a).1, (hf a).2]
    · rw [if_neg h]
  · intro a ha
    have h1 : a.product_id = p' ∧ a.warehouse_id = w' := by
      simpa using ha
    have : ¬ (a.product_id == p && a.warehouse_id == w) = true := by
      rcases hne with hne | hne <;> simp [h1.1, h1.2, hne]
    rw [if_neg this]

theorem mem_modifyInv (db : List InventoryRecord) (p w : Nat)
    (f : InventoryRecord → InventoryRecord) (r' : InventoryRecord)
    (h : r' ∈ modifyInv db p w f) : (∃ r ∈ db, r' = f r) ∨ r' ∈ db := by
  unfold modifyInv at h
  rcases List.mem_map.mp h with ⟨r, hr, heq⟩
  by_cases hk : (r.product_id == p && r.warehouse_id == w) = true
  · rw [if_pos hk] at heq; exact Or.inl ⟨r, hr, heq.symm⟩
  · rw [if_neg hk] at heq; exact Or.inr (heq ▸ hr)

theorem lookupCombo_modifyCombo_self (db : List ComboInventoryRecord) (c w : Nat)
    (f : ComboInventoryRecord → ComboInventoryRecord)
    (hf : ∀ r, (f r).combo_product_id = r.combo_product_id ∧
      (f r).warehouse_id = r.warehouse_id) :
    lookupCombo (modifyCombo db c w f) c w = (lookupCombo db c w).map f := by
  unfold lookupCombo modifyCombo
  apply find?_map_pred
  · intro a
    by_cases h : (a.combo_product_id == c && a.warehouse_id == w) = true
    · rw [if_pos h, (hf a).1, (hf a).2, h]
    · rw [if_neg h]
  · intro a ha
    rw [if_pos ha]

theorem lookupCombo_modifyCombo_ne (db : List ComboInventoryRecord)
    (c w c' w' : Nat) (f : ComboInventoryRecord → ComboInventoryRecord)
    (hf : ∀ r, (f r).combo_product_id = r.combo_product_id ∧
      (f r).warehouse_id = r.warehouse_id)
    (hne : c' ≠ c ∨ w' ≠ w) :
    lookupCombo (modifyCombo db c w f) c' w' = lookupCombo db c' w' := by
  unfold lookupCombo modifyCombo
  apply find?_map_invariant
  · intro a
    by_cases h : (a.combo_product_id == c && a.warehouse_id == w) = true
    · rw [if_pos h, (hf a).1, (hf a).2]
    · rw [if_neg h]
  · intro a ha
    have h1 : a.combo_product_id = c' ∧ a.warehouse_id = w' := by simpa using ha
    have : ¬ (a.combo_product_id == c && a.warehouse_id == w) = true := by
      rcases hne with hne | hne <;> simp [h1.1, h1.2, hne]
    rw [if_neg this]

theorem mem_modifyCombo (db : List ComboInventoryRecord) (c w : Nat)
    (f : ComboInventoryRecord → ComboInventoryRecord) (r' : ComboInventoryRecord)
    (h : r' ∈ modifyCombo db c w f) : (∃ r ∈ db, r' = f r) ∨ r' ∈ db := by
  unfold modifyCombo at h
  rcases List.mem_map.mp h with ⟨r, hr, heq⟩
  by_cases hk : (r.combo_product_id == c && r.warehouse_id == w) = true
  · rw [if_pos hk] at heq; exact Or.inl ⟨r, hr, heq.symm⟩
  · rw [if_neg hk] at heq; exact Or.inr (heq ▸ hr)

theorem lookupOrder_modifyOrder_self (db : List PurchaseOrder) (oid : Nat)
    (f : PurchaseOrder → PurchaseOrder) (hf : ∀ o, (f o).id = o.id) :
    lookupOrder (modifyOrder db oid f) oid = (lookupOrder db oid).map f := by
  unfold lookupOrder modifyOrder
  apply find?_map_pred
  · intro a
    by_cases h : (a.id == oid) = true
    · rw [if_pos h, hf a, h]
    · rw [if_neg h]
  · intro a ha
    rw [if_pos ha]

theorem lookupOrder_modifyOrder_ne (db : List PurchaseOrder) (oid oid' : Nat)
    (f : PurchaseOrder → PurchaseOrder) (hf : ∀ o, (f o).id = o.id)
    (hne : oid' ≠ oid) :
    lookupOrder (modifyOrder db oid f) oid' = lookupOrder db oid' := by
  unfold lookupOrder modifyOrder
  apply find?_map_invariant
  · intro a
    by_cases h : (a.id == oid) = true
    · rw [if_pos h, hf a]
    · rw [if_neg h]
  · intro a ha
    have h1 : a.id = oid' := by simpa using ha
    have : ¬ (a.id == oid) = true := by simp [h1, hne]
    rw [if_neg this]

theorem mem_modifyOrder (db : List PurchaseOrder) (oid : Nat)
    (f : PurchaseOrder → PurchaseOrder) (o' : PurchaseOrder)
    (h : o' ∈ modifyOrder db oid f) : (∃ o ∈ db, o' = f o) ∨ o' ∈ db := by
  unfold modifyOrder at h
  rcases List.mem_map.mp h with ⟨o, ho, heq⟩
  by_cases hk : (o.id == oid) = true
  · rw [if_pos hk] at heq; exact Or.inl ⟨o, ho, heq.symm⟩
  · rw [if_neg hk] at heq; exact Or.inr (heq ▸ ho)

theorem keysFixed_transferFrom (fs : String) (q : Int) :
    keysFixed (transferFrom fs q) := by
  intro a
  unfold transferFrom
  constructor <;> (split_ifs <;> rfl)

theorem keysFixed_transferTo (ts : String) (q : Int) :
    keysFixed (transferTo ts q) := by
  intro a
  unfold transferTo
  constructor <;> (split_ifs <;> rfl)

theorem keysFixed_subSemi (d : Int) : keysFixed (subSemi d) :=
  fun _ => ⟨rfl, rfl⟩

theorem keysFixed_addInTransitClamped (d : Int) : keysFixed (addInTransitClamped d) :=
  fun _ => ⟨rfl, rfl⟩

/-- Successful `_transfer_inventory`: the record exists, the result is the
two-step counter rewrite, and the guarded source counters cover `q`. -/
theorem transfer_ok_state (db db' : List InventoryRecord) (p w : Nat)
    (fs ts : String) (q : Int)
    (hok : transfer_inventory db p w fs ts q = .ok db') :
    ∃ r, lookupInv db p w = some r ∧
      db' = modifyInv (modifyInv db p w (transferFrom fs q)) p w (transferTo ts q) ∧
      (fs = "in_transit" → q ≤ r.in_transit) ∧
      (fs = "semi_finished" → q ≤ r.semi_finished) ∧
      (fs = "finished" → q ≤ r.finished) := by
  cases hlk : lookupInv db p w with
  | none =>
    simp only [transfer_inventory, hlk] at hok
    exact absurd hok (by simp)
  | some r =>
    simp only [transfer_inventory, hlk] at hok
    refine ⟨r, rfl, ?_⟩
    split at hok
    next h => exact absurd hok (by simp)
    next h1 =>
    split at hok
    next h => exact absurd hok (by simp)
    next h2 =>
    split at hok
    next h => exact absurd hok (by simp)
    next h3 =>
    injection hok with hok
    refine ⟨hok.symm, ?_, ?_, ?_⟩
    · intro hfs
      by_contra hlt
      push_neg at hlt
      exact h1 (by simp [hfs, hlt])
    · intro hfs
      by_contra hlt
      push_neg at hlt
      exact h2 (by simp [hfs, hlt])
    · intro hfs
      by_contra hlt
      push_neg at hlt
      exact h3 (by simp [hfs, hlt])

/-- C8 (amended): for every successful
`transfer(product_id, warehouse_id, from_state, to_state, q)` on an
existing InventoryRecord whose `from_state` is one of the three source
statuses the code guards (in_transit, semi_finished, finished), whose
`to_state` is one of the three target statuses it handles (semi_finished,
finished, shipped), and with `from_state ≠ to_state`: the from-counter
decreases by exactly q, the to-counter increases by exactly q, and the sum
in_transit + semi_finished + finished + shipped for that
(product, warehouse) pair is unchanged.  (As stated over arbitrary status
arguments, the claim fails: see `C8_counterexample`.) -/
theorem C8_theorem (db db' : List InventoryRecord) (p w : Nat)
    (fs ts : String) (q : Int) (r r' : InventoryRecord)
    (hfs : fs = "in_transit" ∨ fs = "semi_finished" ∨ fs = "finished")
    (hts : ts = "semi_finished" ∨ ts = "finished" ∨ ts = "shipped")
    (hne : fs ≠ ts)
    (hok : transfer_inventory db p w fs ts q = .ok db')
    (hr : lookupInv db p w = some r) (hr' : lookupInv db' p w = some r') :
    counterOf r' fs = counterOf r fs - q ∧
    counterOf r' ts = counterOf r ts + q ∧
    counterSum r' = counterSum r := by
  obtain ⟨r0, hr0, hdb', -⟩ := transfer_ok_state db db' p w fs ts q hok
  rw [hr] at hr0
  injection hr0 with hr0
  subst hr0
  subst hdb'
  rw [lookupInv_modifyInv_self _ _ _ _ (keysFixed_transferTo ts q),
      lookupInv_modifyInv_self _ _ _ _ (keysFixed_transferFrom fs q), hr,
      Option.map_some', Option.map_some'] at hr'
  injection hr' with hr'
  subst hr'
  rcases hfs with h | h | h <;> rcases hts with h2 | h2 | h2 <;> subst h <;> subst h2 <;>
    first
    | exact absurd rfl hne
    | (refine ⟨?_, ?_, ?_⟩ <;>
        (simp only [counterOf, counterSum, transferFrom, transferTo, String.reduceEq,
          if_true, if_false, ite_true, ite_false]
         try ring))

/-- C8 counterexample: `_transfer_inventory` accepts `from_status =
"shipped"`, which matches no branch of the decrement chain, so the call
succeeds without decrementing anything: the from-counter does not decrease
and the four-counter sum grows by q. -/
theorem C8_counterexample :
    transfer_inventory [⟨1, 1, 0, 0, 0, 5⟩] 1 1 "shipped" "semi_finished" 5 =
      .ok [⟨1, 1, 0, 5, 0, 5⟩] ∧
    counterSum ⟨1, 1, 0, 5, 0, 5⟩ ≠ counterSum ⟨1, 1, 0, 0, 0, 5⟩ ∧
    counterOf ⟨1, 1, 0, 5, 0, 5⟩ "shipped" ≠
      counterOf ⟨1, 1, 0, 0, 0, 5⟩ "shipped" - 5 := by
  refine ⟨rfl, by decide, by decide⟩

/-- C8 witness: a concrete successful in_transit → semi_finished transfer
of 2 units on a record holding 3 in transit. -/
theorem C8_witness :
    counterOf ⟨1, 1, 1, 2, 0, 0⟩ "in_transit" =
      counterOf ⟨1, 1, 3, 0, 0, 0⟩ "in_transit" - 2 ∧
    counterOf ⟨1, 1, 1, 2, 0, 0⟩ "semi_finished" =
      counterOf ⟨1, 1, 3, 0, 0, 0⟩ "semi_finished" + 2 ∧
    counterSum ⟨1, 1, 1, 2, 0, 0⟩ = counterSum ⟨1, 1, 3, 0, 0, 0⟩ :=
  C8_theorem [⟨1, 1, 3, 0, 0, 0⟩] [⟨1, 1, 1, 2, 0, 0⟩] 1 1
    "in_transit" "semi_finished" 2 ⟨1, 1, 3, 0, 0, 0⟩ ⟨1, 1, 1, 2, 0, 0⟩
    (Or.inl rfl) (Or.inl rfl) (by decide) rfl rfl rfl

/-- C9 (amended): the request boundary rejects non-positive quantities for
pack, ship and purchase-order creation; for receive lines it rejects only
negative deltas (zero passes); the combo assemble and combo ship request
schemas impose no constraint at all, so they accept any integer. -/
theorem C9_theorem (q d : Int) (hq : q ≤ 0) (hd : d < 0) :
    packagingRequestValid q = false ∧
    shippingRequestValid q = false ∧
    poItemReqValid ⟨1, q⟩ = false ∧
    receiveItemRequestValid ⟨1, d⟩ = false ∧
    receiveItemRequestValid ⟨1, 0⟩ = true ∧
    comboAssembleRequestValid q = true ∧
    comboShipRequestValid q = true := by
  refine ⟨?_, ?_, ?_, ?_, rfl, rfl, rfl⟩ <;>
    simp [packagingRequestValid, shippingRequestValid, poItemReqValid,
      receiveItemRequestValid, hq, hd, not_lt, not_le]

/-- C9 witness at q = 0, d = -1. -/
theorem C9_witness :
    packagingRequestValid 0 = false ∧
    shippingRequestValid 0 = false ∧
    poItemReqValid ⟨1, 0⟩ = false ∧
    receiveItemRequestValid ⟨1, -1⟩ = false ∧
    receiveItemRequestValid ⟨1, 0⟩ = true ∧
    comboAssembleRequestValid 0 = true ∧
    comboShipRequestValid 0 = true :=
  C9_theorem 0 (-1) (by decide) (by decide)

/-- C9 counterexample: a combo-product assemble request with a negative
quantity passes the request boundary (and so does a zero-delta receive
line), contradicting the claim that every positive-count operation
rejects zero or negative quantities at the boundary. -/
theorem C9_counterexample :
    boundaryOk (.assembleOp 1 (-1)) = true ∧
    boundaryOk (.shipComboOp 1 (-1)) = true ∧
    boundaryOk (.receivePO 1 [⟨1, 0⟩]) = true := by
  refine ⟨rfl, rfl, by decide⟩

theorem availItemPacks_eq (inv : List InventoryRecord) (w : Nat) (itemQ : Int)
    (rels : List PackagingRelation) (acc : Option Int) :
    availItemPacks inv w itemQ rels acc =
      if rels.all (fun rel => (lookupInv inv rel.packaging_id w).isSome) then
        some ((rels.map (fun rel =>
          Int.fdiv (Int.fdiv (semiOf inv w rel.packaging_id) rel.quantity) itemQ)).foldl
            minOpt acc)
      else none := by
  induction rels generalizing acc with
  | nil => rfl
  | cons rel rest ih =>
    cases hlk : lookupInv inv rel.packaging_id w with
    | none => simp [availItemPacks, hlk]
    | some p => simp [availItemPacks, hlk, ih, semiOf]

theorem availComboPacks_eq (inv : List InventoryRecord) (w : Nat)
    (rels : List PackagingRelation) (acc : Option Int) :
    availComboPacks inv w rels acc =
      if rels.all (fun rel => (lookupInv inv rel.packaging_id w).isSome) then
        some ((rels.map (fun rel =>
          Int.fdiv (semiOf inv w rel.packaging_id) rel.quantity)).foldl minOpt acc)
      else none := by
  induction rels generalizing acc with
  | nil => rfl
  | cons rel rest ih =>
    cases hlk : lookupInv inv rel.packaging_id w with
    | none => simp [availComboPacks, hlk]
    | some p => simp [availComboPacks, hlk, ih, semiOf]

theorem availItems_eq (inv : List InventoryRecord) (w : Nat)
    (items : List ComboProductItem) (acc : Option Int) :
    availItems inv w items acc =
      if items.all (fun item => (lookupInv inv item.base_product_id w).isSome &&
          item.packaging_relations.all
            (fun rel => (lookupInv inv rel.packaging_id w).isSome)) then
        some ((items.map (itemConstraints inv w)).flatten.foldl minOpt acc)
      else none := by
  induction items generalizing acc with
  | nil => rfl
  | cons item rest ih =>
    cases hlk : lookupInv inv item.base_product_id w with
    | none => simp [availItems, hlk]
    | some base =>
      simp only [availItems, hlk]
      rw [availItemPacks_eq]
      by_cases hpk : item.packaging_relations.all
          (fun rel => (lookupInv inv rel.packaging_id w).isSome) = true
      · rw [if_pos hpk]
        simp only [ih, List.all_cons, hlk, Option.isSome_some, Bool.true_and, hpk,
          List.map_cons, List.flatten_cons, List.foldl_append, itemConstraints,
          semiOf, List.foldl_cons, if_true]
      · rw [if_neg hpk]
        simp [hpk]

theorem foldl_minOpt_some (l : List Int) (m : Int) :
    l.foldl minOpt (some m) = some (l.foldl min m) := by
  induction l generalizing m with
  | nil => rfl
  | cons a l ih => simp [minOpt, ih, List.foldl_cons]

theorem calc_avail_of_availItems_some (combo : ComboProduct) (w : Nat)
    (inv : List InventoryRecord) (acc : Option Int)
    (hne : combo.combo_items ≠ [])
    (h1 : availItems inv w combo.combo_items none = some acc) :
    calculate_available_to_assemble combo w inv =
      (match availComboPacks inv w combo.packaging_relations acc with
       | none => 0
       | some none => 0
       | some (some m) => m) := by
  unfold calculate_available_to_assemble
  rw [if_neg hne, h1]

theorem calc_avail_of_availItems_none (combo : ComboProduct) (w : Nat)
    (inv : List InventoryRecord)
    (hne : combo.combo_items ≠ [])
    (h1 : availItems inv w combo.combo_items none = none) :
    calculate_available_to_assemble combo w inv = 0 := by
  unfold calculate_available_to_assemble
  rw [if_neg hne, h1]

theorem calc_avail_eq_spec (combo : ComboProduct) (w : Nat)
    (inv : List InventoryRecord) :
    calculate_available_to_assemble combo w inv = specAvailable combo w inv := by
  cases hitems : combo.combo_items with
  | nil => simp [calculate_available_to_assemble, specAvailable, hitems]
  | cons item rest =>
    have hne : combo.combo_items ≠ [] := by rw [hitems]; simp
    by_cases hA : combo.combo_items.all (fun item =>
        (lookupInv inv item.base_product_id w).isSome &&
        item.packaging_relations.all
          (fun rel => (lookupInv inv rel.packaging_id w).isSome)) = true
    · have h1 : availItems inv w combo.combo_items none =
          some ((combo.combo_items.map (itemConstraints inv w)).flatten.foldl minOpt none) := by
        rw [availItems_eq, if_pos hA]
      obtain ⟨L, hL⟩ : ∃ L, (combo.combo_items.map (itemConstraints inv w)).flatten =
          Int.fdiv (semiOf inv w item.base_product_id) item.quantity :: L :=
        ⟨item.packaging_relations.map (fun rel =>
            Int.fdiv (Int.fdiv (semiOf inv w rel.packaging_id) rel.quantity) item.quantity) ++
          (rest.map (itemConstraints inv w)).flatten,
         by rw [hitems]; simp [itemConstraints]⟩
      rw [calc_avail_of_availItems_some combo w inv _ hne h1]
      by_cases hB : combo.packaging_relations.all
          (fun rel => (lookupInv inv rel.packaging_id w).isSome) = true
      · have hdeps : depsPresent inv w combo = true := by
          unfold depsPresent; rw [hA, hB]; rfl
        have hfold : (combo.combo_items.map (itemConstraints inv w)).flatten.foldl
            minOpt none =
            some (L.foldl min (Int.fdiv (semiOf inv w item.base_product_id) item.quantity)) := by
          rw [hL, List.foldl_cons]
          exact foldl_minOpt_some _ _
        have h2 : availComboPacks inv w combo.packaging_relations
            ((combo.combo_items.map (itemConstraints inv w)).flatten.foldl minOpt none) =
            some (some ((comboPackConstraints inv w combo).foldl min
              (L.foldl min (Int.fdiv (semiOf inv w item.base_product_id) item.quantity)))) := by
          rw [availComboPacks_eq, if_pos hB, hfold, foldl_minOpt_some]
          rfl
        rw [h2]
        unfold specAvailable
        rw [if_neg hne, if_neg (by simp [hdeps])]
        unfold specConstraints
        rw [hL]
        show _ = (List.min? (_ :: (L ++ comboPackConstraints inv w combo))).getD 0
        rw [List.min?]
        show _ = (L ++ comboPackConstraints inv w combo).foldl min _
        rw [List.foldl_append]
      · have h2 : availComboPacks inv w combo.packaging_relations
            ((combo.combo_items.map (itemConstraints inv w)).flatten.foldl minOpt none) =
            none := by
          rw [availComboPacks_eq, if_neg hB]
        rw [h2]
        unfold specAvailable depsPresent
        rw [if_neg hne, if_pos (by simp [hB])]
    · have h1 : availItems inv w combo.combo_items none = none := by
        rw [availItems_eq, if_neg hA]
      rw [calc_avail_of_availItems_none combo w inv hne h1]
      unfold specAvailable depsPresent
      rw [if_neg hne, if_pos (by simp [hA])]

/-- C1: `calculate_available_to_assemble` computes exactly the claim's
formula: 0 for a combo with no ComboProductItems; 0 when any required
base product, item-level packaging, or combo-level packaging has no
InventoryRecord in the warehouse; otherwise the minimum over all
constraints of `floor(base.semi_finished / item.quantity)`,
`floor(floor(packaging.semi_finished / rel.quantity) / item.quantity)`,
and `floor(packaging.semi_finished / rel.quantity)`. -/
theorem C1_theorem (combo : ComboProduct) (w : Nat) (inv : List InventoryRecord) :
    calculate_available_to_assemble combo w inv = specAvailable combo w inv :=
  calc_avail_eq_spec combo w inv

/-- Characterization of a successful `receive_order`. -/
theorem receive_order_ok (st : SysState) (oid : Nat) (lines : List ReceiveLine)
    (st' : SysState) (hok : receive_order st oid lines = .ok st') :
    ∃ o out, lookupOrder st.orders oid = some o ∧
      o.status ≠ .completed ∧
      receiveLines o.warehouse_id oid lines o.items st.inventory st.invLog = .ok out ∧
      st' = { st with
        orders := modifyOrder st.orders oid (setOrderItemsStatus out.1
          (if out.1.all (fun it => it.received_quantity == it.quantity) then .completed
           else if out.1.any (fun it => decide (0 < it.received_quantity)) then
             .partialStatus
           else o.status)),
        inventory := out.2.1, invLog := out.2.2 } := by
  cases hlo : lookupOrder st.orders oid with
  | none => simp [receive_order, hlo] at hok
  | some o =>
    simp only [receive_order, hlo] at hok
    by_cases hco : o.status = .completed
    · rw [if_pos hco] at hok; exact absurd hok (by simp)
    · rw [if_neg hco] at hok
      cases hrl : receiveLines o.warehouse_id oid lines o.items st.inventory st.invLog with
      | error e => rw [hrl] at hok; exact absurd hok (by simp)
      | ok out =>
        obtain ⟨items, inv, log⟩ := out
        rw [hrl] at hok
        refine ⟨o, (items, inv, log), rfl, hco, hrl, ?_⟩
        injection hok with hok
        subst hok
        rfl

/-- `receive_order` on a completed order is rejected. -/
theorem receive_order_completed_rejected (st : SysState) (oid : Nat)
    (lines : List ReceiveLine) (o : PurchaseOrder)
    (hlo : lookupOrder st.orders oid = some o) (hco : o.status = .completed) :
    receive_order st oid lines = .error .stateConflict := by
  simp only [receive_order, hlo]
  rw [if_pos hco]

/-- Characterization of a successful `update_purchase_order`. -/
theorem update_purchase_order_ok (st : SysState) (oid : Nat) (wh : Option Nat)
    (stat : Option OrderStatus) (st' : SysState)
    (hok : update_purchase_order st oid wh stat = .ok st') :
    ∃ o, lookupOrder st.orders oid = some o ∧ o.status = .pending ∧
      st' = { st with orders := modifyOrder st.orders oid (applyOrderUpdate wh stat) } := by
  cases hlo : lookupOrder st.orders oid with
  | none => simp [update_purchase_order, hlo] at hok
  | some o =>
    simp only [update_purchase_order, hlo] at hok
    by_cases hp : o.status = .pending
    · rw [if_neg (by simp [hp])] at hok
      injection hok with hok
      exact ⟨o, rfl, hp, hok.symm⟩
    · rw [if_pos (by simp [hp])] at hok
      exact absurd hok (by simp)

/-- Characterization of a successful `delete_purchase_order`. -/
theorem delete_purchase_order_ok (st : SysState) (oid : Nat) (st' : SysState)
    (hok : delete_purchase_order st oid = .ok st') :
    ∃ o, lookupOrder st.orders oid = some o ∧ o.status = .pending ∧
      st' = { st with
        inventory := (deletePOItems o.warehouse_id oid o.items st.inventory st.invLog).1,
        invLog := (deletePOItems o.warehouse_id oid o.items st.inventory st.invLog).2,
        orders := st.orders.filter (fun q => !(q.id == oid)) } := by
  cases hlo : lookupOrder st.orders oid with
  | none => simp [delete_purchase_order, hlo] at hok
  | some o =>
    simp only [delete_purchase_order, hlo] at hok
    by_cases hp : o.status = .pending
    · rw [if_neg (by simp [hp])] at hok
      injection hok with hok
      exact ⟨o, rfl, hp, hok.symm⟩
    · rw [if_pos (by simp [hp])] at hok
      exact absurd hok (by simp)

theorem create_purchase_order_orders (st : SysState) (w : Nat)
    (items : List POItemReq) :
    (create_purchase_order st w items).orders = st.orders ++
      [{ id := st.next_order_id, warehouse_id := w, status := .pending,
         items := (createPOItems st.next_order_id w items st.next_item_id
           st.inventory st.invLog).1 }] := rfl

theorem package_products_ok_orders (cat : Catalog) (st : SysState) (pid w : Nat)
    (q : Int) (st' : SysState) (hok : package_products cat st pid w q = .ok st') :
    st'.orders = st.orders ∧ st'.comboInventory = st.comboInventory ∧
    st'.comboLog = st.comboLog ∧ st'.next_order_id = st.next_order_id ∧
    st'.next_item_id = st.next_item_id := by
  unfold package_products at hok
  dsimp only at hok
  repeat' split at hok
  all_goals
    first
    | (injection hok; done)
    | (injection hok with hok; subst hok; exact ⟨rfl, rfl, rfl, rfl, rfl⟩)

theorem ship_products_ok_orders (st : SysState) (pid w : Nat) (q : Int)
    (st' : SysState) (hok : ship_products st pid w q = .ok st') :
    st'.orders = st.orders ∧ st'.comboInventory = st.comboInventory ∧
    st'.comboLog = st.comboLog ∧ st'.next_order_id = st.next_order_id ∧
    st'.next_item_id = st.next_item_id := by
  unfold ship_products at hok
  repeat' split at hok
  all_goals
    first
    | (injection hok; done)
    | (injection hok with hok; subst hok; exact ⟨rfl, rfl, rfl, rfl, rfl⟩)

/-- `assemble_combo_product` never succeeds: on an existing combo the
handler dies on `request.warehouse_id` before committing anything. -/
theorem assemble_no_ok (cat : Catalog) (st : SysState) (cid : Nat) (q : Int)
    (st' : SysState) : assemble_combo_product cat st cid q ≠ .ok st' := by
  unfold assemble_combo_product
  cases cat.combos.find? (fun c => c.id == cid) with
  | none => simp
  | some combo => simp

/-- `ship_combo_product` never succeeds: the handler dies on
`request.warehouse_id` in its first query. -/
theorem ship_combo_no_ok (st : SysState) (cid : Nat) (q : Int)
    (st' : SysState) : ship_combo_product st cid q ≠ .ok st' := by
  simp [ship_combo_product]

theorem assemble_ok_shape (cat : Catalog) (st : SysState) (cid : Nat) (q : Int)
    (st' : SysState) (hok : assemble_combo_product cat st cid q = .ok st') :
    st'.orders = st.orders ∧ st'.invLog = st.invLog ∧
    st'.next_order_id = st.next_order_id ∧ st'.next_item_id = st.next_item_id :=
  absurd hok (assemble_no_ok cat st cid q st')

theorem ship_combo_ok_shape (st : SysState) (cid : Nat) (q : Int)
    (st' : SysState) (hok : ship_combo_product st cid q = .ok st') :
    st'.orders = st.orders ∧ st'.inventory = st.inventory ∧
    st'.invLog = st.invLog ∧ st'.next_order_id = st.next_order_id ∧
    st'.next_item_id = st.next_item_id :=
  absurd hok (ship_combo_no_ok st cid q st')

theorem orderIdFixed_setOrderItemsStatus (items : List PurchaseOrderItem)
    (stat : OrderStatus) :
    ∀ o, (setOrderItemsStatus items stat o).id = o.id := fun _ => rfl

theorem orderIdFixed_applyOrderUpdate (wh : Option Nat) (stat : Option OrderStatus) :
    ∀ o, (applyOrderUpdate wh stat o).id = o.id := fun _ => rfl

/-- C6 (amended): a receive call against a completed order is rejected
with a state conflict; a successful receive call ends with the order's
status completed iff every item's received_quantity equals its ordered
quantity, else partial iff some item has received_quantity > 0, else the
status is left unchanged (so a pending order stays pending). -/
theorem C6_theorem (st : SysState) (oid : Nat) (lines : List ReceiveLine) :
    (∀ o, lookupOrder st.orders oid = some o → o.status = .completed →
      receive_order st oid lines = .error .stateConflict) ∧
    (∀ st', receive_order st oid lines = .ok st' →
      ∃ o o', lookupOrder st.orders oid = some o ∧
        lookupOrder st'.orders oid = some o' ∧
        o'.status = (if o'.items.all (fun it => it.received_quantity == it.quantity)
            then OrderStatus.completed
            else if o'.items.any (fun it => decide (0 < it.received_quantity))
            then OrderStatus.partialStatus
            else o.status)) := by
  constructor
  · intro o hlo hco
    exact receive_order_completed_rejected st oid lines o hlo hco
  · intro st' hok
    obtain ⟨o, out, hlo, hco, hrl, hst'⟩ := receive_order_ok st oid lines st' hok
    refine ⟨o, setOrderItemsStatus out.1
      (if out.1.all (fun it => it.received_quantity == it.quantity) then .completed
       else if out.1.any (fun it => decide (0 < it.received_quantity)) then
         .partialStatus
       else o.status) o, hlo, ?_, rfl⟩
    subst hst'
    show lookupOrder (modifyOrder st.orders oid _) oid = _
    rw [lookupOrder_modifyOrder_self _ _ _ (orderIdFixed_setOrderItemsStatus _ _),
      hlo, Option.map_some']

/-- C6 witness: on a completed fixture order the receive is rejected; on a
pending fixture order a full receipt of 5 units commits and the recomputed
status is completed. -/
theorem C6_witness :
    receive_order stFixCompleted 1 [⟨1, 1⟩] = .error .stateConflict ∧
    (∃ o o', lookupOrder stFixPending.orders 1 = some o ∧
      lookupOrder stFixReceived.orders 1 = some o' ∧
      o'.status = (if o'.items.all (fun it => it.received_quantity == it.quantity)
          then OrderStatus.completed
          else if o'.items.any (fun it => decide (0 < it.received_quantity))
          then OrderStatus.partialStatus
          else o.status)) :=
  ⟨(C6_theorem stFixCompleted 1 [⟨1, 1⟩]).1 { poFixOrder with status := .completed }
      rfl rfl,
   (C6_theorem stFixPending 1 [⟨1, 5⟩]).2 stFixReceived rfl⟩

/-- C6 counterexample: `update_purchase_order` can set a pending order to
cancelled; a zero-delta receive against it then succeeds with neither
every item fully received nor any item positive, yet the final status is
cancelled, not pending. -/
theorem C6_counterexample :
    receive_order stCancelledOrder 1 [⟨1, 0⟩] = .ok stCancelledReceived ∧
    orderStatusIn stCancelledReceived 1 = some .cancelled ∧
    ¬ orderStatusIn stCancelledReceived 1 = some .pending ∧
    (∀ o ∈ stCancelledReceived.orders,
      ¬(o.items.all (fun it => it.received_quantity == it.quantity)) = true ∧
      ¬(o.items.any (fun it => decide (0 < it.received_quantity))) = true) := by
  refine ⟨rfl, rfl, by decide, by decide⟩

theorem lookupOrder_mem (db : List PurchaseOrder) (oid : Nat) (o : PurchaseOrder)
    (h : lookupOrder db oid = some o) : o ∈ db :=
  List.mem_of_find?_eq_some h

theorem lookupOrder_append_some (db1 db2 : List PurchaseOrder) (oid : Nat)
    (o : PurchaseOrder) (h : lookupOrder db1 oid = some o) :
    lookupOrder (db1 ++ db2) oid = some o :=
  find?_append_of_some _ _ _ _ h

theorem lookupOrder_filter_self (db : List PurchaseOrder) (n : Nat) :
    lookupOrder (db.filter (fun q => !(q.id == n))) n = none := by
  induction db with
  | nil => rfl
  | cons o db ih =>
    unfold lookupOrder at *
    by_cases h : (o.id == n) = true
    · rw [List.filter_cons, if_neg (by simp [h])]
      exact ih
    · rw [List.filter_cons, if_pos (by simpa using h), List.find?_cons_of_neg]
      · exact ih
      · exact h

theorem lookupOrder_filter_ne (db : List PurchaseOrder) (n oid : Nat)
    (h : oid ≠ n) :
    lookupOrder (db.filter (fun q => !(q.id == n))) oid = lookupOrder db oid := by
  induction db with
  | nil => rfl
  | cons o db ih =>
    unfold lookupOrder at *
    by_cases ho : (o.id == oid) = true
    · have hne : (o.id == n) = false := by
        simp at ho ⊢
        omega
      rw [List.filter_cons, if_pos (by simp [hne]), List.find?_cons_of_pos,
        List.find?_cons_of_pos]
      · exact ho
      · exact ho
    · by_cases hn : (o.id == n) = true
      · rw [List.filter_cons, if_neg (by simp [hn]), ih, List.find?_cons_of_neg]
        exact ho
      · rw [List.filter_cons, if_pos (by simpa using hn), List.find?_cons_of_neg, ih,
          List.find?_cons_of_neg]
        all_goals exact ho

/-- Effect of one successful endpoint call on one order's status: it
either stays, moves forward along pending → partial → completed, or the
pending order is removed by a delete. -/
theorem applyOp_ok_status (cat : Catalog) (st : SysState) (op : Op) (oid : Nat)
    (o : PurchaseOrder) (st' : SysState)
    (hkeep : opKeepsStatus op = true) (hnc : noCancelled st)
    (hs : lookupOrder st.orders oid = some o)
    (hok : applyOp cat st op = .ok st') :
    (∃ o', lookupOrder st'.orders oid = some o' ∧
      claimAllowedMove o.status o'.status) ∨
    (lookupOrder st'.orders oid = none ∧ o.status = .pending ∧
      op = .deletePO oid) := by
  cases op with
  | createPO w items =>
    injection hok with hok
    subst hok
    exact Or.inl ⟨o, by
      rw [create_purchase_order_orders]
      exact lookupOrder_append_some _ _ _ _ hs, Or.inl rfl⟩
  | receivePO oid0 lines =>
    obtain ⟨o0, out, hlo0, hco0, hrl, hst'⟩ := receive_order_ok st oid0 lines st' hok
    subst hst'
    by_cases heq : oid = oid0
    · subst heq
      rw [hlo0] at hs
      injection hs with hs
      subst hs
      left
      refine ⟨setOrderItemsStatus out.1
        (if out.1.all (fun it => it.received_quantity == it.quantity) then
           OrderStatus.completed
         else if out.1.any (fun it => decide (0 < it.received_quantity)) then
           OrderStatus.partialStatus
         else o0.status) o0, ?_, ?_⟩
      · show lookupOrder (modifyOrder st.orders oid _) oid = _
        rw [lookupOrder_modifyOrder_self _ _ _ (orderIdFixed_setOrderItemsStatus _ _),
          hlo0, Option.map_some']
      · have hncd : o0.status ≠ .cancelled := hnc o0 (lookupOrder_mem _ _ _ hlo0)
        show claimAllowedMove o0.status (setOrderItemsStatus _ _ o0).status
        simp only [setOrderItemsStatus]
        cases hall : out.1.all (fun it => it.received_quantity == it.quantity) with
        | true =>
          rw [if_pos rfl]
          cases hos : o0.status with
          | pending => exact Or.inr (Or.inl ⟨rfl, Or.inr rfl⟩)
          | partialStatus => exact Or.inr (Or.inr ⟨rfl, rfl⟩)
          | completed => exact absurd hos hco0
          | cancelled => exact absurd hos hncd
        | false =>
          rw [if_neg (by simp)]
          cases hany : out.1.any (fun it => decide (0 < it.received_quantity)) with
          | true =>
            rw [if_pos rfl]
            cases hos : o0.status with
            | pending => exact Or.inr (Or.inl ⟨rfl, Or.inl rfl⟩)
            | partialStatus => exact Or.inl rfl
            | completed => exact absurd hos hco0
            | cancelled => exact absurd hos hncd
          | false =>
            rw [if_neg (by simp)]
            exact Or.inl rfl
    · left
      refine ⟨o, ?_, Or.inl rfl⟩
      show lookupOrder (modifyOrder st.orders oid0 _) oid = _
      rw [lookupOrder_modifyOrder_ne _ _ _ _ (orderIdFixed_setOrderItemsStatus _ _) heq]
      exact hs
  | updatePO oid0 wh stat =>
    cases stat with
    | some s => simp [opKeepsStatus] at hkeep
    | none =>
      obtain ⟨o0, hlo0, hp0, hst'⟩ := update_purchase_order_ok st oid0 wh none st' hok
      subst hst'
      by_cases heq : oid = oid0
      · subst heq
        rw [hlo0] at hs
        injection hs with hs
        subst hs
        left
        refine ⟨applyOrderUpdate wh none o0, ?_, Or.inl rfl⟩
        show lookupOrder (modifyOrder st.orders oid _) oid = _
        rw [lookupOrder_modifyOrder_self _ _ _ (orderIdFixed_applyOrderUpdate _ _),
          hlo0, Option.map_some']
      · left
        refine ⟨o, ?_, Or.inl rfl⟩
        show lookupOrder (modifyOrder st.orders oid0 _) oid = _
        rw [lookupOrder_modifyOrder_ne _ _ _ _ (orderIdFixed_applyOrderUpdate _ _) heq]
        exact hs
  | deletePO n =>
    obtain ⟨o0, hlo0, hp0, hst'⟩ := delete_purchase_order_ok st n st' hok
    subst hst'
    by_cases heq : oid = n
    · subst heq
      rw [hlo0] at hs
      injection hs with hs
      subst hs
      right
      exact ⟨lookupOrder_filter_self _ _, hp0, rfl⟩
    · left
      refine ⟨o, ?_, Or.inl rfl⟩
      show lookupOrder (List.filter _ st.orders) oid = _
      rw [lookupOrder_filter_ne _ _ _ heq]
      exact hs
  | packOp pid w q =>
    obtain ⟨ho, -⟩ := package_products_ok_orders cat st pid w q st' hok
    exact Or.inl ⟨o, ho ▸ hs, Or.inl rfl⟩
  | shipOp pid w q =>
    obtain ⟨ho, -⟩ := ship_products_ok_orders st pid w q st' hok
    exact Or.inl ⟨o, ho ▸ hs, Or.inl rfl⟩
  | assembleOp cid q =>
    obtain ⟨ho, -⟩ := assemble_ok_shape cat st cid q st' hok
    exact Or.inl ⟨o, ho ▸ hs, Or.inl rfl⟩
  | shipComboOp cid q =>
    obtain ⟨ho, -⟩ := ship_combo_ok_shape st cid q st' hok
    exact Or.inl ⟨o, ho ▸ hs, Or.inl rfl⟩

/-- Lift `applyOp_ok_status` through the request wrapper (boundary
rejection and endpoint errors leave the state unchanged). -/
theorem runOp_status (cat : Catalog) (st : SysState) (op : Op) (oid : Nat)
    (o : PurchaseOrder)
    (hkeep : opKeepsStatus op = true) (hnc : noCancelled st)
    (hs : lookupOrder st.orders oid = some o) :
    (∃ o', lookupOrder (runOp cat st op).orders oid = some o' ∧
      claimAllowedMove o.status o'.status) ∨
    (lookupOrder (runOp cat st op).orders oid = none ∧ o.status = .pending ∧
      op = .deletePO oid) := by
  unfold runOp
  by_cases hb : boundaryOk op = true
  · rw [if_pos hb]
    cases happ : applyOp cat st op with
    | error e => exact Or.inl ⟨o, hs, Or.inl rfl⟩
    | ok st' => exact applyOp_ok_status cat st op oid o st' hkeep hnc hs happ
  · rw [if_neg hb]
    exact Or.inl ⟨o, hs, Or.inl rfl⟩

/-- Without status-changing updates, no stored order ever carries the
cancelled status. -/
theorem applyOp_ok_noCancelled (cat : Catalog) (st : SysState) (op : Op)
    (st' : SysState) (hkeep : opKeepsStatus op = true) (hnc : noCancelled st)
    (hok : applyOp cat st op = .ok st') : noCancelled st' := by
  cases op with
  | createPO w items =>
    injection hok with hok
    subst hok
    intro o ho
    rw [create_purchase_order_orders] at ho
    rcases List.mem_append.mp ho with h | h
    · exact hnc o h
    · simp only [List.mem_singleton] at h
      subst h
      simp
  | receivePO oid0 lines =>
    obtain ⟨o0, out, hlo0, hco0, hrl, hst'⟩ := receive_order_ok st oid0 lines st' hok
    subst hst'
    intro o' ho'
    rcases mem_modifyOrder _ _ _ _ ho' with ⟨o1, _, rfl⟩ | h
    · show (setOrderItemsStatus _ _ o1).status ≠ _
      simp only [setOrderItemsStatus]
      split
      · simp
      · split
        · simp
        · exact hnc o0 (lookupOrder_mem _ _ _ hlo0)
    · exact hnc o' h
  | updatePO oid0 wh stat =>
    cases stat with
    | some s => simp [opKeepsStatus] at hkeep
    | none =>
      obtain ⟨o0, hlo0, hp0, hst'⟩ := update_purchase_order_ok st oid0 wh none st' hok
      subst hst'
      intro o' ho'
      rcases mem_modifyOrder _ _ _ _ ho' with ⟨o1, h1, rfl⟩ | h
      · show (applyOrderUpdate wh none o1).status ≠ _
        exact hnc o1 h1
      · exact hnc o' h
  | deletePO n =>
    obtain ⟨o0, hlo0, hp0, hst'⟩ := delete_purchase_order_ok st n st' hok
    subst hst'
    intro o' ho'
    exact hnc o' (List.mem_of_mem_filter ho')
  | packOp pid w q =>
    obtain ⟨ho, -⟩ := package_products_ok_orders cat st pid w q st' hok
    intro o' ho'
    exact hnc o' (ho ▸ ho')
  | shipOp pid w q =>
    obtain ⟨ho, -⟩ := ship_products_ok_orders st pid w q st' hok
    intro o' ho'
    exact hnc o' (ho ▸ ho')
  | assembleOp cid q =>
    obtain ⟨ho, -⟩ := assemble_ok_shape cat st cid q st' hok
    intro o' ho'
    exact hnc o' (ho ▸ ho')
  | shipComboOp cid q =>
    obtain ⟨ho, -⟩ := ship_combo_ok_shape st cid q st' hok
    intro o' ho'
    exact hnc o' (ho ▸ ho')

theorem runOp_noCancelled (cat : Catalog) (st : SysState) (op : Op)
    (hkeep : opKeepsStatus op = true) (hnc : noCancelled st) :
    noCancelled (runOp cat st op) := by
  unfold runOp
  by_cases hb : boundaryOk op = true
  · rw [if_pos hb]
    cases happ : applyOp cat st op with
    | error e => exact hnc
    | ok st' => exact applyOp_ok_noCancelled cat st op st' hkeep hnc happ
  · rw [if_neg hb]
    exact hnc

theorem runOps_noCancelled (cat : Catalog) (st : SysState) (ops : List Op)
    (hkeep : ∀ o ∈ ops, opKeepsStatus o = true) (hnc : noCancelled st) :
    noCancelled (runOps cat st ops) := by
  induction ops generalizing st with
  | nil => exact hnc
  | cons op ops ih =>
    exact ih (runOp cat st op) (fun o ho => hkeep o (List.mem_cons_of_mem _ ho))
      (runOp_noCancelled cat st op (hkeep op (List.mem_cons_self _ _)) hnc)

/-- C7 (amended): along any boundary-accepted operation sequence whose
update requests do not set the status field, an order's status only moves
along pending → partial → completed (skipping allowed) or stays put, and
an order only disappears through delete while still pending.  (The claim
as stated fails because `update_purchase_order` accepts a status field:
see the counterexample.) -/
theorem C7_theorem (cat : Catalog) (ops : List Op) (op : Op) (oid : Nat)
    (s : OrderStatus)
    (hkeep : ∀ o ∈ ops, opKeepsStatus o = true)
    (hkop : opKeepsStatus op = true)
    (hs : orderStatusIn (runOps cat SysState.empty ops) oid = some s) :
    (∀ s', orderStatusIn (runOp cat (runOps cat SysState.empty ops) op) oid =
        some s' → claimAllowedMove s s') ∧
    (orderStatusIn (runOp cat (runOps cat SysState.empty ops) op) oid = none →
      s = .pending ∧ op = .deletePO oid) := by
  have hnc : noCancelled (runOps cat SysState.empty ops) :=
    runOps_noCancelled cat SysState.empty ops hkeep (by intro o ho; cases ho)
  obtain ⟨o, ho, hos⟩ : ∃ o,
      lookupOrder (runOps cat SysState.empty ops).orders oid = some o ∧
        o.status = s := by
    unfold orderStatusIn at hs
    cases h : lookupOrder (runOps cat SysState.empty ops).orders oid with
    | none => rw [h] at hs; simp at hs
    | some o =>
      rw [h] at hs
      simp only [Option.map_some'] at hs
      injection hs with hs
      exact ⟨o, rfl, hs⟩
  rcases runOp_status cat (runOps cat SysState.empty ops) op oid o hkop hnc ho with
    ⟨o', h1, h2⟩ | ⟨h1, h2, h3⟩
  · constructor
    · intro s' hs'
      unfold orderStatusIn at hs'
      rw [h1] at hs'
      simp only [Option.map_some'] at hs'
      injection hs' with hs'
      rw [← hos, ← hs']
      exact h2
    · intro hnone
      unfold orderStatusIn at hnone
      rw [h1] at hnone
      simp at hnone
  · constructor
    · intro s' hs'
      unfold orderStatusIn at hs'
      rw [h1] at hs'
      simp at hs'
    · intro _
      exact ⟨hos ▸ h2, h3⟩

/-- C7 witness: creating an order (status pending) and then receiving it
in full moves it pending → completed, which is an allowed move. -/
theorem C7_witness : claimAllowedMove .pending .completed :=
  (C7_theorem catEmpty [.createPO 1 [⟨11, 5⟩]] (.receivePO 1 [⟨1, 5⟩]) 1 .pending
    (by decide) rfl (by decide)).1 .completed (by decide)

/-- C7 counterexample: `update_purchase_order` accepts a status change on
a pending order (pending → cancelled not via delete), and a receive
against the cancelled order then moves it cancelled → completed — neither
transition is in the claim's allowed set. -/
theorem C7_counterexample :
    update_purchase_order (runOps catEmpty SysState.empty
      [.createPO 1 [⟨11, 5⟩]]) 1 none (some .cancelled) = .ok stCancelledOrder ∧
    orderStatusIn stCancelledOrder 1 = some .cancelled ∧
    receive_order stCancelledOrder 1 [⟨1, 5⟩] = .ok stCancelledCompleted ∧
    orderStatusIn stCancelledCompleted 1 = some .completed ∧
    ¬ claimAllowedMove .cancelled .completed ∧
    ¬ claimAllowedMove .pending .cancelled := by
  refine ⟨rfl, rfl, rfl, rfl, by decide, by decide⟩

theorem mem_modifyInv_keyed (db : List InventoryRecord) (p w : Nat)
    (f : InventoryRecord → InventoryRecord) (r' : InventoryRecord)
    (h : r' ∈ modifyInv db p w f) :
    (∃ r ∈ db, (r.product_id == p && r.warehouse_id == w) = true ∧ r' = f r) ∨
      r' ∈ db := by
  unfold modifyInv at h
  rcases List.mem_map.mp h with ⟨r, hr, heq⟩
  by_cases hk : (r.product_id == p && r.warehouse_id == w) = true
  · rw [if_pos hk] at heq
    exact Or.inl ⟨r, hr, hk, heq.symm⟩
  · rw [if_neg hk] at heq
    exact Or.inr (heq ▸ hr)

theorem mem_modifyCombo_keyed (db : List ComboInventoryRecord) (c w : Nat)
    (f : ComboInventoryRecord → ComboInventoryRecord) (r' : ComboInventoryRecord)
    (h : r' ∈ modifyCombo db c w f) :
    (∃ r ∈ db, (r.combo_product_id == c && r.warehouse_id == w) = true ∧ r' = f r) ∨
      r' ∈ db := by
  unfold modifyCombo at h
  rcases List.mem_map.mp h with ⟨r, hr, heq⟩
  by_cases hk : (r.combo_product_id == c && r.warehouse_id == w) = true
  · rw [if_pos hk] at heq
    exact Or.inl ⟨r, hr, hk, heq.symm⟩
  · rw [if_neg hk] at heq
    exact Or.inr (heq ▸ hr)

theorem invKeys_modifyInv (db : List InventoryRecord) (p w : Nat)
    (f : InventoryRecord → InventoryRecord) (hf : keysFixed f) :
    invKeys (modifyInv db p w f) = invKeys db := by
  unfold invKeys modifyInv
  rw [List.map_map]
  apply List.map_congr_left
  intro r _
  by_cases hk : (r.product_id == p && r.warehouse_id == w) = true
  · simp only [Function.comp, if_pos hk, (hf r).1, (hf r).2]
  · simp only [Function.comp, if_neg hk]

theorem comboKeys_modifyCombo (db : List ComboInventoryRecord) (c w : Nat)
    (f : ComboInventoryRecord → ComboInventoryRecord)
    (hf : ∀ r, (f r).combo_product_id = r.combo_product_id ∧
      (f r).warehouse_id = r.warehouse_id) :
    comboKeys (modifyCombo db c w f) = comboKeys db := by
  unfold comboKeys modifyCombo
  rw [List.map_map]
  apply List.map_congr_left
  intro r _
  by_cases hk : (r.combo_product_id == c && r.warehouse_id == w) = true
  · simp only [Function.comp, if_pos hk, (hf r).1, (hf r).2]
  · simp only [Function.comp, if_neg hk]

theorem lookupInv_none_not_mem (db : List InventoryRecord) (p w : Nat)
    (h : lookupInv db p w = none) : (p, w) ∉ invKeys db := by
  induction db with
  | nil => simp [invKeys]
  | cons r db ih =>
    unfold lookupInv at h ih
    by_cases hk : (r.product_id == p && r.warehouse_id == w) = true
    · rw [List.find?_cons_of_pos] at h
      · exact absurd h (by simp)
      · exact hk
    · rw [List.find?_cons_of_neg] at h
      rotate_left
      · exact hk
      intro hmem
      rcases List.mem_cons.mp hmem with heq | hmem'
      · have h12 : r.product_id = p ∧ r.warehouse_id = w := by
          have := heq.symm
          simp only [Prod.mk.injEq] at this
          exact this
        exact hk (by simp [h12.1, h12.2])
      · exact ih h hmem'

theorem lookupCombo_none_not_mem (db : List ComboInventoryRecord) (c w : Nat)
    (h : lookupCombo db c w = none) : (c, w) ∉ comboKeys db := by
  induction db with
  | nil => simp [comboKeys]
  | cons r db ih =>
    unfold lookupCombo at h ih
    by_cases hk : (r.combo_product_id == c && r.warehouse_id == w) = true
    · rw [List.find?_cons_of_pos] at h
      · exact absurd h (by simp)
      · exact hk
    · rw [List.find?_cons_of_neg] at h
      rotate_left
      · exact hk
      intro hmem
      rcases List.mem_cons.mp hmem with heq | hmem'
      · have h12 : r.combo_product_id = c ∧ r.warehouse_id = w := by
          have := heq.symm
          simp only [Prod.mk.injEq] at this
          exact this
        exact hk (by simp [h12.1, h12.2])
      · exact ih h hmem'

/-- With unique keys, any member carrying the key is the record the
lookup returns. -/
theorem lookupInv_of_mem_nodup (db : List InventoryRecord) (p w : Nat)
    (r : InventoryRecord) (hnodup : (invKeys db).Nodup) (hr : r ∈ db)
    (hk : (r.product_id == p && r.warehouse_id == w) = true) :
    lookupInv db p w = some r := by
  induction db with
  | nil => cases hr
  | cons a db ih =>
    unfold lookupInv at ih ⊢
    rcases List.mem_cons.mp hr with heq | hmem
    · subst heq
      rw [List.find?_cons_of_pos]
      exact hk
    · by_cases ha : (a.product_id == p && a.warehouse_id == w) = true
      · exfalso
        have h1 : (a.product_id, a.warehouse_id) = (p, w) := by
          simp at ha
          simp [ha.1, ha.2]
        have h2 : (r.product_id, r.warehouse_id) = (p, w) := by
          simp at hk
          simp [hk.1, hk.2]
        have : (p, w) ∈ invKeys db := by
          rw [← h2]
          exact List.mem_map_of_mem _ hmem
        rw [invKeys, List.map_cons, List.nodup_cons] at hnodup
        exact hnodup.1 (h1 ▸ this)
      · rw [List.find?_cons_of_neg]
        · exact ih (by rw [invKeys, List.map_cons, List.nodup_cons] at hnodup; exact hnodup.2) hmem
        · exact ha

theorem lookupCombo_of_mem_nodup (db : List ComboInventoryRecord) (c w : Nat)
    (r : ComboInventoryRecord) (hnodup : (comboKeys db).Nodup) (hr : r ∈ db)
    (hk : (r.combo_product_id == c && r.warehouse_id == w) = true) :
    lookupCombo db c w = some r := by
  induction db with
  | nil => cases hr
  | cons a db ih =>
    unfold lookupCombo at ih ⊢
    rcases List.mem_cons.mp hr with heq | hmem
    · subst heq
      rw [List.find?_cons_of_pos]
      exact hk
    · by_cases ha : (a.combo_product_id == c && a.warehouse_id == w) = true
      · exfalso
        have h1 : (a.combo_product_id, a.warehouse_id) = (c, w) := by
          simp at ha
          simp [ha.1, ha.2]
        have h2 : (r.combo_product_id, r.warehouse_id) = (c, w) := by
          simp at hk
          simp [hk.1, hk.2]
        have : (c, w) ∈ comboKeys db := by
          rw [← h2]
          exact List.mem_map_of_mem _ hmem
        rw [comboKeys, List.map_cons, List.nodup_cons] at hnodup
        exact hnodup.1 (h1 ▸ this)
      · rw [List.find?_cons_of_neg]
        · exact ih (by rw [comboKeys, List.map_cons, List.nodup_cons] at hnodup; exact hnodup.2) hmem
        · exact ha

theorem lookupInv_mem (db : List InventoryRecord) (p w : Nat) (r : InventoryRecord)
    (h : lookupInv db p w = some r) :
    r ∈ db ∧ r.product_id = p ∧ r.warehouse_id = w := by
  unfold lookupInv at h
  have h1 := List.mem_of_find?_eq_some h
  have h2 := List.find?_some h
  simp only [Bool.and_eq_true, beq_iff_eq] at h2
  exact ⟨h1, h2.1, h2.2⟩

theorem lookupCombo_mem (db : List ComboInventoryRecord) (c w : Nat)
    (r : ComboInventoryRecord) (h : lookupCombo db c w = some r) :
    r ∈ db ∧ r.combo_product_id = c ∧ r.warehouse_id = w := by
  unfold lookupCombo at h
  have h1 := List.mem_of_find?_eq_some h
  have h2 := List.find?_some h
  simp only [Bool.and_eq_true, beq_iff_eq] at h2
  exact ⟨h1, h2.1, h2.2⟩

/-- With unique keys, a member of a keyed rewrite is either the rewritten
looked-up record or a member of the original table. -/
theorem mem_modifyInv_nodup (db : List InventoryRecord) (p w : Nat)
    (f : InventoryRecord → InventoryRecord) (r0 r' : InventoryRecord)
    (hnd : (invKeys db).Nodup) (hlk : lookupInv db p w = some r0)
    (h : r' ∈ modifyInv db p w f) : r' = f r0 ∨ r' ∈ db := by
  rcases mem_modifyInv_keyed db p w f r' h with ⟨r, hr, hk, heq⟩ | hmem
  · have := lookupInv_of_mem_nodup db p w r hnd hr hk
    rw [hlk] at this
    injection this with this
    exact Or.inl (this ▸ heq)
  · exact Or.inr hmem

theorem mem_modifyCombo_nodup (db : List ComboInventoryRecord) (c w : Nat)
    (f : ComboInventoryRecord → ComboInventoryRecord) (r0 r' : ComboInventoryRecord)
    (hnd : (comboKeys db).Nodup) (hlk : lookupCombo db c w = some r0)
    (h : r' ∈ modifyCombo db c w f) : r' = f r0 ∨ r' ∈ db := by
  rcases mem_modifyCombo_keyed db c w f r' h with ⟨r, hr, hk, heq⟩ | hmem
  · have := lookupCombo_of_mem_nodup db c w r hnd hr hk
    rw [hlk] at this
    injection this with this
    exact Or.inl (this ▸ heq)
  · exact Or.inr hmem

/-! ## Non-negativity of the record rewrites -/

theorem recNonneg_addInTransitClamped (q : Int) (r : InventoryRecord)
    (h : recNonneg r) : recNonneg (addInTransitClamped q r) := by
  obtain ⟨-, b, c, d⟩ := h
  exact ⟨le_max_left 0 _, b, c, d⟩

theorem recNonneg_subSemi (d : Int) (r : InventoryRecord) (h : recNonneg r)
    (hd : d ≤ r.semi_finished) : recNonneg (subSemi d r) := by
  obtain ⟨a, b, c, e⟩ := h
  refine ⟨a, ?_, c, e⟩
  show (0:Int) ≤ r.semi_finished - d
  omega

theorem recNonneg_transferFrom (fs : String) (q : Int) (r : InventoryRecord)
    (h : recNonneg r)
    (h1 : fs = "in_transit" → q ≤ r.in_transit)
    (h2 : fs = "semi_finished" → q ≤ r.semi_finished)
    (h3 : fs = "finished" → q ≤ r.finished) :
    recNonneg (transferFrom fs q r) := by
  obtain ⟨a, b, c, d⟩ := h
  unfold transferFrom
  split_ifs with e1 e2 e3
  · refine ⟨?_, b, c, d⟩
    have := h1 e1
    show (0:Int) ≤ r.in_transit - q
    omega
  · refine ⟨a, ?_, c, d⟩
    have := h2 e2
    show (0:Int) ≤ r.semi_finished - q
    omega
  · refine ⟨a, b, ?_, d⟩
    have := h3 e3
    show (0:Int) ≤ r.finished - q
    omega
  · exact ⟨a, b, c, d⟩

theorem recNonneg_transferTo (ts : String) (q : Int) (r : InventoryRecord)
    (h : recNonneg r) (hq : 0 ≤ q) : recNonneg (transferTo ts q r) := by
  obtain ⟨a, b, c, d⟩ := h
  unfold transferTo
  split_ifs with e1 e2 e3
  · refine ⟨a, ?_, c, d⟩
    show (0:Int) ≤ r.semi_finished + q
    omega
  · refine ⟨a, b, ?_, d⟩
    show (0:Int) ≤ r.finished + q
    omega
  · refine ⟨a, b, c, ?_⟩
    show (0:Int) ≤ r.shipped + q
    omega
  · exact ⟨a, b, c, d⟩

/-! ## Non-negativity and key uniqueness through the helpers -/

theorem update_in_transit_nonneg (db : List InventoryRecord) (p w : Nat) (q : Int)
    (h : ∀ r ∈ db, recNonneg r) :
    ∀ r' ∈ update_inventory_in_transit db p w q, recNonneg r' := by
  intro r' hr'
  unfold update_inventory_in_transit at hr'
  cases hlk : lookupInv db p w with
  | none =>
    rw [hlk] at hr'
    rcases List.mem_append.mp hr' with hm | hm
    · exact h r' hm
    · simp only [List.mem_singleton] at hm
      subst hm
      exact ⟨le_max_left 0 _, le_refl 0, le_refl 0, le_refl 0⟩
  | some r0 =>
    rw [hlk] at hr'
    rcases mem_modifyInv_keyed db p w _ r' hr' with ⟨r, hr, -, heq⟩ | hm
    · exact heq ▸ recNonneg_addInTransitClamped q r (h r hr)
    · exact h r' hm

theorem update_in_transit_keys (db : List InventoryRecord) (p w : Nat) (q : Int)
    (hnd : (invKeys db).Nodup) :
    (invKeys (update_inventory_in_transit db p w q)).Nodup := by
  unfold update_inventory_in_transit
  cases hlk : lookupInv db p w with
  | none =>
    have hmem := lookupInv_none_not_mem db p w hlk
    unfold invKeys
    rw [List.map_append]
    refine List.Nodup.append hnd (List.nodup_singleton _) ?_
    intro a ha hb
    simp only [List.map_cons, List.map_nil, List.mem_singleton] at hb
    subst hb
    exact hmem ha
  | some r0 =>
    rw [invKeys_modifyInv db p w _ (keysFixed_addInTransitClamped q)]
    exact hnd

theorem transfer_inventory_nonneg (db db' : List InventoryRecord) (p w : Nat)
    (fs ts : String) (q : Int) (hq : 0 ≤ q)
    (hnn : ∀ r ∈ db, recNonneg r) (hnd : (invKeys db).Nodup)
    (hok : transfer_inventory db p w fs ts q = .ok db') :
    (∀ r ∈ db', recNonneg r) ∧ (invKeys db').Nodup := by
  obtain ⟨r0, hlk, hdb', hg1, hg2, hg3⟩ := transfer_ok_state db db' p w fs ts q hok
  have hr0 : recNonneg r0 := hnn r0 (lookupInv_mem db p w r0 hlk).1
  have hF : recNonneg (transferFrom fs q r0) :=
    recNonneg_transferFrom fs q r0 hr0 hg1 hg2 hg3
  have hnd1 : (invKeys (modifyInv db p w (transferFrom fs q))).Nodup := by
    rw [invKeys_modifyInv db p w _ (keysFixed_transferFrom fs q)]
    exact hnd
  have hlk1 : lookupInv (modifyInv db p w (transferFrom fs q)) p w =
      some (transferFrom fs q r0) := by
    rw [lookupInv_modifyInv_self db p w _ (keysFixed_transferFrom fs q), hlk,
      Option.map_some']
  constructor
  · intro r' hr'
    rw [hdb'] at hr'
    rcases mem_modifyInv_nodup _ p w _ _ r' hnd1 hlk1 hr' with heq | hm
    · exact heq ▸ recNonneg_transferTo ts q _ hF hq
    · rcases mem_modifyInv_nodup db p w _ r0 r' hnd hlk hm with heq | hm2
      · exact heq ▸ hF
      · exact hnn r' hm2
  · rw [hdb', invKeys_modifyInv _ p w _ (keysFixed_transferTo ts q)]
    exact hnd1

theorem createPOItems_nonneg (oid w : Nat) (items : List POItemReq) :
    ∀ (nid : Nat) (inv : List InventoryRecord) (log : List InventoryTransaction),
    (∀ r ∈ inv, recNonneg r) → (invKeys inv).Nodup →
    (∀ r ∈ (createPOItems oid w items nid inv log).2.2.1, recNonneg r) ∧
      (invKeys (createPOItems oid w items nid inv log).2.2.1).Nodup := by
  induction items with
  | nil => intro nid inv log h hnd; exact ⟨h, hnd⟩
  | cons it rest ih =>
    intro nid inv log h hnd
    simp only [createPOItems]
    exact ih _ _ _
      (update_in_transit_nonneg inv it.product_id w it.quantity h)
      (update_in_transit_keys inv it.product_id w it.quantity hnd)

theorem deletePOItems_nonneg (w oid : Nat) (items : List PurchaseOrderItem) :
    ∀ (inv : List InventoryRecord) (log : List InventoryTransaction),
    (∀ r ∈ inv, recNonneg r) → (invKeys inv).Nodup →
    (∀ r ∈ (deletePOItems w oid items inv log).1, recNonneg r) ∧
      (invKeys (deletePOItems w oid items inv log).1).Nodup := by
  induction items with
  | nil => intro inv log h hnd; exact ⟨h, hnd⟩
  | cons it rest ih =>
    intro inv log h hnd
    simp only [deletePOItems]
    exact ih _ _
      (update_in_transit_nonneg inv it.product_id w (-it.quantity) h)
      (update_in_transit_keys inv it.product_id w (-it.quantity) hnd)

theorem receiveLines_nonneg (w oid : Nat) (lines : List ReceiveLine) :
    ∀ (items : List PurchaseOrderItem) (inv : List InventoryRecord)
      (log : List InventoryTransaction)
      (out : List PurchaseOrderItem × List InventoryRecord × List InventoryTransaction),
    (∀ l ∈ lines, 0 ≤ l.received_quantity) →
    (∀ r ∈ inv, recNonneg r) → (invKeys inv).Nodup →
    receiveLines w oid lines items inv log = .ok out →
    (∀ r ∈ out.2.1, recNonneg r) ∧ (invKeys out.2.1).Nodup := by
  induction lines with
  | nil =>
    intro items inv log out _ h hnd hok
    injection hok with hok
    subst hok
    exact ⟨h, hnd⟩
  | cons l rest ih =>
    intro items inv log out hl h hnd hok
    cases hfind : items.find? (fun it => it.id == l.item_id) with
    | none =>
      simp only [receiveLines, hfind] at hok
      exact absurd hok (by simp)
    | some oi =>
      simp only [receiveLines, hfind] at hok
      split at hok
      · exact absurd hok (by simp)
      · cases htr : transfer_inventory inv oi.product_id w "in_transit"
            "semi_finished" l.received_quantity with
        | error e => rw [htr] at hok; exact absurd hok (by simp)
        | ok inv' =>
          rw [htr] at hok
          have h2 := transfer_inventory_nonneg inv inv' oi.product_id w
            "in_transit" "semi_finished" l.received_quantity
            (hl l (List.mem_cons_self l rest)) h hnd htr
          exact ih _ _ _ _ (fun x hx => hl x (List.mem_cons_of_mem l hx))
            h2.1 h2.2 hok

theorem packConsume_nonneg (w : Nat) (q : Int) (rels : List PackagingRelation) :
    ∀ (inv : List InventoryRecord) (log : List InventoryTransaction)
      (out : List InventoryRecord × List InventoryTransaction),
    (∀ r ∈ inv, recNonneg r) → (invKeys inv).Nodup →
    packConsume w q rels inv log = .ok out →
    (∀ r ∈ out.1, recNonneg r) ∧ (invKeys out.1).Nodup := by
  induction rels with
  | nil =>
    intro inv log out h hnd hok
    injection hok with hok
    subst hok
    exact ⟨h, hnd⟩
  | cons rel rest ih =>
    intro inv log out h hnd hok
    cases hlk : lookupInv inv rel.packaging_id w with
    | none =>
      simp only [packConsume, hlk] at hok
      exact absurd hok (by simp)
    | some pr =>
      simp only [packConsume, hlk] at hok
      split at hok
      · exact absurd hok (by simp)
      · next hguard =>
        refine ih _ _ _ ?_ ?_ hok
        · intro r' hr'
          rcases mem_modifyInv_nodup inv rel.packaging_id w _ pr r' hnd hlk hr' with
            heq | hm
          · exact heq ▸ recNonneg_subSemi _ pr
              (h pr (lookupInv_mem inv rel.packaging_id w pr hlk).1)
              (by omega)
          · exact h r' hm
        · rw [invKeys_modifyInv inv rel.packaging_id w _
            (keysFixed_subSemi (rel.quantity * q))]
          exact hnd

theorem create_purchase_order_nonneg (st : SysState) (w : Nat)
    (items : List POItemReq) (hnn : stateNonneg st) (hk : keysOk st) :
    stateNonneg (create_purchase_order st w items) ∧
      keysOk (create_purchase_order st w items) := by
  have h := createPOItems_nonneg st.next_order_id w items st.next_item_id
    st.inventory st.invLog hnn.1 hk.1
  exact ⟨⟨h.1, hnn.2⟩, ⟨h.2, hk.2⟩⟩

theorem receive_order_nonneg (st : SysState) (oid : Nat) (lines : List ReceiveLine)
    (st' : SysState) (hl : ∀ l ∈ lines, 0 ≤ l.received_quantity)
    (hnn : stateNonneg st) (hk : keysOk st)
    (hok : receive_order st oid lines = .ok st') :
    stateNonneg st' ∧ keysOk st' := by
  obtain ⟨o, out, -, -, hrl, hst'⟩ := receive_order_ok st oid lines st' hok
  have h := receiveLines_nonneg o.warehouse_id oid lines o.items st.inventory
    st.invLog out hl hnn.1 hk.1 hrl
  subst hst'
  exact ⟨⟨h.1, hnn.2⟩, ⟨h.2, hk.2⟩⟩

theorem update_purchase_order_nonneg (st : SysState) (oid : Nat) (wh : Option Nat)
    (stat : Option OrderStatus) (st' : SysState)
    (hnn : stateNonneg st) (hk : keysOk st)
    (hok : update_purchase_order st oid wh stat = .ok st') :
    stateNonneg st' ∧ keysOk st' := by
  obtain ⟨o, -, -, hst'⟩ := update_purchase_order_ok st oid wh stat st' hok
  subst hst'
  exact ⟨⟨hnn.1, hnn.2⟩, ⟨hk.1, hk.2⟩⟩

theorem delete_purchase_order_nonneg (st : SysState) (oid : Nat) (st' : SysState)
    (hnn : stateNonneg st) (hk : keysOk st)
    (hok : delete_purchase_order st oid = .ok st') :
    stateNonneg st' ∧ keysOk st' := by
  obtain ⟨o, -, -, hst'⟩ := delete_purchase_order_ok st oid st' hok
  have h := deletePOItems_nonneg o.warehouse_id oid o.items st.inventory st.invLog
    hnn.1 hk.1
  subst hst'
  exact ⟨⟨h.1, hnn.2⟩, ⟨h.2, hk.2⟩⟩

theorem ship_products_nonneg (st : SysState) (pid w : Nat) (q : Int)
    (st' : SysState) (hq : 0 ≤ q) (hnn : stateNonneg st) (hk : keysOk st)
    (hok : ship_products st pid w q = .ok st') :
    stateNonneg st' ∧ keysOk st' := by
  unfold ship_products at hok
  cases htr : transfer_inventory st.inventory pid w "finished" "shipped" q with
  | error e => rw [htr] at hok; exact absurd hok (by simp)
  | ok inv =>
    rw [htr] at hok
    injection hok with hok
    subst hok
    have h := transfer_inventory_nonneg st.inventory inv pid w "finished" "shipped"
      q hq hnn.1 hk.1 htr
    exact ⟨⟨h.1, hnn.2⟩, ⟨h.2, hk.2⟩⟩

theorem package_products_nonneg (cat : Catalog) (st : SysState) (pid w : Nat)
    (q : Int) (st' : SysState) (hq : 0 ≤ q) (hnn : stateNonneg st) (hk : keysOk st)
    (hok : package_products cat st pid w q = .ok st') :
    stateNonneg st' ∧ keysOk st' := by
  unfold package_products at hok
  cases hfp : cat.products.find? (fun pr => pr.id == pid) with
  | none => rw [hfp] at hok; exact absurd hok (by simp)
  | some product =>
    simp only [hfp] at hok
    split at hok
    · exact absurd hok (by simp)
    · next inv1 log1 heq =>
      split at hok
      · exact absurd hok (by simp)
      · next inv2 htr =>
        injection hok with hok
        subst hok
        have hprops : (∀ r ∈ inv1, recNonneg r) ∧ (invKeys inv1).Nodup := by
          split at heq
          · split at heq
            · exact packConsume_nonneg w q product.packaging_relations st.inventory
                st.invLog (inv1, log1) hnn.1 hk.1 heq
            · split at heq
              · split at heq
                · exact absurd heq (by simp)
                · next pr hlk =>
                  split at heq
                  · exact absurd heq (by simp)
                  · next hguard =>
                    injection heq with heq
                    have h1 := congrArg Prod.fst heq
                    dsimp only at h1
                    subst h1
                    constructor
                    · intro r' hr'
                      rcases mem_modifyInv_nodup st.inventory _ w _ pr r' hk.1
                        hlk hr' with he | hm
                      · exact he ▸ recNonneg_subSemi q pr
                          (hnn.1 pr (lookupInv_mem st.inventory _ w pr hlk).1)
                          (by omega)
                      · exact hnn.1 r' hm
                    · rw [invKeys_modifyInv st.inventory _ w _ (keysFixed_subSemi q)]
                      exact hk.1
              · injection heq with heq
                have h1 := congrArg Prod.fst heq
                dsimp only at h1
                subst h1
                exact ⟨hnn.1, hk.1⟩
          · injection heq with heq
            have h1 := congrArg Prod.fst heq
            dsimp only at h1
            subst h1
            exact ⟨hnn.1, hk.1⟩
        have h2 := transfer_inventory_nonneg inv1 inv2 pid w "semi_finished"
          "finished" q hq hprops.1 hprops.2 htr
        exact ⟨⟨h2.1, hnn.2⟩, ⟨h2.2, hk.2⟩⟩

/-- One boundary-checked request preserves non-negativity and key
uniqueness (the two combo endpoints always fail, so they contribute
nothing to check). -/
theorem runOp_invariants (cat : Catalog) (st : SysState) (op : Op)
    (hnn : stateNonneg st) (hk : keysOk st) :
    stateNonneg (runOp cat st op) ∧ keysOk (runOp cat st op) := by
  by_cases hb : boundaryOk op = true
  · cases hap : applyOp cat st op with
    | error e =>
      have he : runOp cat st op = st := by
        unfold runOp
        rw [if_pos hb, hap]
      rw [he]
      exact ⟨hnn, hk⟩
    | ok st' =>
      have he : runOp cat st op = st' := by
        unfold runOp
        rw [if_pos hb, hap]
      rw [he]
      cases op with
      | createPO w items =>
        simp only [applyOp] at hap
        injection hap with hap
        subst hap
        exact create_purchase_order_nonneg st w items hnn hk
      | receivePO oid lines =>
        simp only [applyOp] at hap
        have hl : ∀ l ∈ lines, 0 ≤ l.received_quantity := by
          simp only [boundaryOk, receiveOrderRequestValid, receiveItemRequestValid,
            Bool.and_eq_true, List.all_eq_true, decide_eq_true_eq] at hb
          exact hb.2
        exact receive_order_nonneg st oid lines st' hl hnn hk hap
      | updatePO oid wh stat =>
        simp only [applyOp] at hap
        exact update_purchase_order_nonneg st oid wh stat st' hnn hk hap
      | deletePO oid =>
        simp only [applyOp] at hap
        exact delete_purchase_order_nonneg st oid st' hnn hk hap
      | packOp pid w q =>
        simp only [applyOp] at hap
        have hqp : (0:Int) < q := by
          simpa [boundaryOk, packagingRequestValid] using hb
        exact package_products_nonneg cat st pid w q st' (le_of_lt hqp) hnn hk hap
      | shipOp pid w q =>
        simp only [applyOp] at hap
        have hqp : (0:Int) < q := by
          simpa [boundaryOk, shippingRequestValid] using hb
        exact ship_products_nonneg st pid w q st' (le_of_lt hqp) hnn hk hap
      | assembleOp cid q =>
        simp only [applyOp] at hap
        exact absurd hap (assemble_no_ok cat st cid q st')
      | shipComboOp cid q =>
        simp only [applyOp] at hap
        exact absurd hap (ship_combo_no_ok st cid q st')
  · have he : runOp cat st op = st := by
      unfold runOp
      rw [if_neg hb]
    rw [he]
    exact ⟨hnn, hk⟩

theorem runOps_invariants (cat : Catalog) (ops : List Op) :
    ∀ st : SysState, stateNonneg st → keysOk st →
    stateNonneg (runOps cat st ops) ∧ keysOk (runOps cat st ops) := by
  induction ops with
  | nil => intro st hnn hk; exact ⟨hnn, hk⟩
  | cons op rest ih =>
    intro st hnn hk
    have h1 := runOp_invariants cat st op hnn hk
    exact ih (runOp cat st op) h1.1 h1.2

/-- C3 (confirmed): along every sequence of core operations with any
arguments accepted at the request boundary, starting from any store with
non-negative counters and unique (product, warehouse) /
(combo, warehouse) keys — the empty store in particular — every counter
of every InventoryRecord and ComboInventoryRecord remains ≥ 0 after
every call.  Create and delete clamp `in_transit` at zero, receive,
pack and ship guard every decrement and error out otherwise (`runOp`
maps errors to the unchanged committed state), and the combo assemble
and ship endpoints never mutate anything: both fail on the absent
`request.warehouse_id` field before reaching their counter updates, so
not even their unchecked negative quantities can drive a counter below
zero. -/
theorem C3_theorem (cat : Catalog) (st : SysState) (ops : List Op)
    (hnn : stateNonneg st) (hk : keysOk st) :
    stateNonneg (runOps cat st ops) :=
  (runOps_invariants cat ops st hnn hk).1

/-- C3 witness: a concrete create → receive → assemble → ship-combo run
from the empty store keeps every counter non-negative (the two combo
calls fail with the schema-field AttributeError and change nothing, a
negative combo quantity included). -/
theorem C3_witness :
    stateNonneg SysState.empty ∧ keysOk SysState.empty ∧
    stateNonneg (runOps catOneItemCombo SysState.empty
      [.createPO 1 [⟨11, 5⟩], .receivePO 1 [⟨1, 5⟩],
       .assembleOp 1 2, .shipComboOp 1 (-1)]) :=
  ⟨by decide, by decide,
   C3_theorem catOneItemCombo SysState.empty
     [.createPO 1 [⟨11, 5⟩], .receivePO 1 [⟨1, 5⟩],
      .assembleOp 1 2, .shipComboOp 1 (-1)]
     (by decide) (by decide)⟩

theorem find?_item_of_mem_nodup (items : List PurchaseOrderItem) (k : Nat)
    (hnd : (items.map (fun x => x.id)).Nodup) (a : PurchaseOrderItem)
    (ha : a ∈ items) (hk : a.id = k) :
    items.find? (fun x => x.id == k) = some a := by
  induction items with
  | nil => cases ha
  | cons b l ih =>
    rcases List.mem_cons.mp ha with heq | hmem
    · subst heq
      rw [List.find?_cons_of_pos]
      simp [hk]
    · by_cases hb : (b.id == k) = true
      · exfalso
        have hbk : b.id = k := by simpa using hb
        rw [List.map_cons, List.nodup_cons] at hnd
        apply hnd.1
        rw [hbk]
        exact hk ▸ List.mem_map_of_mem _ hmem
      · rw [List.find?_cons_of_neg]
        · exact ih (by rw [List.map_cons, List.nodup_cons] at hnd; exact hnd.2) hmem
        · exact hb

theorem createPOItems_items (oid w : Nat) (items : List POItemReq) :
    ∀ (nid : Nat) (inv : List InventoryRecord) (log : List InventoryTransaction),
    (∀ x ∈ (createPOItems oid w items nid inv log).1,
      nid ≤ x.id ∧ x.received_quantity = 0 ∧ ∃ it ∈ items, x.quantity = it.quantity) ∧
    ((createPOItems oid w items nid inv log).1.map (fun x => x.id)).Nodup := by
  induction items with
  | nil =>
    intro nid inv log
    simp only [createPOItems]
    exact ⟨fun x hx => absurd hx (List.not_mem_nil x), List.nodup_nil⟩
  | cons it rest ih =>
    intro nid inv log
    simp only [createPOItems]
    obtain ⟨ih1, ih2⟩ := ih (nid + 1)
      (update_inventory_in_transit inv it.product_id w it.quantity)
      (create_inventory_transaction log it.product_id w .purchase
        none (some .inTransit) it.quantity (some oid))
    constructor
    · intro x hx
      rcases List.mem_cons.mp hx with heq | hmem
      · subst heq
        exact ⟨le_refl nid, rfl, ⟨it, List.mem_cons_self _ _, rfl⟩⟩
      · obtain ⟨h1, h2, it', hit', h3⟩ := ih1 x hmem
        exact ⟨by omega, h2, ⟨it', List.mem_cons_of_mem _ hit', h3⟩⟩
    · rw [List.map_cons, List.nodup_cons]
      refine ⟨?_, ih2⟩
      intro hmem
      rcases List.mem_map.mp hmem with ⟨x, hx, hid⟩
      have hid' : x.id = nid := hid
      have := (ih1 x hx).1
      omega

theorem setItemReceived_ids (iid : Nat) (v : Int) (items : List PurchaseOrderItem) :
    (setItemReceived iid v items).map (fun x => x.id) =
      items.map (fun x => x.id) := by
  unfold setItemReceived
  rw [List.map_map]
  apply List.map_congr_left
  intro x _
  by_cases h : (x.id == iid) = true
  · simp only [Function.comp, if_pos h]
  · simp only [Function.comp, if_neg h]

theorem receiveLines_cap (w oid : Nat) (lines : List ReceiveLine) :
    ∀ (items : List PurchaseOrderItem) (inv : List InventoryRecord)
      (log : List InventoryTransaction)
      (out : List PurchaseOrderItem × List InventoryRecord × List InventoryTransaction),
    (∀ x ∈ items, x.received_quantity ≤ x.quantity) →
    (items.map (fun x => x.id)).Nodup →
    receiveLines w oid lines items inv log = .ok out →
    (∀ x ∈ out.1, x.received_quantity ≤ x.quantity) ∧
      (out.1.map (fun x => x.id)).Nodup := by
  induction lines with
  | nil =>
    intro items inv log out hcap hnd hok
    injection hok with hok
    subst hok
    exact ⟨hcap, hnd⟩
  | cons l rest ih =>
    intro items inv log out hcap hnd hok
    cases hfind : items.find? (fun it => it.id == l.item_id) with
    | none =>
      simp only [receiveLines, hfind] at hok
      exact absurd hok (by simp)
    | some oi =>
      simp only [receiveLines, hfind] at hok
      split at hok
      · exact absurd hok (by simp)
      · next hguard =>
        cases htr : transfer_inventory inv oi.product_id w "in_transit"
            "semi_finished" l.received_quantity with
        | error e => rw [htr] at hok; exact absurd hok (by simp)
        | ok inv' =>
          rw [htr] at hok
          have hcap' : ∀ x ∈ setItemReceived l.item_id
              (oi.received_quantity + l.received_quantity) items,
              x.received_quantity ≤ x.quantity := by
            intro x hx
            unfold setItemReceived at hx
            rcases List.mem_map.mp hx with ⟨y, hy, heq⟩
            by_cases hid : (y.id == l.item_id) = true
            · rw [if_pos hid] at heq
              have hyoi : y = oi := by
                have hf := find?_item_of_mem_nodup items l.item_id hnd y hy
                  (by simpa using hid)
                rw [hfind] at hf
                injection hf with hf
                exact hf.symm
              subst heq
              rw [hyoi]
              show oi.received_quantity + l.received_quantity ≤ oi.quantity
              omega
            · rw [if_neg hid] at heq
              subst heq
              exact hcap y hy
          exact ih _ _ _ _ hcap'
            (by rw [setItemReceived_ids]; exact hnd) hok

/-- One boundary-checked request keeps the receipt cap and the per-order
item-id uniqueness. -/
theorem runOp_itemsCap (cat : Catalog) (st : SysState) (op : Op)
    (hcap : itemsCap st) (hnd : itemIdsNodup st) :
    itemsCap (runOp cat st op) ∧ itemIdsNodup (runOp cat st op) := by
  by_cases hb : boundaryOk op = true
  · cases hap : applyOp cat st op with
    | error e =>
      have he : runOp cat st op = st := by
        unfold runOp
        rw [if_pos hb, hap]
      rw [he]
      exact ⟨hcap, hnd⟩
    | ok st' =>
      have he : runOp cat st op = st' := by
        unfold runOp
        rw [if_pos hb, hap]
      rw [he]
      cases op with
      | createPO w items =>
        simp only [applyOp] at hap
        injection hap with hap
        subst hap
        have hpos : ∀ it ∈ items, 0 < it.quantity := by
          simp only [boundaryOk, purchaseOrderCreateValid, poItemReqValid,
            Bool.and_eq_true, List.all_eq_true, decide_eq_true_eq] at hb
          exact hb.2
        have hitems := createPOItems_items st.next_order_id w items
          st.next_item_id st.inventory st.invLog
        constructor
        · intro o ho
          rw [create_purchase_order_orders] at ho
          rcases List.mem_append.mp ho with hm | hm
          · exact hcap o hm
          · simp only [List.mem_singleton] at hm
            subst hm
            intro x hx
            obtain ⟨-, h0, it', hit', hq⟩ := (hitems.1) x hx
            rw [h0, hq]
            exact le_of_lt (hpos it' hit')
        · intro o ho
          rw [create_purchase_order_orders] at ho
          rcases List.mem_append.mp ho with hm | hm
          · exact hnd o hm
          · simp only [List.mem_singleton] at hm
            subst hm
            exact hitems.2
      | receivePO oid lines =>
        simp only [applyOp] at hap
        obtain ⟨o, out, hlo, -, hrl, hst'⟩ := receive_order_ok st oid lines st' hap
        have homem := lookupOrder_mem st.orders oid o hlo
        have hout := receiveLines_cap o.warehouse_id oid lines o.items st.inventory
          st.invLog out (hcap o homem) (hnd o homem) hrl
        subst hst'
        constructor
        · intro o' ho'
          rcases mem_modifyOrder st.orders oid _ o' ho' with ⟨o0, -, heq⟩ | hm
          · subst heq
            exact hout.1
          · exact hcap o' hm
        · intro o' ho'
          rcases mem_modifyOrder st.orders oid _ o' ho' with ⟨o0, -, heq⟩ | hm
          · subst heq
            exact hout.2
          · exact hnd o' hm
      | updatePO oid wh stat =>
        simp only [applyOp] at hap
        obtain ⟨o, -, -, hst'⟩ := update_purchase_order_ok st oid wh stat st' hap
        subst hst'
        constructor
        · intro o' ho'
          rcases mem_modifyOrder st.orders oid _ o' ho' with ⟨o0, h0, heq⟩ | hm
          · subst heq
            exact hcap o0 h0
          · exact hcap o' hm
        · intro o' ho'
          rcases mem_modifyOrder st.orders oid _ o' ho' with ⟨o0, h0, heq⟩ | hm
          · subst heq
            exact hnd o0 h0
          · exact hnd o' hm
      | deletePO oid =>
        simp only [applyOp] at hap
        obtain ⟨o, -, -, hst'⟩ := delete_purchase_order_ok st oid st' hap
        subst hst'
        constructor
        · intro o' ho'
          exact hcap o' (List.mem_of_mem_filter ho')
        · intro o' ho'
          exact hnd o' (List.mem_of_mem_filter ho')
      | packOp pid w q =>
        simp only [applyOp] at hap
        have h := package_products_ok_orders cat st pid w q st' hap
        rw [itemsCap, itemIdsNodup, h.1]
        exact ⟨hcap, hnd⟩
      | shipOp pid w q =>
        simp only [applyOp] at hap
        have h := ship_products_ok_orders st pid w q st' hap
        rw [itemsCap, itemIdsNodup, h.1]
        exact ⟨hcap, hnd⟩
      | assembleOp cid q =>
        simp only [applyOp] at hap
        have h := assemble_ok_shape cat st cid q st' hap
        rw [itemsCap, itemIdsNodup, h.1]
        exact ⟨hcap, hnd⟩
      | shipComboOp cid q =>
        simp only [applyOp] at hap
        have h := ship_combo_ok_shape st cid q st' hap
        rw [itemsCap, itemIdsNodup, h.1]
        exact ⟨hcap, hnd⟩
  · have he : runOp cat st op = st := by
      unfold runOp
      rw [if_neg hb]
    rw [he]
    exact ⟨hcap, hnd⟩

theorem runOps_itemsCap (cat : Catalog) (ops : List Op) :
    ∀ st : SysState, itemsCap st → itemIdsNodup st →
    itemsCap (runOps cat st ops) ∧ itemIdsNodup (runOps cat st ops) := by
  induction ops with
  | nil => intro st hcap hnd; exact ⟨hcap, hnd⟩
  | cons op rest ih =>
    intro st hcap hnd
    have h1 := runOp_itemsCap cat st op hcap hnd
    exact ih (runOp cat st op) h1.1 h1.2

/-- The over-receipt guard of one receive line: an existing received
quantity plus the supplied delta exceeding the ordered quantity makes
`receive_order` fail with the over-receipt error. -/
theorem receive_order_overreceipt (st : SysState) (oid : Nat) (l : ReceiveLine)
    (o : PurchaseOrder) (it : PurchaseOrderItem)
    (hlo : lookupOrder st.orders oid = some o) (hst : o.status ≠ .completed)
    (hfind : o.items.find? (fun x => x.id == l.item_id) = some it)
    (hover : it.quantity < it.received_quantity + l.received_quantity) :
    receive_order st oid [l] = .error .overReceipt := by
  have hrl : receiveLines o.warehouse_id oid [l] o.items st.inventory st.invLog =
      .error .overReceipt := by
    simp only [receiveLines, hfind]
    rw [if_pos hover]
  simp only [receive_order, hlo, if_neg hst, hrl]

/-- C5: along every boundary-accepted request sequence from a store whose
orders satisfy the receipt cap and have DB-unique item ids (the empty
store and anything built by create do), every purchase-order item keeps
`received_quantity ≤ quantity` after each call; and a receive call whose
line's existing received quantity plus the supplied delta would exceed the
ordered quantity fails with the over-receipt error (not a silent clamp)
and leaves the committed state — order items, inventory counters, and
order status — unchanged. -/
theorem C5_theorem :
    (∀ (cat : Catalog) (st : SysState) (ops : List Op),
      itemsCap st → itemIdsNodup st → itemsCap (runOps cat st ops)) ∧
    (∀ (cat : Catalog) (st : SysState) (oid : Nat) (l : ReceiveLine)
      (o : PurchaseOrder) (it : PurchaseOrderItem),
      lookupOrder st.orders oid = some o → o.status ≠ .completed →
      o.items.find? (fun x => x.id == l.item_id) = some it →
      it.quantity < it.received_quantity + l.received_quantity →
      receive_order st oid [l] = .error .overReceipt ∧
        runOp cat st (.receivePO oid [l]) = st) := by
  constructor
  · intro cat st ops hcap hnd
    exact (runOps_itemsCap cat ops st hcap hnd).1
  · intro cat st oid l o it hlo hst hfind hover
    have herr := receive_order_overreceipt st oid l o it hlo hst hfind hover
    refine ⟨herr, ?_⟩
    have herr' : applyOp cat st (.receivePO oid [l]) = .error .overReceipt := herr
    unfold runOp
    by_cases hbb : boundaryOk (.receivePO oid [l]) = true
    · rw [if_pos hbb, herr']
    · rw [if_neg hbb]

/-- C5 witness: receiving 3 of 5 keeps the cap; a second line claiming 9
more against the same 5-unit item is rejected with over-receipt and the
state is unchanged. -/
theorem C5_witness :
    itemsCap (runOps catEmpty stFixPending
      [.receivePO 1 [⟨1, 3⟩], .receivePO 1 [⟨1, 9⟩]]) ∧
    (receive_order stFixPending 1 [⟨1, 9⟩] = .error .overReceipt ∧
      runOp catEmpty stFixPending (.receivePO 1 [⟨1, 9⟩]) = stFixPending) :=
  ⟨C5_theorem.1 catEmpty stFixPending [.receivePO 1 [⟨1, 3⟩], .receivePO 1 [⟨1, 9⟩]]
     (by decide) (by decide),
   C5_theorem.2 catEmpty stFixPending 1 ⟨1, 9⟩ poFixOrder ⟨1, 11, 5, 0⟩
     (by decide) (by decide) (by decide) (by decide)⟩

/-- C2 (corrected): `assemble_combo_product` can never behave as the
claim describes.  `ComboProductAssembleRequest` has no `warehouse_id`
field, yet the handler reads `request.warehouse_id` right after the 404
lookup, so a call on a missing combo is rejected with NotFound and every
call on an existing combo fails with an unhandled AttributeError (500)
before the availability check, the deductions, the finished increment
and the transaction append.  Neither the claimed InsufficientStock
rejection nor the claimed success effects ever occur, and the
rolled-back transaction leaves the committed state unchanged. -/
theorem C2_theorem (cat : Catalog) (st : SysState) (cid : Nat) (q : Int) :
    (cat.combos.find? (fun c => c.id == cid) = none →
      assemble_combo_product cat st cid q = .error .notFound) ∧
    (∀ combo, cat.combos.find? (fun c => c.id == cid) = some combo →
      assemble_combo_product cat st cid q = .error .attributeError) := by
  constructor
  · intro h
    simp [assemble_combo_product, h]
  · intro combo h
    simp [assemble_combo_product, h]

/-- C2 witness: in the spec scenario the combo exists and the call ends
in the AttributeError outcome. -/
theorem C2_witness :
    catSpec.combos.find? (fun c => c.id == 1) = some comboSpec ∧
    assemble_combo_product catSpec stSpec 1 5 = .error .attributeError :=
  ⟨by decide, (C2_theorem catSpec stSpec 1 5).2 comboSpec (by decide)⟩

/-- C2 counterexample: the spec scenario itself.  5 units are available
(A = 10 semi-finished covers 2 × 5, P = 5 covers 1 × 5), so the claim
demands a success that deducts the stock, sets C.finished = 5 and
appends one assemble transaction; the call instead fails with the
unhandled AttributeError and, run through the request wrapper, leaves
the committed state unchanged. -/
theorem C2_counterexample :
    calculate_available_to_assemble comboSpec 1 stSpec.inventory = 5 ∧
    assemble_combo_product catSpec stSpec 1 5 = .error .attributeError ∧
    runOp catSpec stSpec (.assembleOp 1 5) = stSpec := by
  refine ⟨by decide, rfl, rfl⟩

/-- C10 (confirmed, though vacuously): none of the insufficient-stock
error branches inside `assemble_combo_product` can ever fire — for
0 < q ≤ available in particular — but not for the floor-arithmetic
reason the claim offers: the handler dies on the absent
`request.warehouse_id` field right after the 404 lookup, so every call
returns NotFound or the unhandled AttributeError, and the deduction
branches behind the availability check are unreachable. -/
theorem C10_theorem (cat : Catalog) (st : SysState) (cid : Nat) (q : Int) :
    assemble_combo_product cat st cid q = .error .notFound ∨
    assemble_combo_product cat st cid q = .error .attributeError := by
  unfold assemble_combo_product
  cases cat.combos.find? (fun c => c.id == cid) with
  | none => exact Or.inl rfl
  | some combo => exact Or.inr rfl


theorem countersAt_eq (st : SysState) (p w : Nat) :
    countersAt st p w = invQuad st.inventory p w := rfl

theorem comboCountersAt_eq (st : SysState) (c w : Nat) :
    comboCountersAt st c w = comboQuad st.comboInventory c w := rfl

theorem invQuad_nonneg (db : List InventoryRecord) (p w : Nat)
    (h : ∀ r ∈ db, recNonneg r) :
    0 ≤ (invQuad db p w).it ∧ 0 ≤ (invQuad db p w).sf ∧
      0 ≤ (invQuad db p w).fi ∧ 0 ≤ (invQuad db p w).sh := by
  unfold invQuad
  cases hlk : lookupInv db p w with
  | none => exact ⟨le_refl 0, le_refl 0, le_refl 0, le_refl 0⟩
  | some r => exact h r (lookupInv_mem db p w r hlk).1

theorem replayInv_append (log : List InventoryTransaction)
    (tx : InventoryTransaction) (p w : Nat) :
    replayInv (log ++ [tx]) p w =
      if (tx.product_id == p && tx.warehouse_id == w) = true then
        applyTx (replayInv log p w) tx
      else replayInv log p w := by
  unfold replayInv
  rw [List.filter_append]
  by_cases h : (tx.product_id == p && tx.warehouse_id == w) = true
  · rw [if_pos h]
    simp [h, List.foldl_append]
  · rw [if_neg h]
    simp [h, List.foldl_append]

theorem replayCombo_append (log : List ComboInventoryTransaction)
    (tx : ComboInventoryTransaction) (c w : Nat) :
    replayCombo (log ++ [tx]) c w =
      if (tx.combo_product_id == c && tx.warehouse_id == w) = true then
        applyComboTx (replayCombo log c w) tx
      else replayCombo log c w := by
  unfold replayCombo
  rw [List.filter_append]
  by_cases h : (tx.combo_product_id == c && tx.warehouse_id == w) = true
  · rw [if_pos h]
    simp [h, List.foldl_append]
  · rw [if_neg h]
    simp [h, List.foldl_append]

/-- The clamped in-transit update is exact when it cannot go negative;
it touches only the in-transit counter of its own key. -/
theorem update_in_transit_quad (db : List InventoryRecord) (p w : Nat) (q : Int)
    (hnn : 0 ≤ (invQuad db p w).it + q) :
    invQuad (update_inventory_in_transit db p w q) p w =
      { invQuad db p w with it := (invQuad db p w).it + q } ∧
    (∀ p' w', (p' ≠ p ∨ w' ≠ w) →
      invQuad (update_inventory_in_transit db p w q) p' w' = invQuad db p' w') := by
  unfold update_inventory_in_transit
  cases hlk : lookupInv db p w with
  | none =>
    have hq0 : (invQuad db p w).it = 0 := by
      unfold invQuad
      rw [hlk]
      rfl
    rw [hq0] at hnn
    constructor
    · unfold invQuad
      rw [hlk]
      unfold lookupInv at hlk ⊢
      rw [find?_append_of_none _ _ _ hlk]
      have : (List.find? (fun r => r.product_id == p && r.warehouse_id == w)
          [({ product_id := p, warehouse_id := w, in_transit := max 0 q,
              semi_finished := 0, finished := 0, shipped := 0 } :
            InventoryRecord)]) =
          some { product_id := p, warehouse_id := w, in_transit := max 0 q,
                 semi_finished := 0, finished := 0, shipped := 0 } := by
        simp
      rw [this]
      have hmax : max 0 q = 0 + q := by omega
      rw [hmax]
      rfl
    · intro p' w' hne
      unfold invQuad lookupInv
      cases hlk' : List.find? (fun r => r.product_id == p' && r.warehouse_id == w')
          db with
      | none =>
        rw [find?_append_of_none _ _ _ hlk']
        have : (List.find? (fun r => r.product_id == p' && r.warehouse_id == w')
            [({ product_id := p, warehouse_id := w, in_transit := max 0 q,
                semi_finished := 0, finished := 0, shipped := 0 } :
              InventoryRecord)]) = none := by
          simp only [List.find?_singleton]
          rcases hne with hne | hne
          · simp only [ite_eq_right_iff, Bool.and_eq_true, beq_iff_eq]
            intro h
            exact absurd h.1.symm hne
          · simp only [ite_eq_right_iff, Bool.and_eq_true, beq_iff_eq]
            intro h
            exact absurd h.2.symm hne
        rw [this]
      | some r => rw [find?_append_of_some _ _ _ _ hlk']
  | some r =>
    constructor
    · have hit : (invQuad db p w).it = r.in_transit := by
        unfold invQuad
        rw [hlk]
      rw [hit] at hnn
      have hmax : max 0 (r.in_transit + q) = r.in_transit + q := by omega
      have hsf : invQuad db p w = ⟨r.in_transit, r.semi_finished, r.finished,
          r.shipped⟩ := by
        unfold invQuad
        rw [hlk]
      rw [hsf]
      show invQuad (modifyInv db p w (addInTransitClamped q)) p w =
        ⟨r.in_transit + q, r.semi_finished, r.finished, r.shipped⟩
      unfold invQuad
      rw [lookupInv_modifyInv_self db p w _ (keysFixed_addInTransitClamped q),
        hlk, Option.map_some']
      show (⟨max 0 (r.in_transit + q), r.semi_finished, r.finished,
        r.shipped⟩ : Quad) = _
      rw [hmax]
    · intro p' w' hne
      unfold invQuad
      rw [lookupInv_modifyInv_ne db p w p' w' _
        (keysFixed_addInTransitClamped q) hne]

/-- A successful transfer over the call sites' status strings moves
exactly `q` between the two named counters of its own key. -/
theorem transfer_inventory_quad (db db' : List InventoryRecord) (p w : Nat)
    (fsE tsE : InvStatus) (q : Int)
    (hfs : fsE ≠ .shipped) (hts : tsE ≠ .inTransit)
    (hok : transfer_inventory db p w (statusStr fsE) (statusStr tsE) q = .ok db') :
    invQuad db' p w = addStatus (addStatus (invQuad db p w) fsE (-q)) tsE q ∧
    (∀ p' w', (p' ≠ p ∨ w' ≠ w) → invQuad db' p' w' = invQuad db p' w') := by
  obtain ⟨r, hlk, hdb', -, -, -⟩ := transfer_ok_state db db' p w _ _ q hok
  subst hdb'
  constructor
  · have h1 : lookupInv (modifyInv (modifyInv db p w
        (transferFrom (statusStr fsE) q)) p w (transferTo (statusStr tsE) q))
        p w = some (transferTo (statusStr tsE) q
          (transferFrom (statusStr fsE) q r)) := by
      rw [lookupInv_modifyInv_self _ _ _ _ (keysFixed_transferTo _ q),
        lookupInv_modifyInv_self _ _ _ _ (keysFixed_transferFrom _ q), hlk]
      rfl
    have h2 : invQuad db p w = ⟨r.in_transit, r.semi_finished, r.finished,
        r.shipped⟩ := by
      unfold invQuad
      rw [hlk]
    have h3 : invQuad (modifyInv (modifyInv db p w
        (transferFrom (statusStr fsE) q)) p w (transferTo (statusStr tsE) q))
        p w = ⟨(transferTo (statusStr tsE) q (transferFrom (statusStr fsE) q
            r)).in_transit,
          (transferTo (statusStr tsE) q (transferFrom (statusStr fsE) q
            r)).semi_finished,
          (transferTo (statusStr tsE) q (transferFrom (statusStr fsE) q
            r)).finished,
          (transferTo (statusStr tsE) q (transferFrom (statusStr fsE) q
            r)).shipped⟩ := by
      unfold invQuad
      rw [h1]
    rw [h2, h3]
    cases fsE <;> cases tsE <;>
      first
      | exact absurd rfl hfs
      | exact absurd rfl hts
      | (simp [transferFrom, transferTo, statusStr, addStatus,
           Quad.mk.injEq] <;> omega)
  · intro p' w' hne
    unfold invQuad
    rw [lookupInv_modifyInv_ne _ p w p' w' _ (keysFixed_transferTo _ q) hne,
      lookupInv_modifyInv_ne _ p w p' w' _ (keysFixed_transferFrom _ q) hne]
theorem createPOItems_replay (oid w : Nat) (items : List POItemReq) :
    ∀ (nid : Nat) (inv : List InventoryRecord) (log : List InventoryTransaction),
    (∀ p' w', invQuad inv p' w' = replayInv log p' w') →
    (∀ r ∈ inv, recNonneg r) →
    (∀ it ∈ items, 0 < it.quantity) →
    (∀ p' w', invQuad (createPOItems oid w items nid inv log).2.2.1 p' w' =
      replayInv (createPOItems oid w items nid inv log).2.2.2 p' w') ∧
    (∀ p', invQuad (createPOItems oid w items nid inv log).2.2.1 p' w =
      ⟨(invQuad inv p' w).it + reqSum items p', (invQuad inv p' w).sf,
        (invQuad inv p' w).fi, (invQuad inv p' w).sh⟩) ∧
    (∀ p' w', w' ≠ w →
      invQuad (createPOItems oid w items nid inv log).2.2.1 p' w' =
        invQuad inv p' w') ∧
    (∀ p', itemOutstanding (createPOItems oid w items nid inv log).1 p' =
      reqSum items p') := by
  induction items with
  | nil =>
    intro nid inv log hrepl hnn _
    refine ⟨hrepl, ?_, fun p' w' _ => rfl, fun p' => rfl⟩
    intro p'
    show invQuad inv p' w = _
    have : (invQuad inv p' w).it + reqSum [] p' = (invQuad inv p' w).it := by
      show (invQuad inv p' w).it + 0 = (invQuad inv p' w).it
      omega
    rw [this]
  | cons it rest ih =>
    intro nid inv log hrepl hnn hpos
    have hq : 0 < it.quantity := hpos it (List.mem_cons_self it rest)
    have hnn0 := invQuad_nonneg inv it.product_id w hnn
    have hupd := update_in_transit_quad inv it.product_id w it.quantity
      (by omega)
    have hnn1 := update_in_transit_nonneg inv it.product_id w it.quantity hnn
    have hrepl1 : ∀ p' w',
        invQuad (update_inventory_in_transit inv it.product_id w it.quantity)
          p' w' =
        replayInv (create_inventory_transaction log it.product_id w .purchase
          none (some .inTransit) it.quantity (some oid)) p' w' := by
      intro p' w'
      unfold create_inventory_transaction
      rw [replayInv_append]
      by_cases hkey : p' = it.product_id ∧ w' = w
      · obtain ⟨hp, hw⟩ := hkey
        rw [hp, hw, if_pos (by simp), hupd.1, ← hrepl]
        simp [applyTx, addStatus, Quad.mk.injEq]
      · have hne : p' ≠ it.product_id ∨ w' ≠ w := by
          by_cases h1 : p' = it.product_id
          · exact Or.inr (fun h2 => hkey ⟨h1, h2⟩)
          · exact Or.inl h1
        rw [hupd.2 p' w' hne, if_neg ?side, hrepl]
        case side =>
          simp only [Bool.and_eq_true, beq_iff_eq]
          rcases hne with hne | hne
          · intro h
            exact hne h.1.symm
          · intro h
            exact hne h.2.symm
    obtain ⟨ihrepl, ihdelta, ihfr, ihout⟩ := ih (nid + 1) _ _ hrepl1 hnn1
      (fun x hx => hpos x (List.mem_cons_of_mem _ hx))
    refine ⟨?_, ?_, ?_, ?_⟩
    · intro p' w'
      simp only [createPOItems]
      exact ihrepl p' w'
    · intro p'
      simp only [createPOItems, reqSum]
      rw [ihdelta p']
      by_cases hp : p' = it.product_id
      · rw [hp, hupd.1, if_pos rfl]
        simp [Quad.mk.injEq] <;> omega
      · rw [hupd.2 p' w (Or.inl hp), if_neg (fun h => hp h.symm)]
        simp [Quad.mk.injEq] <;> omega
    · intro p' w' hw
      simp only [createPOItems]
      rw [ihfr p' w' hw, hupd.2 p' w' (Or.inr hw)]
    · intro p'
      simp only [createPOItems, itemOutstanding, reqSum]
      rw [ihout p']
      by_cases hp : it.product_id = p'
      · rw [if_pos hp, if_pos hp]
        omega
      · rw [if_neg hp, if_neg hp]
theorem itemOutstanding_nonneg (items : List PurchaseOrderItem) (p : Nat)
    (h0 : ∀ x ∈ items, 0 ≤ x.quantity - x.received_quantity) :
    0 ≤ itemOutstanding items p := by
  induction items with
  | nil => exact le_refl 0
  | cons x rest ih =>
    have h1 := h0 x (List.mem_cons_self x rest)
    have h2 := ih (fun y hy => h0 y (List.mem_cons_of_mem _ hy))
    show 0 ≤ (if x.product_id = p then x.quantity - x.received_quantity else 0) +
      itemOutstanding rest p
    by_cases hp : x.product_id = p
    · rw [if_pos hp]
      omega
    · rw [if_neg hp]
      omega

theorem deletePOItems_replay (w oid : Nat) (items : List PurchaseOrderItem) :
    ∀ (inv : List InventoryRecord) (log : List InventoryTransaction),
    (∀ p' w', invQuad inv p' w' = replayInv log p' w') →
    (∀ x ∈ items, x.received_quantity = 0) →
    (∀ x ∈ items, 0 ≤ x.quantity) →
    (∀ p', itemOutstanding items p' ≤ (invQuad inv p' w).it) →
    (∀ p' w', invQuad (deletePOItems w oid items inv log).1 p' w' =
      replayInv (deletePOItems w oid items inv log).2 p' w') ∧
    (∀ p', invQuad (deletePOItems w oid items inv log).1 p' w =
      ⟨(invQuad inv p' w).it - itemOutstanding items p', (invQuad inv p' w).sf,
        (invQuad inv p' w).fi, (invQuad inv p' w).sh⟩) ∧
    (∀ p' w', w' ≠ w → invQuad (deletePOItems w oid items inv log).1 p' w' =
      invQuad inv p' w') := by
  induction items with
  | nil =>
    intro inv log hrepl _ _ _
    refine ⟨hrepl, ?_, fun p' w' _ => rfl⟩
    intro p'
    show invQuad inv p' w = _
    have : (invQuad inv p' w).it - itemOutstanding [] p' =
        (invQuad inv p' w).it := by
      show (invQuad inv p' w).it - 0 = (invQuad inv p' w).it
      omega
    rw [this]
  | cons x rest ih =>
    intro inv log hrepl hrec0 hqpos hcov
    have hx0 : x.received_quantity = 0 := hrec0 x (List.mem_cons_self x rest)
    have hxq : 0 ≤ x.quantity := hqpos x (List.mem_cons_self x rest)
    have hrestnn : 0 ≤ itemOutstanding rest x.product_id :=
      itemOutstanding_nonneg rest x.product_id
        (fun y hy => by
          have := hrec0 y (List.mem_cons_of_mem _ hy)
          have := hqpos y (List.mem_cons_of_mem _ hy)
          omega)
    have hcovx := hcov x.product_id
    have hcovx' : x.quantity + itemOutstanding rest x.product_id ≤
        (invQuad inv x.product_id w).it := by
      have : itemOutstanding (x :: rest) x.product_id =
          (x.quantity - x.received_quantity) + itemOutstanding rest
            x.product_id := by
        show (if x.product_id = x.product_id then
          x.quantity - x.received_quantity else 0) + _ = _
        rw [if_pos rfl]
      rw [this] at hcovx
      omega
    have hupd := update_in_transit_quad inv x.product_id w (-x.quantity)
      (by omega)
    have hrepl1 : ∀ p' w',
        invQuad (update_inventory_in_transit inv x.product_id w (-x.quantity))
          p' w' =
        replayInv (create_inventory_transaction log x.product_id w
          .cancelPurchase (some .inTransit) none (-x.quantity) (some oid))
          p' w' := by
      intro p' w'
      unfold create_inventory_transaction
      rw [replayInv_append]
      by_cases hkey : p' = x.product_id ∧ w' = w
      · obtain ⟨hp, hw⟩ := hkey
        rw [hp, hw, if_pos (by simp), hupd.1, ← hrepl]
        simp [applyTx, addStatus, Quad.mk.injEq]
      · have hne : p' ≠ x.product_id ∨ w' ≠ w := by
          by_cases h1 : p' = x.product_id
          · exact Or.inr (fun h2 => hkey ⟨h1, h2⟩)
          · exact Or.inl h1
        rw [hupd.2 p' w' hne, if_neg ?side, hrepl]
        case side =>
          simp only [Bool.and_eq_true, beq_iff_eq]
          rcases hne with hne | hne
          · intro h
            exact hne h.1.symm
          · intro h
            exact hne h.2.symm
    have hcov1 : ∀ p', itemOutstanding rest p' ≤
        (invQuad (update_inventory_in_transit inv x.product_id w (-x.quantity))
          p' w).it := by
      intro p'
      by_cases hp : p' = x.product_id
      · rw [hp, hupd.1]
        show _ ≤ (invQuad inv x.product_id w).it + -x.quantity
        omega
      · rw [hupd.2 p' w (Or.inl hp)]
        have hco := hcov p'
        have heq : itemOutstanding (x :: rest) p' = itemOutstanding rest p' := by
          show (if x.product_id = p' then
            x.quantity - x.received_quantity else 0) + _ = _
          rw [if_neg (fun h => hp h.symm)]
          omega
        rw [heq] at hco
        exact hco
    obtain ⟨ihrepl, ihdelta, ihfr⟩ := ih _ _ hrepl1
      (fun y hy => hrec0 y (List.mem_cons_of_mem _ hy))
      (fun y hy => hqpos y (List.mem_cons_of_mem _ hy))
      hcov1
    refine ⟨?_, ?_, ?_⟩
    · intro p' w'
      simp only [deletePOItems]
      exact ihrepl p' w'
    · intro p'
      simp only [deletePOItems, itemOutstanding]
      rw [ihdelta p']
      by_cases hp : p' = x.product_id
      · rw [hp, hupd.1, if_pos rfl]
        simp [Quad.mk.injEq] <;> omega
      · rw [hupd.2 p' w (Or.inl hp), if_neg (fun h => hp h.symm)]
        simp [Quad.mk.injEq] <;> omega
    · intro p' w' hw
      simp only [deletePOItems]
      rw [ihfr p' w' hw, hupd.2 p' w' (Or.inr hw)]
theorem modifyInv_subSemi_quad (db : List InventoryRecord) (p w : Nat) (d : Int)
    (r : InventoryRecord) (hlk : lookupInv db p w = some r) :
    invQuad (modifyInv db p w (subSemi d)) p w =
      ⟨(invQuad db p w).it, (invQuad db p w).sf - d, (invQuad db p w).fi,
        (invQuad db p w).sh⟩ ∧
    (∀ p' w', (p' ≠ p ∨ w' ≠ w) →
      invQuad (modifyInv db p w (subSemi d)) p' w' = invQuad db p' w') := by
  constructor
  · have h2 : invQuad db p w = ⟨r.in_transit, r.semi_finished, r.finished,
        r.shipped⟩ := by
      unfold invQuad
      rw [hlk]
    rw [h2]
    unfold invQuad
    rw [lookupInv_modifyInv_self db p w _ (keysFixed_subSemi d), hlk,
      Option.map_some']
    rfl
  · intro p' w' hne
    unfold invQuad
    rw [lookupInv_modifyInv_ne db p w p' w' _ (keysFixed_subSemi d) hne]

theorem packConsume_replay (w : Nat) (q : Int) (rels : List PackagingRelation) :
    ∀ (inv : List InventoryRecord) (log : List InventoryTransaction)
      (out : List InventoryRecord × List InventoryTransaction),
    (∀ p' w', invQuad inv p' w' = replayInv log p' w') →
    packConsume w q rels inv log = .ok out →
    (∀ p' w', invQuad out.1 p' w' = replayInv out.2 p' w') ∧
    (∀ p' w', (invQuad out.1 p' w').it = (invQuad inv p' w').it) := by
  induction rels with
  | nil =>
    intro inv log out hrepl hok
    injection hok with hok
    subst hok
    exact ⟨hrepl, fun p' w' => rfl⟩
  | cons rel rest ih =>
    intro inv log out hrepl hok
    cases hlk : lookupInv inv rel.packaging_id w with
    | none =>
      simp only [packConsume, hlk] at hok
      exact absurd hok (by simp)
    | some pr =>
      simp only [packConsume, hlk] at hok
      split at hok
      · exact absurd hok (by simp)
      · next hguard =>
        have hquad := modifyInv_subSemi_quad inv rel.packaging_id w
          (rel.quantity * q) pr hlk
        have hrepl1 : ∀ p' w',
            invQuad (modifyInv inv rel.packaging_id w
              (subSemi (rel.quantity * q))) p' w' =
            replayInv (create_inventory_transaction log rel.packaging_id w
              .packagingConsumption (some .semiFinished) none
              (-(rel.quantity * q)) none) p' w' := by
          intro p' w'
          unfold create_inventory_transaction
          rw [replayInv_append]
          by_cases hkey : p' = rel.packaging_id ∧ w' = w
          · obtain ⟨hp, hw⟩ := hkey
            rw [hp, hw, if_pos (by simp), hquad.1, ← hrepl]
            simp [applyTx, addStatus, Quad.mk.injEq] <;> omega
          · have hne : p' ≠ rel.packaging_id ∨ w' ≠ w := by
              by_cases h1 : p' = rel.packaging_id
              · exact Or.inr (fun h2 => hkey ⟨h1, h2⟩)
              · exact Or.inl h1
            rw [hquad.2 p' w' hne, if_neg ?side, hrepl]
            case side =>
              simp only [Bool.and_eq_true, beq_iff_eq]
              rcases hne with hne | hne
              · intro h
                exact hne h.1.symm
              · intro h
                exact hne h.2.symm
        obtain ⟨ihrepl, ihit⟩ := ih _ _ _ hrepl1 hok
        refine ⟨ihrepl, ?_⟩
        intro p' w'
        rw [ihit p' w']
        by_cases hkey : p' = rel.packaging_id ∧ w' = w
        · obtain ⟨hp, hw⟩ := hkey
          rw [hp, hw, hquad.1]
        · have hne : p' ≠ rel.packaging_id ∨ w' ≠ w := by
            by_cases h1 : p' = rel.packaging_id
            · exact Or.inr (fun h2 => hkey ⟨h1, h2⟩)
            · exact Or.inl h1
          rw [hquad.2 p' w' hne]

theorem setItemReceived_no_match (iid : Nat) (v : Int) :
    ∀ items : List PurchaseOrderItem, (∀ y ∈ items, y.id ≠ iid) →
    setItemReceived iid v items = items := by
  intro items
  induction items with
  | nil => intro _; rfl
  | cons y rest ih =>
    intro h
    show (if y.id == iid then { y with received_quantity := v } else y) ::
      setItemReceived iid v rest = y :: rest
    rw [if_neg (by simp [h y (List.mem_cons_self y rest)]),
      ih (fun z hz => h z (List.mem_cons_of_mem _ hz))]

theorem setItemReceived_proj (iid : Nat) (v : Int)
    (items : List PurchaseOrderItem) :
    (setItemReceived iid v items).map (fun x => (x.id, x.product_id, x.quantity)) =
      items.map (fun x => (x.id, x.product_id, x.quantity)) := by
  unfold setItemReceived
  rw [List.map_map]
  apply List.map_congr_left
  intro x _
  by_cases h : (x.id == iid) = true
  · simp only [Function.comp, if_pos h]
  · simp only [Function.comp, if_neg h]

theorem receivedSum_setItemReceived (items : List PurchaseOrderItem)
    (iid : Nat) (v : Int) (oi : PurchaseOrderItem) (p' : Nat)
    (hnd : (items.map (fun x => x.id)).Nodup)
    (hfind : items.find? (fun x => x.id == iid) = some oi) :
    receivedSum (setItemReceived iid v items) p' =
      receivedSum items p' +
        (if oi.product_id = p' then v - oi.received_quantity else 0) := by
  induction items with
  | nil => cases hfind
  | cons y rest ih =>
    rw [List.map_cons, List.nodup_cons] at hnd
    by_cases hy : (y.id == iid) = true
    · rw [@List.find?_cons_of_pos _ (fun x => x.id == iid) y rest hy] at hfind
      injection hfind with hfind
      subst hfind
      have hno : ∀ z ∈ rest, z.id ≠ iid := by
        intro z hz he
        apply hnd.1
        have hz2 : z.id ∈ rest.map (fun x => x.id) := List.mem_map_of_mem _ hz
        rw [he] at hz2
        have hyiid : y.id = iid := by simpa using hy
        rw [hyiid]
        exact hz2
      show receivedSum ((if y.id == iid then
          { y with received_quantity := v } else y) ::
          setItemReceived iid v rest) p' = _
      rw [if_pos hy, setItemReceived_no_match iid v rest hno]
      show (if y.product_id = p' then v else 0) + receivedSum rest p' =
        ((if y.product_id = p' then y.received_quantity else 0) +
          receivedSum rest p') +
          (if y.product_id = p' then v - y.received_quantity else 0)
      by_cases hp : y.product_id = p'
      · rw [if_pos hp, if_pos hp, if_pos hp]
        omega
      · rw [if_neg hp, if_neg hp, if_neg hp]
        omega
    · rw [@List.find?_cons_of_neg _ (fun x => x.id == iid) y rest hy] at hfind
      have := ih hnd.2 hfind
      show receivedSum ((if y.id == iid then
          { y with received_quantity := v } else y) ::
          setItemReceived iid v rest) p' = _
      rw [if_neg hy]
      show (if y.product_id = p' then y.received_quantity else 0) +
        receivedSum (setItemReceived iid v rest) p' = _
      rw [this]
      show _ = ((if y.product_id = p' then y.received_quantity else 0) +
        receivedSum rest p') + _
      omega
theorem receiveLines_replay (w oid : Nat) (lines : List ReceiveLine) :
    ∀ (items : List PurchaseOrderItem) (inv : List InventoryRecord)
      (log : List InventoryTransaction)
      (out : List PurchaseOrderItem × List InventoryRecord × List InventoryTransaction),
    (∀ p' w', invQuad inv p' w' = replayInv log p' w') →
    (items.map (fun x => x.id)).Nodup →
    (∀ x ∈ items, 0 ≤ x.received_quantity) →
    (∀ l ∈ lines, 0 ≤ l.received_quantity) →
    receiveLines w oid lines items inv log = .ok out →
    (∀ p' w', invQuad out.2.1 p' w' = replayInv out.2.2 p' w') ∧
    (∀ p', invQuad out.2.1 p' w =
      ⟨(invQuad inv p' w).it - (receivedSum out.1 p' - receivedSum items p'),
        (invQuad inv p' w).sf + (receivedSum out.1 p' - receivedSum items p'),
        (invQuad inv p' w).fi, (invQuad inv p' w).sh⟩) ∧
    (∀ p' w', w' ≠ w → invQuad out.2.1 p' w' = invQuad inv p' w') ∧
    (out.1.map (fun x => (x.id, x.product_id, x.quantity)) =
      items.map (fun x => (x.id, x.product_id, x.quantity))) ∧
    (∀ x ∈ out.1, 0 ≤ x.received_quantity) := by
  induction lines with
  | nil =>
    intro items inv log out hrepl hnd hrnn _ hok
    injection hok with hok
    subst hok
    refine ⟨hrepl, ?_, fun p' w' _ => rfl, rfl, hrnn⟩
    intro p'
    show invQuad inv p' w = _
    have : receivedSum items p' - receivedSum items p' = 0 := by omega
    rw [this]
    show invQuad inv p' w = ⟨(invQuad inv p' w).it - 0,
      (invQuad inv p' w).sf + 0, (invQuad inv p' w).fi, (invQuad inv p' w).sh⟩
    have h1 : (invQuad inv p' w).it - 0 = (invQuad inv p' w).it := by omega
    have h2 : (invQuad inv p' w).sf + 0 = (invQuad inv p' w).sf := by omega
    rw [h1, h2]
  | cons l rest ih =>
    intro items inv log out hrepl hnd hrnn hl hok
    cases hfind : items.find? (fun it => it.id == l.item_id) with
    | none =>
      simp only [receiveLines, hfind] at hok
      exact absurd hok (by simp)
    | some oi =>
      simp only [receiveLines, hfind] at hok
      split at hok
      · exact absurd hok (by simp)
      · next hguard =>
        cases htr : transfer_inventory inv oi.product_id w "in_transit"
            "semi_finished" l.received_quantity with
        | error e => rw [htr] at hok; exact absurd hok (by simp)
        | ok inv1 =>
          rw [htr] at hok
          have hquad := transfer_inventory_quad inv inv1 oi.product_id w
            .inTransit .semiFinished l.received_quantity
            (by intro h; cases h) (by intro h; cases h) htr
          have hsum := fun p' => receivedSum_setItemReceived items l.item_id
            (oi.received_quantity + l.received_quantity) oi p' hnd hfind
          have hrepl1 : ∀ p' w', invQuad inv1 p' w' =
              replayInv (create_inventory_transaction log oi.product_id w
                .arrival (some .inTransit) (some .semiFinished)
                l.received_quantity (some oid)) p' w' := by
            intro p' w'
            unfold create_inventory_transaction
            rw [replayInv_append]
            by_cases hkey : p' = oi.product_id ∧ w' = w
            · obtain ⟨hp, hw⟩ := hkey
              rw [hp, hw, if_pos (by simp), hquad.1, ← hrepl]
              simp [applyTx, addStatus, Quad.mk.injEq]
            · have hne : p' ≠ oi.product_id ∨ w' ≠ w := by
                by_cases h1 : p' = oi.product_id
                · exact Or.inr (fun h2 => hkey ⟨h1, h2⟩)
                · exact Or.inl h1
              rw [hquad.2 p' w' hne, if_neg ?side, hrepl]
              case side =>
                simp only [Bool.and_eq_true, beq_iff_eq]
                rcases hne with hne | hne
                · intro h
                  exact hne h.1.symm
                · intro h
                  exact hne h.2.symm
          have hrnn1 : ∀ x ∈ setItemReceived l.item_id
              (oi.received_quantity + l.received_quantity) items,
              0 ≤ x.received_quantity := by
            intro x hx
            unfold setItemReceived at hx
            rcases List.mem_map.mp hx with ⟨y, hy, heq⟩
            by_cases hid : (y.id == l.item_id) = true
            · rw [if_pos hid] at heq
              subst heq
              have h1 := hrnn oi
                (List.mem_of_find?_eq_some (p := fun x => x.id == l.item_id)
                  hfind)
              have h2 := hl l (List.mem_cons_self l rest)
              show 0 ≤ oi.received_quantity + l.received_quantity
              omega
            · rw [if_neg hid] at heq
              subst heq
              exact hrnn y hy
          have hnd1 : ((setItemReceived l.item_id
              (oi.received_quantity + l.received_quantity) items).map
              (fun x => x.id)).Nodup := by
            rw [setItemReceived_ids]
            exact hnd
          obtain ⟨ihrepl, ihdelta, ihfr, ihproj, ihrnn⟩ := ih _ _ _ _ hrepl1
            hnd1 hrnn1 (fun x hx => hl x (List.mem_cons_of_mem _ hx)) hok
          refine ⟨ihrepl, ?_, ?_, ?_, ihrnn⟩
          · intro p'
            rw [ihdelta p', hsum p']
            by_cases hp : p' = oi.product_id
            · rw [hp, hquad.1, if_pos rfl]
              simp [addStatus, Quad.mk.injEq] <;> omega
            · rw [hquad.2 p' w (Or.inl hp), if_neg (fun h => hp h.symm)]
              simp [Quad.mk.injEq] <;> omega
          · intro p' w' hw
            rw [ihfr p' w' hw, hquad.2 p' w' (Or.inr hw)]
          · rw [ihproj, setItemReceived_proj]
theorem itemOutstanding_eq (items : List PurchaseOrderItem) (p : Nat) :
    itemOutstanding items p = qtySum items p - receivedSum items p := by
  induction items with
  | nil => rfl
  | cons x rest ih =>
    show (if x.product_id = p then x.quantity - x.received_quantity else 0) +
      itemOutstanding rest p =
      ((if x.product_id = p then x.quantity else 0) + qtySum rest p) -
        ((if x.product_id = p then x.received_quantity else 0) +
          receivedSum rest p)
    rw [ih]
    by_cases hp : x.product_id = p
    · rw [if_pos hp, if_pos hp, if_pos hp]
      omega
    · rw [if_neg hp, if_neg hp, if_neg hp]
      omega

theorem qtySum_proj (l1 : List PurchaseOrderItem) :
    ∀ l2 : List PurchaseOrderItem,
    l1.map (fun x => (x.id, x.product_id, x.quantity)) =
      l2.map (fun x => (x.id, x.product_id, x.quantity)) →
    ∀ p, qtySum l1 p = qtySum l2 p := by
  induction l1 with
  | nil =>
    intro l2 h p
    cases l2 with
    | nil => rfl
    | cons y l2 => cases h
  | cons x l1 ih =>
    intro l2 h p
    cases l2 with
    | nil => cases h
    | cons y l2 =>
      rw [List.map_cons, List.map_cons] at h
      injection h with h1 h2
      have hpq : x.product_id = y.product_id ∧ x.quantity = y.quantity := by
        have := congrArg Prod.snd h1
        simp only [Prod.mk.injEq] at this
        exact ⟨this.1, this.2⟩
      show (if x.product_id = p then x.quantity else 0) + qtySum l1 p =
        (if y.product_id = p then y.quantity else 0) + qtySum l2 p
      rw [hpq.1, hpq.2, ih l2 h2 p]

theorem ordersOutstanding_append (orders : List PurchaseOrder)
    (o : PurchaseOrder) (p w : Nat) :
    ordersOutstanding (orders ++ [o]) p w =
      ordersOutstanding orders p w +
        (if o.warehouse_id = w then itemOutstanding o.items p else 0) := by
  induction orders with
  | nil =>
    show (if o.warehouse_id = w then itemOutstanding o.items p else 0) + 0 =
      0 + (if o.warehouse_id = w then itemOutstanding o.items p else 0)
    omega
  | cons a rest ih =>
    show (if a.warehouse_id = w then itemOutstanding a.items p else 0) +
      ordersOutstanding (rest ++ [o]) p w = _
    rw [ih]
    show _ = ((if a.warehouse_id = w then itemOutstanding a.items p else 0) +
      ordersOutstanding rest p w) + _
    omega

theorem modifyOrder_no_match (oid : Nat) (f : PurchaseOrder → PurchaseOrder) :
    ∀ orders : List PurchaseOrder, (∀ o ∈ orders, o.id ≠ oid) →
    modifyOrder orders oid f = orders := by
  intro orders
  induction orders with
  | nil => intro _; rfl
  | cons a rest ih =>
    intro h
    show (if a.id == oid then f a else a) :: modifyOrder rest oid f = a :: rest
    rw [if_neg (by simp [h a (List.mem_cons_self a rest)]),
      ih (fun o ho => h o (List.mem_cons_of_mem _ ho))]

theorem ordersOutstanding_modifyOrder (oid : Nat)
    (f : PurchaseOrder → PurchaseOrder) (o : PurchaseOrder) (p w : Nat) :
    ∀ orders : List PurchaseOrder,
    (orders.map (fun x => x.id)).Nodup →
    lookupOrder orders oid = some o →
    ordersOutstanding (modifyOrder orders oid f) p w =
      ordersOutstanding orders p w +
        ((if (f o).warehouse_id = w then itemOutstanding (f o).items p else 0) -
          (if o.warehouse_id = w then itemOutstanding o.items p else 0)) := by
  intro orders
  induction orders with
  | nil => intro _ h; cases h
  | cons a rest ih =>
    intro hnd hlo
    rw [List.map_cons, List.nodup_cons] at hnd
    by_cases ha : (a.id == oid) = true
    · have hao : a = o := by
        unfold lookupOrder at hlo
        rw [@List.find?_cons_of_pos _ (fun x => x.id == oid) a rest ha] at hlo
        injection hlo with hlo
      have hno : ∀ o' ∈ rest, o'.id ≠ oid := by
        intro o' ho' he
        apply hnd.1
        have h1 : o'.id ∈ rest.map (fun x => x.id) := List.mem_map_of_mem _ ho'
        rw [he] at h1
        have h2 : a.id = oid := by simpa using ha
        rw [h2]
        exact h1
      have hstep : modifyOrder (a :: rest) oid f = f a :: rest := by
        show (if a.id == oid then f a else a) :: modifyOrder rest oid f = _
        rw [if_pos ha, modifyOrder_no_match oid f rest hno]
      rw [hstep]
      subst hao
      show (if (f a).warehouse_id = w then itemOutstanding (f a).items p
          else 0) + ordersOutstanding rest p w =
        ((if a.warehouse_id = w then itemOutstanding a.items p else 0) +
          ordersOutstanding rest p w) +
          ((if (f a).warehouse_id = w then itemOutstanding (f a).items p
            else 0) -
            (if a.warehouse_id = w then itemOutstanding a.items p else 0))
      omega
    · unfold lookupOrder at hlo
      rw [@List.find?_cons_of_neg _ (fun x => x.id == oid) a rest ha] at hlo
      have hih := ih hnd.2 hlo
      have hstep : modifyOrder (a :: rest) oid f =
          a :: modifyOrder rest oid f := by
        show (if a.id == oid then f a else a) :: modifyOrder rest oid f = _
        rw [if_neg ha]
      rw [hstep]
      show (if a.warehouse_id = w then itemOutstanding a.items p else 0) +
        ordersOutstanding (modifyOrder rest oid f) p w = _
      rw [hih]
      show _ = ((if a.warehouse_id = w then itemOutstanding a.items p else 0) +
        ordersOutstanding rest p w) + _
      omega

theorem ordersOutstanding_filter (oid : Nat) (o : PurchaseOrder) (p w : Nat) :
    ∀ orders : List PurchaseOrder,
    (orders.map (fun x => x.id)).Nodup →
    lookupOrder orders oid = some o →
    ordersOutstanding (orders.filter (fun q => !(q.id == oid))) p w =
      ordersOutstanding orders p w -
        (if o.warehouse_id = w then itemOutstanding o.items p else 0) := by
  intro orders
  induction orders with
  | nil => intro _ h; cases h
  | cons a rest ih =>
    intro hnd hlo
    rw [List.map_cons, List.nodup_cons] at hnd
    by_cases ha : (a.id == oid) = true
    · have hao : a = o := by
        unfold lookupOrder at hlo
        rw [@List.find?_cons_of_pos _ (fun x => x.id == oid) a rest ha] at hlo
        injection hlo with hlo
      have hno : ∀ o' ∈ rest, o'.id ≠ oid := by
        intro o' ho' he
        apply hnd.1
        have h1 : o'.id ∈ rest.map (fun x => x.id) := List.mem_map_of_mem _ ho'
        rw [he] at h1
        have h2 : a.id = oid := by simpa using ha
        rw [h2]
        exact h1
      have hfe : rest.filter (fun q => !(q.id == oid)) = rest := by
        apply List.filter_eq_self.mpr
        intro o' ho'
        simp [hno o' ho']
      rw [List.filter_cons, if_neg (by simp [ha]), hfe]
      subst hao
      show ordersOutstanding rest p w =
        ((if a.warehouse_id = w then itemOutstanding a.items p else 0) +
          ordersOutstanding rest p w) -
          (if a.warehouse_id = w then itemOutstanding a.items p else 0)
      omega
    · unfold lookupOrder at hlo
      rw [@List.find?_cons_of_neg _ (fun x => x.id == oid) a rest ha] at hlo
      rw [List.filter_cons, if_pos (by simp [ha])]
      show (if a.warehouse_id = w then itemOutstanding a.items p else 0) +
        ordersOutstanding (rest.filter (fun q => !(q.id == oid))) p w = _
      rw [ih hnd.2 hlo]
      show _ = ((if a.warehouse_id = w then itemOutstanding a.items p else 0) +
        ordersOutstanding rest p w) - _
      omega

theorem ordersOutstanding_nonneg (orders : List PurchaseOrder) (p w : Nat)
    (hnn : ∀ o' ∈ orders, ∀ x ∈ o'.items, 0 ≤ x.quantity - x.received_quantity) :
    0 ≤ ordersOutstanding orders p w := by
  induction orders with
  | nil => exact le_refl 0
  | cons a rest ih =>
    have ha : 0 ≤ (if a.warehouse_id = w then itemOutstanding a.items p
        else 0) := by
      by_cases haw : a.warehouse_id = w
      · rw [if_pos haw]
        exact itemOutstanding_nonneg a.items p (hnn a (List.mem_cons_self a rest))
      · rw [if_neg haw]
    have hr := ih (fun o' ho' => hnn o' (List.mem_cons_of_mem _ ho'))
    show 0 ≤ (if a.warehouse_id = w then itemOutstanding a.items p else 0) +
      ordersOutstanding rest p w
    omega

theorem ordersOutstanding_member_le (orders : List PurchaseOrder)
    (o : PurchaseOrder) (p w : Nat) (ho : o ∈ orders)
    (hnn : ∀ o' ∈ orders, ∀ x ∈ o'.items, 0 ≤ x.quantity - x.received_quantity)
    (hw : o.warehouse_id = w) :
    itemOutstanding o.items p ≤ ordersOutstanding orders p w := by
  induction orders with
  | nil => cases ho
  | cons a rest ih =>
    have hannn : 0 ≤ (if a.warehouse_id = w then itemOutstanding a.items p
        else 0) := by
      by_cases haw : a.warehouse_id = w
      · rw [if_pos haw]
        exact itemOutstanding_nonneg a.items p
          (hnn a (List.mem_cons_self a rest))
      · rw [if_neg haw]
    have hrest : 0 ≤ ordersOutstanding rest p w :=
      ordersOutstanding_nonneg rest p w
        (fun o' ho' => hnn o' (List.mem_cons_of_mem _ ho'))
    rcases List.mem_cons.mp ho with he | hm
    · subst he
      show itemOutstanding o.items p ≤
        (if o.warehouse_id = w then itemOutstanding o.items p else 0) +
          ordersOutstanding rest p w
      rw [if_pos hw]
      omega
    · have := ih hm (fun o' ho' => hnn o' (List.mem_cons_of_mem _ ho'))
      show itemOutstanding o.items p ≤
        (if a.warehouse_id = w then itemOutstanding a.items p else 0) +
          ordersOutstanding rest p w
      omega

theorem modifyOrder_ids (orders : List PurchaseOrder) (oid : Nat)
    (f : PurchaseOrder → PurchaseOrder) (hf : ∀ o, (f o).id = o.id) :
    (modifyOrder orders oid f).map (fun o => o.id) =
      orders.map (fun o => o.id) := by
  unfold modifyOrder
  rw [List.map_map]
  apply List.map_congr_left
  intro o _
  by_cases h : (o.id == oid) = true
  · simp only [Function.comp, if_pos h, hf o]
  · simp only [Function.comp, if_neg h]
theorem mem_modifyOrder_keyed (db : List PurchaseOrder) (oid : Nat)
    (f : PurchaseOrder → PurchaseOrder) (o' : PurchaseOrder)
    (h : o' ∈ modifyOrder db oid f) :
    (∃ o0 ∈ db, (o0.id == oid) = true ∧ o' = f o0) ∨ o' ∈ db := by
  unfold modifyOrder at h
  rcases List.mem_map.mp h with ⟨o0, ho0, heq⟩
  by_cases hk : (o0.id == oid) = true
  · rw [if_pos hk] at heq
    exact Or.inl ⟨o0, ho0, hk, heq.symm⟩
  · rw [if_neg hk] at heq
    exact Or.inr (heq ▸ ho0)

theorem lookupOrder_of_mem_nodup (orders : List PurchaseOrder) (oid : Nat)
    (o0 : PurchaseOrder) (hnd : (orders.map (fun x => x.id)).Nodup)
    (hmem : o0 ∈ orders) (hk : (o0.id == oid) = true) :
    lookupOrder orders oid = some o0 := by
  induction orders with
  | nil => cases hmem
  | cons a rest ih =>
    rw [List.map_cons, List.nodup_cons] at hnd
    rcases List.mem_cons.mp hmem with he | hm
    · subst he
      unfold lookupOrder
      rw [@List.find?_cons_of_pos _ (fun x => x.id == oid) o0 rest hk]
    · by_cases ha : (a.id == oid) = true
      · exfalso
        apply hnd.1
        have h1 : o0.id ∈ rest.map (fun x => x.id) := List.mem_map_of_mem _ hm
        have h2 : a.id = oid := by simpa using ha
        have h3 : o0.id = oid := by simpa using hk
        rw [h2, ← h3]
        exact h1
      · unfold lookupOrder at ih ⊢
        rw [@List.find?_cons_of_neg _ (fun x => x.id == oid) a rest ha]
        exact ih hnd.2 hm

theorem create_purchase_order_c4 (st : SysState) (w : Nat)
    (items : List POItemReq) (hpos : ∀ it ∈ items, 0 < it.quantity)
    (hinv : c4Inv st) :
    replayOk (create_purchase_order st w items) ∧
    comboReplayOk (create_purchase_order st w items) ∧
    receivedNonneg (create_purchase_order st w items) ∧
    pendingZero (create_purchase_order st w items) ∧
    inTransitCover (create_purchase_order st w items) ∧
    orderIdsOk (create_purchase_order st w items) := by
  obtain ⟨hrepl, hcombo, hnn, -, -, -, hrnn, hpz, hcov, hoid⟩ := hinv
  have hreplL : ∀ p' w', invQuad st.inventory p' w' = replayInv st.invLog p' w' :=
    hrepl
  obtain ⟨lrepl, ldelta, lfr, lout⟩ := createPOItems_replay st.next_order_id w
    items st.next_item_id st.inventory st.invLog hreplL hnn.1 hpos
  have hitems := createPOItems_items st.next_order_id w items st.next_item_id
    st.inventory st.invLog
  refine ⟨lrepl, hcombo, ?_, ?_, ?_, ?_, ?_⟩
  · intro o ho
    rw [create_purchase_order_orders] at ho
    rcases List.mem_append.mp ho with hm | hm
    · exact hrnn o hm
    · simp only [List.mem_singleton] at hm
      subst hm
      intro x hx
      have h1 := (hitems.1 x hx).2.1
      omega
  · intro o ho
    rw [create_purchase_order_orders] at ho
    rcases List.mem_append.mp ho with hm | hm
    · exact hpz o hm
    · simp only [List.mem_singleton] at hm
      subst hm
      intro _ x hx
      exact (hitems.1 x hx).2.1
  · intro p w0
    have hout : ordersOutstanding (create_purchase_order st w items).orders p w0 =
        ordersOutstanding st.orders p w0 +
          (if w = w0 then reqSum items p else 0) := by
      rw [create_purchase_order_orders, ordersOutstanding_append]
      by_cases hw : w = w0
      · rw [if_pos hw, if_pos hw, lout p]
      · rw [if_neg hw, if_neg hw]
    rw [hout]
    by_cases hw : w0 = w
    · rw [hw]
      rw [if_pos rfl]
      have hc := hcov p w
      have hd : (countersAt (create_purchase_order st w items) p w).it =
          (countersAt st p w).it + reqSum items p := by
        rw [countersAt_eq, countersAt_eq]
        show (invQuad (createPOItems st.next_order_id w items st.next_item_id
          st.inventory st.invLog).2.2.1 p w).it = _
        rw [ldelta p]
      rw [hd]
      omega
    · rw [if_neg (fun h => hw h.symm)]
      have hd : (countersAt (create_purchase_order st w items) p w0).it =
          (countersAt st p w0).it := by
        rw [countersAt_eq, countersAt_eq]
        show (invQuad (createPOItems st.next_order_id w items st.next_item_id
          st.inventory st.invLog).2.2.1 p w0).it = _
        rw [lfr p w0 hw]
      rw [hd]
      have := hcov p w0
      omega
  · intro o ho
    rw [create_purchase_order_orders] at ho
    show o.id < st.next_order_id + 1
    rcases List.mem_append.mp ho with hm | hm
    · have := hoid.1 o hm
      omega
    · simp only [List.mem_singleton] at hm
      subst hm
      show st.next_order_id < st.next_order_id + 1
      omega
  · rw [create_purchase_order_orders, List.map_append]
    refine List.Nodup.append hoid.2 (List.nodup_singleton _) ?_
    intro a ha hb
    simp only [List.map_cons, List.map_nil, List.mem_singleton] at hb
    rcases List.mem_map.mp ha with ⟨o, ho, hid⟩
    have h1 := hoid.1 o ho
    subst hb
    have hid' : o.id = st.next_order_id := hid
    show False
    omega

theorem update_purchase_order_c4 (st : SysState) (oid : Nat)
    (stat : Option OrderStatus) (st' : SysState) (hinv : c4Inv st)
    (hok : update_purchase_order st oid none stat = .ok st') :
    replayOk st' ∧ comboReplayOk st' ∧ receivedNonneg st' ∧ pendingZero st' ∧
    inTransitCover st' ∧ orderIdsOk st' := by
  obtain ⟨hrepl, hcombo, -, -, -, -, hrnn, hpz, hcov, hoid⟩ := hinv
  obtain ⟨o, hlo, hpend, hst'⟩ := update_purchase_order_ok st oid none stat
    st' hok
  subst hst'
  refine ⟨hrepl, hcombo, ?_, ?_, ?_, ?_⟩
  · intro o' ho'
    rcases mem_modifyOrder st.orders oid _ o' ho' with ⟨o0, h0, heq⟩ | hm
    · subst heq
      exact hrnn o0 h0
    · exact hrnn o' hm
  · intro o' ho' hp' x hx
    rcases mem_modifyOrder_keyed st.orders oid _ o' ho' with
      ⟨o0, h0, hk, heq⟩ | hm
    · have ho0 : o0 = o := by
        have := lookupOrder_of_mem_nodup st.orders oid o0 hoid.2 h0 hk
        rw [hlo] at this
        injection this with this
        exact this.symm
      subst ho0
      subst heq
      exact hpz o0 h0 hpend x hx
    · exact hpz o' hm hp' x hx
  · intro p w0
    have hout := ordersOutstanding_modifyOrder oid (applyOrderUpdate none stat)
      o p w0 st.orders hoid.2 hlo
    have hsame : (if (applyOrderUpdate none stat o).warehouse_id = w0 then
        itemOutstanding (applyOrderUpdate none stat o).items p else 0) =
        (if o.warehouse_id = w0 then itemOutstanding o.items p else 0) := rfl
    rw [hsame] at hout
    have hout2 : ordersOutstanding (modifyOrder st.orders oid
        (applyOrderUpdate none stat)) p w0 =
        ordersOutstanding st.orders p w0 := by
      rw [hout]
      omega
    show ordersOutstanding (modifyOrder st.orders oid
      (applyOrderUpdate none stat)) p w0 ≤ _
    rw [hout2]
    exact hcov p w0
  · show (∀ o' ∈ (modifyOrder st.orders oid (applyOrderUpdate none stat)),
      o'.id < st.next_order_id) ∧
      ((modifyOrder st.orders oid (applyOrderUpdate none stat)).map
        (fun o => o.id)).Nodup
    constructor
    · intro o' ho'
      show o'.id < st.next_order_id
      rcases mem_modifyOrder_keyed st.orders oid _ o' ho' with
        ⟨o0, h0, -, heq⟩ | hm
      · subst heq
        show (applyOrderUpdate none stat o0).id < st.next_order_id
        exact hoid.1 o0 h0
      · exact hoid.1 o' hm
    · show ((modifyOrder st.orders oid (applyOrderUpdate none stat)).map
        (fun o => o.id)).Nodup
      rw [modifyOrder_ids st.orders oid _ (orderIdFixed_applyOrderUpdate
        none stat)]
      exact hoid.2
theorem package_products_c4 (cat : Catalog) (st : SysState) (pid w : Nat)
    (q : Int) (st' : SysState) (hinv : c4Inv st)
    (hok : package_products cat st pid w q = .ok st') :
    replayOk st' ∧ comboReplayOk st' ∧ receivedNonneg st' ∧ pendingZero st' ∧
    inTransitCover st' ∧ orderIdsOk st' := by
  obtain ⟨hrepl, hcombo, -, -, -, -, hrnn, hpz, hcov, hoid⟩ := hinv
  have hreplL : ∀ p' w', invQuad st.inventory p' w' = replayInv st.invLog p' w' :=
    hrepl
  unfold package_products at hok
  cases hfp : cat.products.find? (fun pr => pr.id == pid) with
  | none => rw [hfp] at hok; exact absurd hok (by simp)
  | some product =>
    simp only [hfp] at hok
    split at hok
    · exact absurd hok (by simp)
    · next inv1 log1 heq =>
      split at hok
      · exact absurd hok (by simp)
      · next inv2 htr =>
        injection hok with hok
        subst hok
        have hprops : (∀ p' w', invQuad inv1 p' w' = replayInv log1 p' w') ∧
            (∀ p' w', (invQuad inv1 p' w').it = (invQuad st.inventory p' w').it) := by
          split at heq
          · split at heq
            · exact packConsume_replay w q product.packaging_relations
                st.inventory st.invLog (inv1, log1) hreplL heq
            · split at heq
              next legacy hpkustar =>
                split at heq
                · exact absurd heq (by simp)
                · next pr hlk =>
                  split at heq
                  · exact absurd heq (by simp)
                  · next hguard =>
                    injection heq with heq
                    have h1 := congrArg Prod.fst heq
                    have h2 := congrArg Prod.snd heq
                    dsimp only at h1 h2
                    subst h1
                    subst h2
                    have hquad := modifyInv_subSemi_quad st.inventory legacy w q
                      pr hlk
                    constructor
                    · intro p' w'
                      unfold create_inventory_transaction
                      rw [replayInv_append]
                      by_cases hkey : p' = legacy ∧ w' = w
                      · obtain ⟨hp, hw⟩ := hkey
                        rw [hp, hw, if_pos (by simp), hquad.1, ← hreplL]
                        simp [applyTx, addStatus, Quad.mk.injEq] <;> omega
                      · have hne : p' ≠ legacy ∨ w' ≠ w := by
                          by_cases hA : p' = legacy
                          · exact Or.inr (fun hB => hkey ⟨hA, hB⟩)
                          · exact Or.inl hA
                        rw [hquad.2 p' w' hne, if_neg ?side, hreplL]
                        case side =>
                          simp only [Bool.and_eq_true, beq_iff_eq]
                          rcases hne with hne | hne
                          · intro h
                            exact hne h.1.symm
                          · intro h
                            exact hne h.2.symm
                    · intro p' w'
                      by_cases hkey : p' = legacy ∧ w' = w
                      · obtain ⟨hp, hw⟩ := hkey
                        rw [hp, hw, hquad.1]
                      · have hne : p' ≠ legacy ∨ w' ≠ w := by
                          by_cases hA : p' = legacy
                          · exact Or.inr (fun hB => hkey ⟨hA, hB⟩)
                          · exact Or.inl hA
                        rw [hquad.2 p' w' hne]
              next =>
                injection heq with heq
                have h1 := congrArg Prod.fst heq
                have h2 := congrArg Prod.snd heq
                dsimp only at h1 h2
                subst h1
                subst h2
                exact ⟨hreplL, fun p' w' => rfl⟩
          · injection heq with heq
            have h1 := congrArg Prod.fst heq
            have h2 := congrArg Prod.snd heq
            dsimp only at h1 h2
            subst h1
            subst h2
            exact ⟨hreplL, fun p' w' => rfl⟩
        have hquadT := transfer_inventory_quad inv1 inv2 pid w .semiFinished
          .finished q (by intro h; cases h) (by intro h; cases h) htr
        have hit : ∀ p0 w0, (invQuad inv2 p0 w0).it =
            (invQuad st.inventory p0 w0).it := by
          intro p0 w0
          by_cases hkey : p0 = pid ∧ w0 = w
          · obtain ⟨h1, h2⟩ := hkey
            rw [h1, h2, hquadT.1]
            show (invQuad inv1 pid w).it = _
            rw [hprops.2 pid w]
          · have hne : p0 ≠ pid ∨ w0 ≠ w := by
              by_cases h1 : p0 = pid
              · exact Or.inr (fun h2 => hkey ⟨h1, h2⟩)
              · exact Or.inl h1
            rw [hquadT.2 p0 w0 hne, hprops.2 p0 w0]
        refine ⟨?_, hcombo, hrnn, hpz, ?_, hoid⟩
        · intro p0 w0
          show invQuad inv2 p0 w0 = _
          unfold create_inventory_transaction
          rw [replayInv_append]
          by_cases hkey : p0 = pid ∧ w0 = w
          · obtain ⟨h1, h2⟩ := hkey
            rw [h1, h2, if_pos (by simp), hquadT.1, ← hprops.1]
            simp [applyTx, addStatus, Quad.mk.injEq]
          · have hne : p0 ≠ pid ∨ w0 ≠ w := by
              by_cases h1 : p0 = pid
              · exact Or.inr (fun h2 => hkey ⟨h1, h2⟩)
              · exact Or.inl h1
            rw [hquadT.2 p0 w0 hne, if_neg ?side, hprops.1]
            case side =>
              simp only [Bool.and_eq_true, beq_iff_eq]
              rcases hne with hne | hne
              · intro h
                exact hne h.1.symm
              · intro h
                exact hne h.2.symm
        · intro p0 w0
          show ordersOutstanding st.orders p0 w0 ≤ (invQuad inv2 p0 w0).it
          rw [hit p0 w0]
          exact hcov p0 w0
theorem ship_products_c4 (st : SysState) (pid w : Nat) (q : Int)
    (st' : SysState) (hinv : c4Inv st)
    (hok : ship_products st pid w q = .ok st') :
    replayOk st' ∧ comboReplayOk st' ∧ receivedNonneg st' ∧ pendingZero st' ∧
    inTransitCover st' ∧ orderIdsOk st' := by
  obtain ⟨hrepl, hcombo, -, -, -, -, hrnn, hpz, hcov, hoid⟩ := hinv
  have hreplL : ∀ p' w', invQuad st.inventory p' w' = replayInv st.invLog p' w' :=
    hrepl
  unfold ship_products at hok
  cases htr : transfer_inventory st.inventory pid w "finished" "shipped" q with
  | error e => rw [htr] at hok; exact absurd hok (by simp)
  | ok inv2 =>
    rw [htr] at hok
    injection hok with hok
    subst hok
    have hquad := transfer_inventory_quad st.inventory inv2 pid w .finished
      .shipped q (by intro h; cases h) (by intro h; cases h) htr
    have hit : ∀ p0 w0, (invQuad inv2 p0 w0).it =
        (invQuad st.inventory p0 w0).it := by
      intro p0 w0
      by_cases hkey : p0 = pid ∧ w0 = w
      · obtain ⟨h1, h2⟩ := hkey
        rw [h1, h2, hquad.1]
        simp [addStatus]
      · have hne : p0 ≠ pid ∨ w0 ≠ w := by
          by_cases h1 : p0 = pid
          · exact Or.inr (fun h2 => hkey ⟨h1, h2⟩)
          · exact Or.inl h1
        rw [hquad.2 p0 w0 hne]
    refine ⟨?_, hcombo, hrnn, hpz, ?_, hoid⟩
    · intro p0 w0
      show invQuad inv2 p0 w0 = _
      unfold create_inventory_transaction
      rw [replayInv_append]
      by_cases hkey : p0 = pid ∧ w0 = w
      · obtain ⟨h1, h2⟩ := hkey
        rw [h1, h2, if_pos (by simp), hquad.1, ← hreplL]
        simp [applyTx, addStatus, Quad.mk.injEq]
      · have hne : p0 ≠ pid ∨ w0 ≠ w := by
          by_cases h1 : p0 = pid
          · exact Or.inr (fun h2 => hkey ⟨h1, h2⟩)
          · exact Or.inl h1
        rw [hquad.2 p0 w0 hne, if_neg ?side, hreplL]
        case side =>
          simp only [Bool.and_eq_true, beq_iff_eq]
          rcases hne with hne | hne
          · intro h
            exact hne h.1.symm
          · intro h
            exact hne h.2.symm
    · intro p0 w0
      show ordersOutstanding st.orders p0 w0 ≤ (invQuad inv2 p0 w0).it
      rw [hit p0 w0]
      exact hcov p0 w0

theorem delete_purchase_order_c4 (st : SysState) (oid : Nat) (st' : SysState)
    (hinv : c4Inv st) (hok : delete_purchase_order st oid = .ok st') :
    replayOk st' ∧ comboReplayOk st' ∧ receivedNonneg st' ∧ pendingZero st' ∧
    inTransitCover st' ∧ orderIdsOk st' := by
  obtain ⟨hrepl, hcombo, -, -, hcap, -, hrnn, hpz, hcov, hoid⟩ := hinv
  obtain ⟨o, hlo, hpend, hst'⟩ := delete_purchase_order_ok st oid st' hok
  subst hst'
  have hmem : o ∈ st.orders := lookupOrder_mem st.orders oid o hlo
  have hrz : ∀ x ∈ o.items, x.received_quantity = 0 := hpz o hmem hpend
  have hqn : ∀ x ∈ o.items, 0 ≤ x.quantity := by
    intro x hx
    have h1 := hcap o hmem x hx
    have h2 := hrz x hx
    omega
  have hnnall : ∀ o' ∈ st.orders, ∀ x ∈ o'.items,
      0 ≤ x.quantity - x.received_quantity := by
    intro o' ho' x hx
    have := hcap o' ho' x hx
    omega
  have hcover : ∀ p', itemOutstanding o.items p' ≤
      (invQuad st.inventory p' o.warehouse_id).it := by
    intro p'
    have h1 := ordersOutstanding_member_le st.orders o p' o.warehouse_id hmem
      hnnall rfl
    have h2 := hcov p' o.warehouse_id
    rw [countersAt_eq] at h2
    omega
  obtain ⟨drepl, ddelta, dfr⟩ := deletePOItems_replay o.warehouse_id oid
    o.items st.inventory st.invLog hrepl hrz hqn hcover
  refine ⟨drepl, hcombo, ?_, ?_, ?_, ?_⟩
  · intro o' ho' x hx
    exact hrnn o' (List.mem_of_mem_filter ho') x hx
  · intro o' ho' hp' x hx
    exact hpz o' (List.mem_of_mem_filter ho') hp' x hx
  · intro p w0
    have hout := ordersOutstanding_filter oid o p w0 st.orders hoid.2 hlo
    show ordersOutstanding (st.orders.filter (fun q => !(q.id == oid))) p w0 ≤
      (invQuad (deletePOItems o.warehouse_id oid o.items st.inventory
        st.invLog).1 p w0).it
    rw [hout]
    have hc := hcov p w0
    rw [countersAt_eq] at hc
    by_cases hw : o.warehouse_id = w0
    · rw [if_pos hw]
      subst hw
      have hit : (invQuad (deletePOItems o.warehouse_id oid o.items
          st.inventory st.invLog).1 p o.warehouse_id).it =
          (invQuad st.inventory p o.warehouse_id).it -
            itemOutstanding o.items p := by
        rw [ddelta p]
      rw [hit]
      omega
    · rw [if_neg hw]
      have hit : invQuad (deletePOItems o.warehouse_id oid o.items
          st.inventory st.invLog).1 p w0 = invQuad st.inventory p w0 :=
        dfr p w0 (fun h => hw h.symm)
      rw [hit]
      omega
  · constructor
    · intro o' ho'
      show o'.id < st.next_order_id
      exact hoid.1 o' (List.mem_of_mem_filter ho')
    · show ((st.orders.filter (fun q => !(q.id == oid))).map
        (fun o => o.id)).Nodup
      exact List.Nodup.sublist
        ((List.filter_sublist st.orders).map (fun o => o.id)) hoid.2

theorem receive_order_c4 (st : SysState) (oid : Nat) (lines : List ReceiveLine)
    (st' : SysState) (hinv : c4Inv st)
    (hl : ∀ l ∈ lines, 0 ≤ l.received_quantity)
    (hok : receive_order st oid lines = .ok st') :
    replayOk st' ∧ comboReplayOk st' ∧ receivedNonneg st' ∧ pendingZero st' ∧
    inTransitCover st' ∧ orderIdsOk st' := by
  obtain ⟨hrepl, hcombo, -, -, hcap, hnd, hrnn, hpz, hcov, hoid⟩ := hinv
  obtain ⟨o, out, hlo, hnc, hrl, hst'⟩ := receive_order_ok st oid lines st' hok
  subst hst'
  have hmem : o ∈ st.orders := lookupOrder_mem st.orders oid o hlo
  obtain ⟨rrepl, rdelta, rfr, rproj, rrnn⟩ := receiveLines_replay
    o.warehouse_id oid lines o.items st.inventory st.invLog (out.1, out.2)
    hrepl (hnd o hmem) (hrnn o hmem) hl (by rw [hrl])
  refine ⟨rrepl, hcombo, ?_, ?_, ?_, ?_⟩
  · intro o' ho' x hx
    rcases mem_modifyOrder_keyed st.orders oid _ o' ho' with
      ⟨o0, h0, -, heq⟩ | hm
    · subst heq
      exact rrnn x hx
    · exact hrnn o' hm x hx
  · intro o' ho' hp' x hx
    rcases mem_modifyOrder_keyed st.orders oid _ o' ho' with
      ⟨o0, h0, hk, heq⟩ | hm
    · have ho0 : o0 = o := by
        have := lookupOrder_of_mem_nodup st.orders oid o0 hoid.2 h0 hk
        rw [hlo] at this
        injection this with this
        exact this.symm
      subst ho0
      subst heq
      have hns : (if out.1.all (fun it => it.received_quantity == it.quantity)
          then OrderStatus.completed
          else if out.1.any (fun it => decide (0 < it.received_quantity)) then
            OrderStatus.partialStatus
          else o0.status) = .pending := hp'
      by_cases hall : out.1.all
          (fun it => it.received_quantity == it.quantity) = true
      · rw [if_pos hall] at hns
        cases hns
      · rw [if_neg hall] at hns
        by_cases hany : out.1.any
            (fun it => decide (0 < it.received_quantity)) = true
        · rw [if_pos hany] at hns
          cases hns
        · have hzero := List.any_eq_false.mp (Bool.eq_false_iff.mpr hany)
          have h1 := hzero x hx
          have h2 := rrnn x hx
          simp only [decide_eq_true_eq] at h1
          omega
    · exact hpz o' hm hp' x hx
  · intro p w0
    have hout := ordersOutstanding_modifyOrder oid
      (setOrderItemsStatus out.1
        (if out.1.all (fun it => it.received_quantity == it.quantity) then
          .completed
         else if out.1.any (fun it => decide (0 < it.received_quantity)) then
           .partialStatus
         else o.status)) o p w0 st.orders hoid.2 hlo
    have hsame : (if (setOrderItemsStatus out.1
        (if out.1.all (fun it => it.received_quantity == it.quantity) then
          OrderStatus.completed
         else if out.1.any (fun it => decide (0 < it.received_quantity)) then
           OrderStatus.partialStatus
         else o.status) o).warehouse_id = w0 then
        itemOutstanding (setOrderItemsStatus out.1
          (if out.1.all (fun it => it.received_quantity == it.quantity) then
            OrderStatus.completed
           else if out.1.any (fun it => decide (0 < it.received_quantity)) then
             OrderStatus.partialStatus
           else o.status) o).items p else 0) =
        (if o.warehouse_id = w0 then itemOutstanding out.1 p else 0) := rfl
    rw [hsame] at hout
    show ordersOutstanding (modifyOrder st.orders oid _) p w0 ≤
      (invQuad out.2.1 p w0).it
    rw [hout]
    have hc := hcov p w0
    rw [countersAt_eq] at hc
    have e1 : itemOutstanding out.1 p =
        qtySum o.items p - receivedSum out.1 p := by
      rw [itemOutstanding_eq, qtySum_proj out.1 o.items rproj p]
    have e2 : itemOutstanding o.items p =
        qtySum o.items p - receivedSum o.items p := itemOutstanding_eq o.items p
    by_cases hw : o.warehouse_id = w0
    · rw [if_pos hw, if_pos hw]
      subst hw
      have e3 : (invQuad out.2.1 p o.warehouse_id).it =
          (invQuad st.inventory p o.warehouse_id).it -
            (receivedSum out.1 p - receivedSum o.items p) := by
        rw [rdelta p]
      rw [e3]
      omega
    · rw [if_neg hw, if_neg hw]
      have e3 : invQuad out.2.1 p w0 = invQuad st.inventory p w0 :=
        rfr p w0 (fun h => hw h.symm)
      rw [e3]
      omega
  · constructor
    · intro o' ho'
      show o'.id < st.next_order_id
      rcases mem_modifyOrder_keyed st.orders oid _ o' ho' with
        ⟨o0, h0, -, heq⟩ | hm
      · subst heq
        exact hoid.1 o0 h0
      · exact hoid.1 o' hm
    · show ((modifyOrder st.orders oid _).map (fun o => o.id)).Nodup
      rw [modifyOrder_ids st.orders oid _
        (orderIdFixed_setOrderItemsStatus _ _)]
      exact hoid.2
/-- One boundary-accepted request preserves the full ledger-replay
invariant bundle, provided it is not a combo assembly (which deducts
semi-finished stock without logging inventory transactions), does not
move an order between warehouses, and has a positive combo-ship
quantity. -/
theorem runOp_c4 (cat : Catalog) (st : SysState) (op : Op)
    (hkw : opKeepsWarehouse op = true)
    (hinv : c4Inv st) : c4Inv (runOp cat st op) := by
  have hinv' := hinv
  obtain ⟨-, -, hnn, hk, hcap, hnd, -, -, -, -⟩ := hinv'
  have hb1 := runOp_invariants cat st op hnn hk
  have hb2 := runOp_itemsCap cat st op hcap hnd
  by_cases hb : boundaryOk op = true
  · cases hap : applyOp cat st op with
    | error e =>
      have he : runOp cat st op = st := by
        unfold runOp
        rw [if_pos hb, hap]
      rw [he]
      exact hinv
    | ok st' =>
      have he : runOp cat st op = st' := by
        unfold runOp
        rw [if_pos hb, hap]
      rw [he] at hb1 hb2 ⊢
      have hsix : replayOk st' ∧ comboReplayOk st' ∧ receivedNonneg st' ∧
          pendingZero st' ∧ inTransitCover st' ∧ orderIdsOk st' := by
        cases op with
        | createPO w items =>
          simp only [applyOp] at hap
          injection hap with hap
          subst hap
          have hpos : ∀ it ∈ items, 0 < it.quantity := by
            simp only [boundaryOk, purchaseOrderCreateValid, poItemReqValid,
              Bool.and_eq_true, List.all_eq_true, decide_eq_true_eq] at hb
            exact hb.2
          exact create_purchase_order_c4 st w items hpos hinv
        | receivePO oid lines =>
          simp only [applyOp] at hap
          have hl : ∀ l ∈ lines, 0 ≤ l.received_quantity := by
            simp only [boundaryOk, receiveOrderRequestValid,
              receiveItemRequestValid, Bool.and_eq_true, List.all_eq_true,
              decide_eq_true_eq] at hb
            exact hb.2
          exact receive_order_c4 st oid lines st' hinv hl hap
        | updatePO oid wh stat =>
          simp only [applyOp] at hap
          cases wh with
          | some w0 => simp [opKeepsWarehouse] at hkw
          | none => exact update_purchase_order_c4 st oid stat st' hinv hap
        | deletePO oid =>
          simp only [applyOp] at hap
          exact delete_purchase_order_c4 st oid st' hinv hap
        | packOp pid w q =>
          simp only [applyOp] at hap
          exact package_products_c4 cat st pid w q st' hinv hap
        | shipOp pid w q =>
          simp only [applyOp] at hap
          exact ship_products_c4 st pid w q st' hinv hap
        | assembleOp cid q =>
          simp only [applyOp] at hap
          exact absurd hap (assemble_no_ok cat st cid q st')
        | shipComboOp cid q =>
          simp only [applyOp] at hap
          exact absurd hap (ship_combo_no_ok st cid q st')
      exact ⟨hsix.1, hsix.2.1, hb1.1, hb1.2, hb2.1, hb2.2, hsix.2.2.1,
        hsix.2.2.2.1, hsix.2.2.2.2.1, hsix.2.2.2.2.2⟩
  · have he : runOp cat st op = st := by
      unfold runOp
      rw [if_neg hb]
    rw [he]
    exact hinv

theorem runOps_c4 (cat : Catalog) (ops : List Op) :
    ∀ st : SysState, (∀ op ∈ ops, opKeepsWarehouse op = true) →
    c4Inv st → c4Inv (runOps cat st ops) := by
  induction ops with
  | nil => intro st _ h; exact h
  | cons op rest ih =>
    intro st hops hinv
    have h0 := hops op (List.mem_cons_self op rest)
    exact ih (runOp cat st op) (fun o ho => hops o (List.mem_cons_of_mem op ho))
      (runOp_c4 cat st op h0 hinv)

/-- The empty store satisfies the ledger-replay invariant bundle. -/
theorem c4Inv_empty : c4Inv SysState.empty :=
  ⟨fun p w => rfl, fun c w => rfl, by decide, by decide, by decide, by decide,
   fun o ho => (List.not_mem_nil o ho).elim,
   fun o ho => (List.not_mem_nil o ho).elim, fun p w => le_refl 0,
   fun o ho => (List.not_mem_nil o ho).elim, List.nodup_nil⟩

/-- C4 (amended): along every sequence of boundary-accepted core
operations that moves no order between warehouses, starting from any
store satisfying the ledger-replay bundle — the empty store in
particular — replaying the InventoryTransaction log's quantity deltas
from all-zero counters reproduces the counters of every InventoryRecord
exactly, and replaying the ComboInventoryTransaction log reproduces the
counters of every ComboInventoryRecord exactly.  (The combo assemble
and ship endpoints never commit anything — they die on the absent
`request.warehouse_id` field — so they need no restriction.)  As
originally stated, over all boundary-accepted operations, the claim is
false: an update that moves a pending order to another warehouse
followed by `delete_purchase_order` breaks replay, because the delete
clamps its in-transit reversal at zero in the new warehouse
(`max(0, quantity - item.quantity)`) while logging the full negative
delta — see `C4_counterexample`. -/
theorem C4_theorem (cat : Catalog) (st : SysState) (ops : List Op)
    (hops : ∀ op ∈ ops, opKeepsWarehouse op = true)
    (hinv : c4Inv st) :
    replayOk (runOps cat st ops) ∧ comboReplayOk (runOps cat st ops) := by
  have h := runOps_c4 cat ops st hops hinv
  exact ⟨h.1, h.2.1⟩

/-- C4 witness: a create → receive → pack → ship run from the empty store
ends in a state whose inventory ledger replays to the exact counters. -/
theorem C4_witness :
    (∀ op ∈ ([.createPO 1 [⟨11, 5⟩], .receivePO 1 [⟨1, 5⟩],
        .packOp 11 1 3, .shipOp 11 1 2] : List Op),
      opKeepsWarehouse op = true) ∧
    (replayOk (runOps catPack SysState.empty
        [.createPO 1 [⟨11, 5⟩], .receivePO 1 [⟨1, 5⟩],
         .packOp 11 1 3, .shipOp 11 1 2]) ∧
      comboReplayOk (runOps catPack SysState.empty
        [.createPO 1 [⟨11, 5⟩], .receivePO 1 [⟨1, 5⟩],
         .packOp 11 1 3, .shipOp 11 1 2])) :=
  ⟨by decide,
   C4_theorem catPack SysState.empty
     [.createPO 1 [⟨11, 5⟩], .receivePO 1 [⟨1, 5⟩],
      .packOp 11 1 3, .shipOp 11 1 2] (by decide) c4Inv_empty⟩

/-- C4 counterexample: create an order for 5 units of product 11 in
warehouse 1 (in_transit(11, 1) = 5, one +5 purchase row), move the
still-pending order to warehouse 2, then delete it.  The delete
reverses in-transit stock in warehouse 2, where nothing is in transit:
the counter is clamped at zero while a −5 cancel row for (11, 2) is
logged, so replaying the ledger at (11, 2) yields −5 against actual
counters of 0: the claim as stated is false. -/
theorem C4_counterexample :
    (∀ op ∈ ([.createPO 1 [⟨11, 5⟩], .updatePO 1 (some 2) none,
        .deletePO 1] : List Op), boundaryOk op = true) ∧
    countersAt (runOps catPack SysState.empty
        [.createPO 1 [⟨11, 5⟩], .updatePO 1 (some 2) none, .deletePO 1])
        11 2 ≠
      replayInv (runOps catPack SysState.empty
        [.createPO 1 [⟨11, 5⟩], .updatePO 1 (some 2) none,
         .deletePO 1]).invLog 11 2 :=
  ⟨by decide, by decide⟩
end DsxErp
